import Mathlib

/-!
Verification of the protocol-bench RESPB codec, the reference RESP parser
and the metrics core, as a shallow embedding of the C sources
(src/respb_parser.c, src/respb_serializer.c, src/metrics.c,
src/valkey_resp_parser.c).

Buffers are `List Nat` of byte values; machine integers are `Nat` with
explicit `% 2^w` where the C code can overflow.  The RESPB parser is a
small state monad over the cursor position, mirroring the C macros
`CHECK_AVAIL`, `READ_STRING_2B` and `READ_STRING_4B`; each opcode of the
`switch` in `respb_parse_command` is mapped to a payload shape, and
`runShape` executes the shape exactly as the corresponding `case` body.
-/

set_option maxHeartbeats 1000000
set_option maxRecDepth 4096

namespace Respb

/-- Byte access `buf[i]` (0 out of range; every real read in the C code is
preceded by a `CHECK_AVAIL` bound check, proved below). -/
def byteAt (B : List Nat) (i : Nat) : Nat := B.getD i 0

/-- `read_u16_be` from respb_parser.c. -/
def readU16 (B : List Nat) (i : Nat) : Nat := 256 * byteAt B i + byteAt B (i + 1)

/-- `read_u32_be` from respb_parser.c. -/
def readU32 (B : List Nat) (i : Nat) : Nat :=
  2 ^ 24 * byteAt B i + 2 ^ 16 * byteAt B (i + 1) + 2 ^ 8 * byteAt B (i + 2) + byteAt B (i + 3)

/-- The `len` bytes starting at index `pos` (an argument slice
`{data = buffer + pos, len}` of the zero-copy parser). -/
def slice (B : List Nat) (pos len : Nat) : List Nat := (B.drop pos).take len

/-- Result of one parser step: success, incomplete (`return 0` in C) or
error (`return -1`).  The C parser mutates `parser->pos` in place and does
not restore it on the incomplete/error paths, so every constructor carries
the final cursor position. -/
inductive PRes (α : Type) where
  | done (a : α) (pos : Nat)
  | more (pos : Nat)
  | fail (pos : Nat)
deriving DecidableEq

/-- Final cursor position of a parser step. -/
def PRes.kpos : PRes α → Nat
  | .done _ p => p
  | .more p => p
  | .fail p => p

/-- Parser computation: cursor in, result out.  The buffer and
`buffer_len` are passed explicitly to each primitive. -/
def PM (α : Type) : Type := Nat → PRes α

def PM.pure (a : α) : PM α := fun pos => .done a pos

def PM.bind (m : PM α) (f : α → PM β) : PM β := fun pos =>
  match m pos with
  | .done a p => f a p
  | .more p => .more p
  | .fail p => .fail p

instance : Monad PM where
  pure := PM.pure
  bind := PM.bind

@[simp] theorem run_bind (m : PM α) (f : α → PM β) (pos : Nat) :
    (m >>= f) pos =
      match m pos with
      | .done a p => f a p
      | .more p => .more p
      | .fail p => .fail p := rfl

@[simp] theorem run_pure (a : α) (pos : Nat) : (pure a : PM α) pos = .done a pos := rfl

/-- `CHECK_AVAIL(parser, n)`: `if (pos + n > buffer_len) return 0`. -/
def checkAvail (blen n : Nat) : PM Unit := fun pos =>
  if pos + n > blen then .more pos else .done () pos

/-- `parser->pos += n`. -/
def advance (n : Nat) : PM Unit := fun pos => .done () (pos + n)

/-- Read the current cursor. -/
def getPos : PM Nat := fun pos => .done pos pos

/-- A skipped fixed-width field: `CHECK_AVAIL(n); parser->pos += n`. -/
def skip (blen n : Nat) : PM Unit := do
  checkAvail blen n
  advance n

/-- `skip`, or nothing when the C case has no such field (`n = 0`). -/
def skipOpt (blen n : Nat) : PM Unit :=
  if n = 0 then pure () else skip blen n

/-- `READ_STRING_2B`: 2-byte big-endian length then that many bytes,
borrowed as an argument slice. -/
def readStr2 (B : List Nat) (blen : Nat) : PM (List Nat) := do
  checkAvail blen 2
  let p ← getPos
  let len := readU16 B p
  advance 2
  checkAvail blen len
  let q ← getPos
  advance len
  pure (slice B q len)

/-- `READ_STRING_4B`: 4-byte big-endian length then that many bytes. -/
def readStr4 (B : List Nat) (blen : Nat) : PM (List Nat) := do
  checkAvail blen 4
  let p ← getPos
  let len := readU32 B p
  advance 4
  checkAvail blen len
  let q ← getPos
  advance len
  pure (slice B q len)

/-- `CHECK_AVAIL(2); v = read_u16_be(buffer + pos); pos += 2`
(the pattern used for every repeated-group count). -/
def readCnt2 (B : List Nat) (blen : Nat) : PM Nat := do
  checkAvail blen 2
  let p ← getPos
  advance 2
  pure (readU16 B p)

/-- `CHECK_AVAIL(4); v = read_u32_be(buffer + pos); pos += 4`
(module subcommand and RESP-passthrough length). -/
def readCnt4 (B : List Nat) (blen : Nat) : PM Nat := do
  checkAvail blen 4
  let p ← getPos
  advance 4
  pure (readU32 B p)

/-- `CHECK_AVAIL(1); b = buffer[pos]; pos += 1` (the GETEX flags byte). -/
def readByte (B : List Nat) (blen : Nat) : PM Nat := do
  checkAvail blen 1
  let p ← getPos
  advance 1
  pure (byteAt B p)

/-- Run `elem` a fixed number of times, concatenating the collected
argument slices.  The iteration count is the already-capped
`min count cap` of the C `for` loops. -/
def readGroup (elem : PM (List (List Nat))) : Nat → PM (List (List Nat))
  | 0 => pure []
  | k + 1 => do
    let a ← elem
    let r ← readGroup elem k
    pure (a ++ r)

/-- Group element `[2B len][bytes]` (one argument). -/
def elem1 (B : List Nat) (blen : Nat) : PM (List (List Nat)) := do
  let s ← readStr2 B blen
  pure [s]

/-- Group element `[2B len][key][4B len][value]` (MSET/HSET pairs). -/
def elem24 (B : List Nat) (blen : Nat) : PM (List (List Nat)) := do
  let k ← readStr2 B blen
  let v ← readStr4 B blen
  pure [k, v]

/-- Group element `[2B len][key][2B len][id]` (XREAD/XREADGROUP pairs). -/
def elem22 (B : List Nat) (blen : Nat) : PM (List (List Nat)) := do
  let k ← readStr2 B blen
  let v ← readStr2 B blen
  pure [k, v]

/-- The per-opcode output of a `case` body of `respb_parse_command`:
the argument slices written into `args[]` (always written at
consecutive indices from 0, so a list is a faithful model), the computed
`argc`, and the module / passthrough fields. -/
structure Payload where
  args : List (List Nat) := []
  argc : Nat := 0
  msub : Nat := 0
  mid : Nat := 0
  cid : Nat := 0
  rlen : Nat := 0
  rdata : List Nat := []
deriving DecidableEq

/-- `RESPB_MAX_ARGS` from respb.h. -/
def RESPB_MAX_ARGS : Nat := 64

/-- Payload shape of one `case` group of the `switch` in
`respb_parse_command`.  Identical case bodies are merged; the numeric
parameters are skipped-field widths taken verbatim from the C code. -/
inductive Shape where
  | argsNone
  | fixedOnly (n : Nat)
  | keyOnly
  | keyFixed (n : Nat)
  | twoStr2
  | twoStr2Fixed (n : Nat)
  | str2str4
  | str2str4Fixed (n : Nat)
  | keyFixedStr4 (n : Nat)
  | keyFixedStr2 (n : Nat)
  | threeStr2
  | threeStr2Fixed (n : Nat)
  | skipStr2 (n : Nat)
  | hsetnx
  | linsert
  | getex
  | strLoop (pre : Nat) (withKey : Bool) (trail : Nat)
  | pairLoop (withKey : Bool)
  | evalShape (four : Bool)
  | countFirstOnly
  | hexpire
  | hexpiretime
  | hgetex
  | hsetex
  | xadd
  | xdel
  | xack
  | xclaim
  | xautoclaim
  | xread
  | xreadgroup
  | migrate
  | restore
  | moduleCmd
  | passthrough
  | unknown
deriving DecidableEq

/-- Execute one shape exactly as the corresponding `case` body of
`respb_parse_command` (respb_parser.c). -/
def runShape (B : List Nat) (blen : Nat) : Shape → PM Payload
  | .argsNone => pure { argc := 0 }
  | .fixedOnly n => do
      skip blen n
      pure { argc := 0 }
  | .keyOnly => do
      let k ← readStr2 B blen
      pure { args := [k], argc := 1 }
  | .keyFixed n => do
      let k ← readStr2 B blen
      skip blen n
      pure { args := [k], argc := 1 }
  | .twoStr2 => do
      let a ← readStr2 B blen
      let b ← readStr2 B blen
      pure { args := [a, b], argc := 2 }
  | .twoStr2Fixed n => do
      let a ← readStr2 B blen
      let b ← readStr2 B blen
      skip blen n
      pure { args := [a, b], argc := 2 }
  | .str2str4 => do
      let a ← readStr2 B blen
      let b ← readStr4 B blen
      pure { args := [a, b], argc := 2 }
  | .str2str4Fixed n => do
      let a ← readStr2 B blen
      let b ← readStr4 B blen
      skip blen n
      pure { args := [a, b], argc := 2 }
  | .keyFixedStr4 n => do
      let a ← readStr2 B blen
      skip blen n
      let b ← readStr4 B blen
      pure { args := [a, b], argc := 2 }
  | .keyFixedStr2 n => do
      let a ← readStr2 B blen
      skip blen n
      let b ← readStr2 B blen
      pure { args := [a, b], argc := 2 }
  | .threeStr2 => do
      let a ← readStr2 B blen
      let b ← readStr2 B blen
      let c ← readStr2 B blen
      pure { args := [a, b, c], argc := 3 }
  | .threeStr2Fixed n => do
      let a ← readStr2 B blen
      let b ← readStr2 B blen
      let c ← readStr2 B blen
      skip blen n
      pure { args := [a, b, c], argc := 3 }
  | .skipStr2 n => do
      skip blen n
      let a ← readStr2 B blen
      pure { args := [a], argc := 1 }
  | .hsetnx => do
      let a ← readStr2 B blen
      let b ← readStr2 B blen
      let c ← readStr4 B blen
      pure { args := [a, b, c], argc := 3 }
  | .linsert => do
      let a ← readStr2 B blen
      skip blen 1
      let b ← readStr2 B blen
      let c ← readStr2 B blen
      pure { args := [a, b, c], argc := 3 }
  | .getex => do
      let k ← readStr2 B blen
      let fl ← readByte B blen
      if fl % 2 = 1 then skip blen 8 else pure ()
      pure { args := [k], argc := 1 }
  | .strLoop pre withKey trail => do
      skipOpt blen pre
      let key ← if withKey then do
          let k ← readStr2 B blen
          pure [k]
        else pure []
      let cnt ← readCnt2 B blen
      let cap := if withKey then RESPB_MAX_ARGS - 1 else RESPB_MAX_ARGS
      let xs ← readGroup (elem1 B blen) (min cnt cap)
      skipOpt blen trail
      pure { args := key ++ xs, argc := (if withKey then 1 else 0) + min cnt cap }
  | .pairLoop withKey =>
      if withKey then do
        let k ← readStr2 B blen
        let n ← readCnt2 B blen
        let xs ← readGroup (elem24 B blen) (min n ((RESPB_MAX_ARGS - 1) / 2))
        pure { args := k :: xs,
               argc := 1 + (if n < (RESPB_MAX_ARGS - 1) / 2 then n * 2 else RESPB_MAX_ARGS - 1) }
      else do
        let n ← readCnt2 B blen
        let xs ← readGroup (elem24 B blen) (min n (RESPB_MAX_ARGS / 2))
        pure { args := xs,
               argc := if n < RESPB_MAX_ARGS / 2 then n * 2 else RESPB_MAX_ARGS }
  | .evalShape four => do
      let s ← if four then readStr4 B blen else readStr2 B blen
      let nk ← readCnt2 B blen
      let keys ← readGroup (elem1 B blen) (min nk (RESPB_MAX_ARGS - 1))
      let na ← readCnt2 B blen
      let ex ← if na > 0 ∧ nk + 1 < RESPB_MAX_ARGS then do
          let a ← readStr2 B blen
          pure [a]
        else pure []
      pure { args := s :: (keys ++ ex),
             argc := if nk + (if na > 0 then 1 else 0) + 1 < RESPB_MAX_ARGS then
                       nk + (if na > 0 then 1 else 0) + 1
                     else RESPB_MAX_ARGS }
  | .countFirstOnly => do
      let cnt ← readCnt2 B blen
      let fa ← if 0 < cnt ∧ cnt < RESPB_MAX_ARGS then do
          let a ← readStr2 B blen
          pure [a]
        else pure []
      pure { args := fa, argc := if cnt > 0 then 1 else 0 }
  | .hexpire => do
      let k ← readStr2 B blen
      skip blen 11
      let p ← getPos
      let fa ← if p < blen then do
          let a ← readStr2 B blen
          pure [a]
        else pure []
      pure { args := k :: fa, argc := 2 }
  | .hexpiretime => do
      let k ← readStr2 B blen
      let nf ← readCnt2 B blen
      let fa ← if 0 < nf ∧ nf < RESPB_MAX_ARGS then do
          let a ← readStr2 B blen
          pure [a]
        else pure []
      pure { args := k :: fa, argc := if nf > 0 then 2 else 1 }
  | .hgetex => do
      let k ← readStr2 B blen
      skip blen 1
      let nf ← readCnt2 B blen
      let fa ← if 0 < nf ∧ nf < RESPB_MAX_ARGS then do
          let a ← readStr2 B blen
          pure [a]
        else pure []
      pure { args := k :: fa, argc := if nf > 0 then 2 else 1 }
  | .hsetex => do
      let k ← readStr2 B blen
      skip blen 1
      let nf ← readCnt2 B blen
      let fa ← if 0 < nf ∧ nf < RESPB_MAX_ARGS then do
          let f ← readStr2 B blen
          let v ← readStr4 B blen
          pure [f, v]
        else pure []
      pure { args := k :: fa, argc := if nf > 0 then 3 else 1 }
  | .xadd => do
      let k ← readStr2 B blen
      let i ← readStr2 B blen
      let cnt ← readCnt2 B blen
      let fa ← if cnt > 0 then do
          let f ← readStr2 B blen
          pure [f]
        else pure []
      pure { args := k :: i :: fa, argc := if cnt > 0 then 3 else 2 }
  | .xdel => do
      let k ← readStr2 B blen
      let cnt ← readCnt2 B blen
      let fa ← if cnt > 0 then do
          let f ← readStr2 B blen
          pure [f]
        else pure []
      pure { args := k :: fa, argc := if cnt > 0 then 2 else 1 }
  | .xack => do
      let k ← readStr2 B blen
      let g ← readStr2 B blen
      let cnt ← readCnt2 B blen
      let fa ← if cnt > 0 then do
          let f ← readStr2 B blen
          pure [f]
        else pure []
      pure { args := k :: g :: fa, argc := if cnt > 0 then 3 else 2 }
  | .xclaim => do
      let k ← readStr2 B blen
      let g ← readStr2 B blen
      let c ← readStr2 B blen
      skip blen 8
      let cnt ← readCnt2 B blen
      let fa ← if cnt > 0 then do
          let f ← readStr2 B blen
          pure [f]
        else pure []
      skip blen 1
      pure { args := k :: g :: c :: fa, argc := if cnt > 0 then 4 else 3 }
  | .xautoclaim => do
      let k ← readStr2 B blen
      let g ← readStr2 B blen
      let c ← readStr2 B blen
      skip blen 8
      let s ← readStr2 B blen
      pure { args := [k, g, c, s], argc := 4 }
  | .xread => do
      let nk ← readCnt2 B blen
      let xs ← readGroup (elem22 B blen) (min nk (RESPB_MAX_ARGS / 2))
      pure { args := xs,
             argc := if nk * 2 < RESPB_MAX_ARGS then nk * 2 else RESPB_MAX_ARGS }
  | .xreadgroup => do
      let g ← readStr2 B blen
      let c ← readStr2 B blen
      let nk ← readCnt2 B blen
      let xs ← readGroup (elem22 B blen) (min nk ((RESPB_MAX_ARGS - 2) / 2))
      pure { args := g :: c :: xs,
             argc := 2 + (if nk * 2 < RESPB_MAX_ARGS - 2 then nk * 2 else RESPB_MAX_ARGS - 2) }
  | .migrate => do
      let h ← readStr2 B blen
      skip blen 2
      let k ← readStr2 B blen
      skip blen 2
      skip blen 9
      pure { args := [h, k], argc := 2 }
  | .restore => do
      let k ← readStr2 B blen
      skip blen 8
      let d ← readStr4 B blen
      skip blen 1
      pure { args := [k, d], argc := 2 }
  | .moduleCmd => do
      let sub ← readCnt4 B blen
      let mid := sub / 65536 % 65536
      let cid := sub % 65536
      if mid = 0 then
        if cid = 0 then do
          let k ← readStr2 B blen
          let p ← readStr2 B blen
          let j ← readStr4 B blen
          skip blen 1
          pure { args := [k, p, j], argc := 3, msub := sub, mid := mid, cid := cid }
        else if cid = 1 then do
          let k ← readStr2 B blen
          let np ← readCnt2 B blen
          let xs ← readGroup (elem1 B blen) (min np (RESPB_MAX_ARGS - 1))
          pure { args := k :: xs, argc := 1 + min np (RESPB_MAX_ARGS - 1),
                 msub := sub, mid := mid, cid := cid }
        else do
          let k ← readStr2 B blen
          pure { args := [k], argc := 1, msub := sub, mid := mid, cid := cid }
      else if mid = 1 then
        if cid = 0 then do
          let k ← readStr2 B blen
          let i ← readStr2 B blen
          pure { args := [k, i], argc := 2, msub := sub, mid := mid, cid := cid }
        else if cid = 2 then do
          let k ← readStr2 B blen
          let i ← readStr2 B blen
          pure { args := [k, i], argc := 2, msub := sub, mid := mid, cid := cid }
        else do
          let k ← readStr2 B blen
          pure { args := [k], argc := 1, msub := sub, mid := mid, cid := cid }
      else if mid = 2 then
        if cid = 1 then do
          let k ← readStr2 B blen
          let q ← readStr2 B blen
          pure { args := [k, q], argc := 2, msub := sub, mid := mid, cid := cid }
        else do
          let k ← readStr2 B blen
          pure { args := [k], argc := 1, msub := sub, mid := mid, cid := cid }
      else do
        let k ← readStr2 B blen
        pure { args := [k], argc := 1, msub := sub, mid := mid, cid := cid }
  | .passthrough => do
      let n ← readCnt4 B blen
      checkAvail blen n
      let p ← getPos
      advance n
      pure { argc := 0, rlen := n, rdata := slice B p n }
  | .unknown => fun pos => .fail pos

/-- The opcode dispatch of the `switch` in `respb_parse_command`.
Each line lists the opcodes of one (merged) `case` group together with
the shape its body executes; every opcode value is the respb.h constant.
Opcodes not in the catalogue map to `.unknown` (the `default` branch). -/
def shapeOf (op : Nat) : Shape :=
  -- GET 0x0000, DECR 0x0003, GETDEL 0x0005, INCR 0x0009, STRLEN 0x0013
  if op = 0x0000 ∨ op = 0x0003 ∨ op = 0x0005 ∨ op = 0x0009 ∨ op = 0x0013 then .keyOnly
  -- SET 0x0001
  else if op = 0x0001 then .str2str4Fixed 9
  -- APPEND 0x0002, SETNX 0x0011
  else if op = 0x0002 ∨ op = 0x0011 then .str2str4
  -- INCRBY 0x000A, DECRBY 0x0004
  else if op = 0x000A ∨ op = 0x0004 then .keyFixed 8
  -- GETEX 0x0006
  else if op = 0x0006 then .getex
  -- GETRANGE 0x0007, SUBSTR 0x0014
  else if op = 0x0007 ∨ op = 0x0014 then .keyFixed 16
  -- GETSET 0x0008
  else if op = 0x0008 then .str2str4
  -- INCRBYFLOAT 0x000B
  else if op = 0x000B then .keyFixed 8
  -- MSETNX 0x000E, MSET 0x000D
  else if op = 0x000E ∨ op = 0x000D then .pairLoop false
  -- PSETEX 0x000F, SETEX 0x0010
  else if op = 0x000F ∨ op = 0x0010 then .keyFixedStr4 8
  -- SETRANGE 0x0012
  else if op = 0x0012 then .keyFixedStr4 8
  -- LCS 0x0015
  else if op = 0x0015 then .twoStr2Fixed 1
  -- DELIFEQ 0x0016
  else if op = 0x0016 then .str2str4
  -- EXPIRE 0x02C3
  else if op = 0x02C3 then .keyFixed 9
  -- MGET 0x000C, DEL 0x02C0, EXISTS 0x02C2, UNLINK 0x02C1
  else if op = 0x000C ∨ op = 0x02C0 ∨ op = 0x02C2 ∨ op = 0x02C1 then .strLoop 0 false 0
  -- LPUSH 0x0040, RPUSH 0x0041
  else if op = 0x0040 ∨ op = 0x0041 then .strLoop 0 true 0
  -- LPOP 0x0042, RPOP 0x0043 (optional count simplified), LLEN 0x0044
  else if op = 0x0042 ∨ op = 0x0043 ∨ op = 0x0044 then .keyOnly
  -- LRANGE 0x0045
  else if op = 0x0045 then .keyFixed 16
  -- LINDEX 0x0046
  else if op = 0x0046 then .keyFixed 8
  -- LSET 0x0047, LREM 0x0048
  else if op = 0x0047 ∨ op = 0x0048 then .keyFixedStr2 8
  -- LTRIM 0x0049
  else if op = 0x0049 then .keyFixed 16
  -- LINSERT 0x004A
  else if op = 0x004A then .linsert
  -- LPUSHX 0x004B, RPUSHX 0x004C
  else if op = 0x004B ∨ op = 0x004C then .strLoop 0 true 0
  -- RPOPLPUSH 0x004D
  else if op = 0x004D then .twoStr2
  -- LMOVE 0x004E
  else if op = 0x004E then .twoStr2Fixed 2
  -- BRPOPLPUSH 0x0053
  else if op = 0x0053 then .twoStr2Fixed 8
  -- BLMOVE 0x0054
  else if op = 0x0054 then .twoStr2Fixed 10
  -- BLMPOP 0x0055
  else if op = 0x0055 then .strLoop 8 false 1
  -- LMPOP 0x004F
  else if op = 0x004F then .strLoop 0 false 1
  -- LPOS 0x0050 (optional fields simplified)
  else if op = 0x0050 then .twoStr2
  -- BLPOP 0x0051, BRPOP 0x0052
  else if op = 0x0051 ∨ op = 0x0052 then .strLoop 0 false 8
  -- SADD 0x0080, SREM 0x0081
  else if op = 0x0080 ∨ op = 0x0081 then .strLoop 0 true 0
  -- SMEMBERS 0x0082, SCARD 0x0084, SPOP 0x0085
  else if op = 0x0082 ∨ op = 0x0084 ∨ op = 0x0085 then .keyOnly
  -- SISMEMBER 0x0083
  else if op = 0x0083 then .twoStr2
  -- SRANDMEMBER 0x0086 (optional count simplified)
  else if op = 0x0086 then .keyOnly
  -- SINTER 0x0087, SUNION 0x0089, SDIFF 0x008B, SINTERCARD 0x008F
  else if op = 0x0087 ∨ op = 0x0089 ∨ op = 0x008B ∨ op = 0x008F then .strLoop 0 false 0
  -- SINTERSTORE 0x0088, SUNIONSTORE 0x008A, SDIFFSTORE 0x008C
  else if op = 0x0088 ∨ op = 0x008A ∨ op = 0x008C then .strLoop 0 true 0
  -- SMOVE 0x008D
  else if op = 0x008D then .threeStr2
  -- SSCAN 0x008E (optional fields simplified)
  else if op = 0x008E then .keyFixed 8
  -- SMISMEMBER 0x0090
  else if op = 0x0090 then .strLoop 0 true 0
  -- HSET 0x0100, HMSET 0x0102
  else if op = 0x0100 ∨ op = 0x0102 then .pairLoop true
  -- HGET 0x0101
  else if op = 0x0101 then .twoStr2
  -- HMGET 0x0103, HDEL 0x0105
  else if op = 0x0103 ∨ op = 0x0105 then .strLoop 0 true 0
  -- HGETALL 0x0104, HKEYS 0x0109, HVALS 0x010A, HLEN 0x010B
  else if op = 0x0104 ∨ op = 0x0109 ∨ op = 0x010A ∨ op = 0x010B then .keyOnly
  -- HRANDFIELD 0x010F (optional fields simplified)
  else if op = 0x010F then .keyOnly
  -- HEXPIRE 0x0110, HEXPIREAT 0x0111, HPEXPIRE 0x0113, HPEXPIREAT 0x0114
  else if op = 0x0110 ∨ op = 0x0111 ∨ op = 0x0113 ∨ op = 0x0114 then .hexpire
  -- HEXPIRETIME 0x0112, HPEXPIRETIME 0x0115, HPTTL 0x0116, HTTL 0x0117, HPERSIST 0x0118
  else if op = 0x0112 ∨ op = 0x0115 ∨ op = 0x0116 ∨ op = 0x0117 ∨ op = 0x0118 then .hexpiretime
  -- HGETEX 0x0119
  else if op = 0x0119 then .hgetex
  -- HSETEX 0x011A
  else if op = 0x011A then .hsetex
  -- HEXISTS 0x0106, HSTRLEN 0x010D
  else if op = 0x0106 ∨ op = 0x010D then .twoStr2
  -- HINCRBY 0x0107, HINCRBYFLOAT 0x0108
  else if op = 0x0107 ∨ op = 0x0108 then .twoStr2Fixed 8
  -- HSETNX 0x010C
  else if op = 0x010C then .hsetnx
  -- HSCAN 0x010E
  else if op = 0x010E then .keyFixed 8
  -- ZADD 0x00C0 (score/member pairs skipped, simplified)
  else if op = 0x00C0 then .keyFixed 3
  -- ZREM 0x00C1
  else if op = 0x00C1 then .strLoop 0 true 0
  -- ZSCORE 0x00CD
  else if op = 0x00CD then .twoStr2
  -- ZRANGE 0x00C5, ZREVRANGE 0x00C8, ZRANGEBYSCORE 0x00C6, ZREVRANGEBYSCORE 0x00C9
  else if op = 0x00C5 ∨ op = 0x00C8 ∨ op = 0x00C6 ∨ op = 0x00C9 then .keyFixed 17
  -- ZRANGEBYLEX 0x00C7, ZREVRANGEBYLEX 0x00CA, ZREMRANGEBYLEX 0x00D1, ZLEXCOUNT 0x00D2
  else if op = 0x00C7 ∨ op = 0x00CA ∨ op = 0x00D1 ∨ op = 0x00D2 then .threeStr2
  -- BZPOPMIN 0x00D5, BZPOPMAX 0x00D6
  else if op = 0x00D5 ∨ op = 0x00D6 then .strLoop 0 false 8
  -- ZRANDMEMBER 0x00D7
  else if op = 0x00D7 then .keyOnly
  -- ZDIFF 0x00D8
  else if op = 0x00D8 then .strLoop 0 false 1
  -- ZDIFFSTORE 0x00D9
  else if op = 0x00D9 then .strLoop 0 true 0
  -- ZINTER 0x00DA, ZUNION 0x00DD
  else if op = 0x00DA ∨ op = 0x00DD then .strLoop 0 false 1
  -- ZINTERSTORE 0x00DB, ZUNIONSTORE 0x00DE
  else if op = 0x00DB ∨ op = 0x00DE then .strLoop 0 true 1
  -- ZSCAN 0x00DF
  else if op = 0x00DF then .keyFixed 8
  -- ZMPOP 0x00E0
  else if op = 0x00E0 then .strLoop 0 false 1
  -- BZMPOP 0x00E1
  else if op = 0x00E1 then .strLoop 8 false 1
  -- ZRANGESTORE 0x00E2
  else if op = 0x00E2 then .twoStr2Fixed 17
  -- ZINTERCARD 0x00DC (optional limit simplified)
  else if op = 0x00DC then .strLoop 0 false 0
  -- ZCARD 0x00C2, ZPOPMIN 0x00D3, ZPOPMAX 0x00D4
  else if op = 0x00C2 ∨ op = 0x00D3 ∨ op = 0x00D4 then .keyOnly
  -- ZCOUNT 0x00C3, ZREMRANGEBYRANK 0x00CF
  else if op = 0x00C3 ∨ op = 0x00CF then .keyFixed 16
  -- ZINCRBY 0x00C4
  else if op = 0x00C4 then .keyFixedStr2 8
  -- ZRANK 0x00CB, ZREVRANK 0x00CC
  else if op = 0x00CB ∨ op = 0x00CC then .twoStr2Fixed 1
  -- ZMSCORE 0x00CE
  else if op = 0x00CE then .strLoop 0 true 0
  -- ZREMRANGEBYSCORE 0x00D0
  else if op = 0x00D0 then .keyFixed 16
  -- PING 0x0300 (optional message simplified)
  else if op = 0x0300 then .argsNone
  -- ECHO 0x0301, AUTH 0x0302 (optional username simplified)
  else if op = 0x0301 ∨ op = 0x0302 then .keyOnly
  -- SELECT 0x0303
  else if op = 0x0303 then .fixedOnly 2
  -- QUIT 0x0304, RESET 0x0306
  else if op = 0x0304 ∨ op = 0x0306 then .argsNone
  -- HELLO 0x0305, CLIENT 0x0307
  else if op = 0x0305 ∨ op = 0x0307 then .fixedOnly 1
  -- CLUSTER 0x0340
  else if op = 0x0340 then .fixedOnly 1
  -- READONLY 0x0341, READWRITE 0x0342, ASKING 0x0343
  else if op = 0x0341 ∨ op = 0x0342 ∨ op = 0x0343 then .argsNone
  -- DBSIZE 0x03C0, SAVE 0x03C3, BGREWRITEAOF 0x03C5, LASTSAVE 0x03C6,
  -- TIME 0x03CB, ROLE 0x03CC, MONITOR 0x03CF, SYNC 0x03D1
  else if op = 0x03C0 ∨ op = 0x03C3 ∨ op = 0x03C5 ∨ op = 0x03C6 ∨
          op = 0x03CB ∨ op = 0x03CC ∨ op = 0x03CF ∨ op = 0x03D1 then .argsNone
  -- FLUSHDB 0x03C1, FLUSHALL 0x03C2, BGSAVE 0x03C4, SHUTDOWN 0x03C7
  else if op = 0x03C1 ∨ op = 0x03C2 ∨ op = 0x03C4 ∨ op = 0x03C7 then .fixedOnly 1
  -- INFO 0x03C8
  else if op = 0x03C8 then .countFirstOnly
  -- CONFIG 0x03C9, COMMAND 0x03CA, DEBUG 0x03D0, SLOWLOG 0x03D4, LATENCY 0x03D5,
  -- MEMORY 0x03D6, MODULE_CMD 0x03D7, ACL 0x03D8, COMMANDLOG 0x03DD
  else if op = 0x03C9 ∨ op = 0x03CA ∨ op = 0x03D0 ∨ op = 0x03D4 ∨ op = 0x03D5 ∨
          op = 0x03D6 ∨ op = 0x03D7 ∨ op = 0x03D8 ∨ op = 0x03DD then .fixedOnly 1
  -- REPLICAOF 0x03CD, SLAVEOF 0x03CE
  else if op = 0x03CD ∨ op = 0x03CE then .keyFixed 2
  -- PSYNC 0x03D2
  else if op = 0x03D2 then .keyFixed 8
  -- REPLCONF 0x03D3
  else if op = 0x03D3 then .countFirstOnly
  -- FAILOVER 0x03D9
  else if op = 0x03D9 then .fixedOnly 1
  -- SWAPDB 0x03DA
  else if op = 0x03DA then .fixedOnly 4
  -- LOLWUT 0x03DB
  else if op = 0x03DB then .countFirstOnly
  -- RESTORE_ASKING 0x03DC
  else if op = 0x03DC then .restore
  -- MULTI 0x0240, EXEC 0x0241, DISCARD 0x0242, UNWATCH 0x0244
  else if op = 0x0240 ∨ op = 0x0241 ∨ op = 0x0242 ∨ op = 0x0244 then .argsNone
  -- WATCH 0x0243
  else if op = 0x0243 then .strLoop 0 false 0
  -- EVAL 0x0260, EVAL_RO 0x0262
  else if op = 0x0260 ∨ op = 0x0262 then .evalShape true
  -- EVALSHA 0x0261, EVALSHA_RO 0x0263
  else if op = 0x0261 ∨ op = 0x0263 then .evalShape false
  -- SCRIPT 0x0264, FUNCTION 0x0267
  else if op = 0x0264 ∨ op = 0x0267 then .fixedOnly 1
  -- FCALL 0x0265, FCALL_RO 0x0266
  else if op = 0x0265 ∨ op = 0x0266 then .evalShape false
  -- TTL 0x02C9, PERSIST 0x02CB, PTTL 0x02CA, TYPE 0x02D1, EXPIRETIME 0x02C5,
  -- PEXPIRETIME 0x02C8, KEYS 0x02CC, DUMP 0x02D2
  else if op = 0x02C9 ∨ op = 0x02CB ∨ op = 0x02CA ∨ op = 0x02D1 ∨ op = 0x02C5 ∨
          op = 0x02C8 ∨ op = 0x02CC ∨ op = 0x02D2 then .keyOnly
  -- EXPIREAT 0x02C4, PEXPIRE 0x02C6, PEXPIREAT 0x02C7
  else if op = 0x02C4 ∨ op = 0x02C6 ∨ op = 0x02C7 then .keyFixed 9
  -- RENAME 0x02CF, RENAMENX 0x02D0
  else if op = 0x02CF ∨ op = 0x02D0 then .twoStr2
  -- RANDOMKEY 0x02CE
  else if op = 0x02CE then .argsNone
  -- SCAN 0x02CD
  else if op = 0x02CD then .fixedOnly 8
  -- RESTORE 0x02D3
  else if op = 0x02D3 then .restore
  -- MIGRATE 0x02D4
  else if op = 0x02D4 then .migrate
  -- MOVE 0x02D5
  else if op = 0x02D5 then .keyFixed 2
  -- COPY 0x02D6
  else if op = 0x02D6 then .twoStr2Fixed 3
  -- SORT 0x02D7, SORT_RO 0x02D8
  else if op = 0x02D7 ∨ op = 0x02D8 then .keyOnly
  -- TOUCH 0x02D9
  else if op = 0x02D9 then .strLoop 0 false 0
  -- OBJECT 0x02DA
  else if op = 0x02DA then .skipStr2 1
  -- WAIT 0x02DB
  else if op = 0x02DB then .fixedOnly 16
  -- WAITAOF 0x02DC
  else if op = 0x02DC then .fixedOnly 24
  -- SETBIT 0x0140
  else if op = 0x0140 then .keyFixed 9
  -- GETBIT 0x0141
  else if op = 0x0141 then .keyFixed 8
  -- BITCOUNT 0x0142
  else if op = 0x0142 then .keyOnly
  -- BITPOS 0x0143
  else if op = 0x0143 then .keyFixed 1
  -- BITOP 0x0144
  else if op = 0x0144 then .strLoop 1 true 0
  -- BITFIELD 0x0145, BITFIELD_RO 0x0146
  else if op = 0x0145 ∨ op = 0x0146 then .keyOnly
  -- PFADD 0x0160
  else if op = 0x0160 then .strLoop 0 true 0
  -- PFCOUNT 0x0161
  else if op = 0x0161 then .strLoop 0 false 0
  -- PFMERGE 0x0162
  else if op = 0x0162 then .strLoop 0 true 0
  -- PFDEBUG 0x0163
  else if op = 0x0163 then .twoStr2
  -- PFSELFTEST 0x0164
  else if op = 0x0164 then .argsNone
  -- GEOADD 0x0180 (coordinate pairs skipped, simplified)
  else if op = 0x0180 then .keyFixed 3
  -- GEODIST 0x0181
  else if op = 0x0181 then .threeStr2Fixed 1
  -- GEOHASH 0x0182, GEOPOS 0x0183
  else if op = 0x0182 ∨ op = 0x0183 then .strLoop 0 true 0
  -- GEORADIUS 0x0184, GEORADIUS_RO 0x0186
  else if op = 0x0184 ∨ op = 0x0186 then .keyFixed 18
  -- GEORADIUSBYMEMBER 0x0185, GEORADIUSBYMEMBER_RO 0x0187
  else if op = 0x0185 ∨ op = 0x0187 then .twoStr2Fixed 10
  -- GEOSEARCH 0x0188
  else if op = 0x0188 then .keyFixed 1
  -- GEOSEARCHSTORE 0x0189
  else if op = 0x0189 then .twoStr2Fixed 1
  -- XADD 0x01C0
  else if op = 0x01C0 then .xadd
  -- XLEN 0x01C1
  else if op = 0x01C1 then .keyOnly
  -- XRANGE 0x01C2, XREVRANGE 0x01C3
  else if op = 0x01C2 ∨ op = 0x01C3 then .threeStr2
  -- XREAD 0x01C4
  else if op = 0x01C4 then .xread
  -- XREADGROUP 0x01C5
  else if op = 0x01C5 then .xreadgroup
  -- XDEL 0x01C6
  else if op = 0x01C6 then .xdel
  -- XTRIM 0x01C7
  else if op = 0x01C7 then .keyFixed 10
  -- XACK 0x01C8
  else if op = 0x01C8 then .xack
  -- XPENDING 0x01C9
  else if op = 0x01C9 then .twoStr2
  -- XCLAIM 0x01CA
  else if op = 0x01CA then .xclaim
  -- XAUTOCLAIM 0x01CB
  else if op = 0x01CB then .xautoclaim
  -- XINFO 0x01CC, XGROUP 0x01CD
  else if op = 0x01CC ∨ op = 0x01CD then .skipStr2 1
  -- XSETID 0x01CE
  else if op = 0x01CE then .twoStr2
  -- PUBLISH 0x0200, SPUBLISH 0x0206
  else if op = 0x0200 ∨ op = 0x0206 then .str2str4
  -- SUBSCRIBE 0x0201, UNSUBSCRIBE 0x0202, SSUBSCRIBE 0x0207, SUNSUBSCRIBE 0x0208
  else if op = 0x0201 ∨ op = 0x0202 ∨ op = 0x0207 ∨ op = 0x0208 then .strLoop 0 false 0
  -- PSUBSCRIBE 0x0203, PUNSUBSCRIBE 0x0204
  else if op = 0x0203 ∨ op = 0x0204 then .strLoop 0 false 0
  -- PUBSUB 0x0205
  else if op = 0x0205 then .fixedOnly 1
  -- MODULE 0xF000
  else if op = 0xF000 then .moduleCmd
  -- RESP_PASSTHROUGH 0xFFFF
  else if op = 0xFFFF then .passthrough
  else .unknown

/-- A parsed command record (`respb_command_t`): the fields
`respb_parse_command` writes.  `args` is the list of argument slices
written into `args[]` (the C code always writes them at consecutive
indices from 0); `argc` is the separately computed counter, which the code
does not always keep equal to the number of slices actually written. -/
structure Command where
  opcode : Nat
  mux_id : Nat
  argc : Nat
  args : List (List Nat)
  raw_payload_len : Nat
  module_subcommand : Nat := 0
  module_id : Nat := 0
  command_id : Nat := 0
  resp_length : Nat := 0
  resp_data : List Nat := []
deriving DecidableEq

/-- `respb_parse_command` from respb_parser.c: read the 4-byte header,
dispatch on the opcode, record `raw_payload_len = pos - payload_start`.
The result carries the final `parser->pos` (not restored on the
incomplete or error paths, exactly as in the C code). -/
def respb_parse_command (B : List Nat) (blen pos : Nat) : PRes Command :=
  if pos + 4 > blen then .more pos
  else
    match runShape B blen (shapeOf (readU16 B pos)) (pos + 4) with
    | .done pl p2 =>
        .done { opcode := readU16 B pos, mux_id := readU16 B (pos + 2),
                argc := pl.argc, args := pl.args,
                raw_payload_len := p2 - (pos + 4),
                module_subcommand := pl.msub, module_id := pl.mid, command_id := pl.cid,
                resp_length := pl.rlen, resp_data := pl.rdata } p2
    | .more p => .more p
    | .fail p => .fail p

/-! ### Serializer (respb_serializer.c) -/

/-- `respb_write_u16`: big-endian bytes of `val` (the C parameter is
`uint16_t`, so an oversized value is truncated mod 2^16). -/
def writeU16 (v : Nat) : List Nat := [v / 2 ^ 8 % 256, v % 256]

/-- `respb_write_u32`. -/
def writeU32 (v : Nat) : List Nat :=
  [v / 2 ^ 24 % 256, v / 2 ^ 16 % 256, v / 2 ^ 8 % 256, v % 256]

/-- `respb_write_u64`. -/
def writeU64 (v : Nat) : List Nat :=
  [v / 2 ^ 56 % 256, v / 2 ^ 48 % 256, v / 2 ^ 40 % 256, v / 2 ^ 32 % 256,
   v / 2 ^ 24 % 256, v / 2 ^ 16 % 256, v / 2 ^ 8 % 256, v % 256]

/-- One `[2B len][bytes]` write with its capacity check
(`if (pos + 2 + len > buf_len) return 0`).  `acc` is the bytes written so
far, so `acc.length` is the C `pos`. -/
def serStr2 (bufLen : Nat) (acc s : List Nat) : Option (List Nat) :=
  if acc.length + 2 + s.length > bufLen then none
  else some (acc ++ writeU16 s.length ++ s)

/-- A `[2B klen][k][4B vlen][v]` pair write with its single combined
capacity check (MSET / HSET loop bodies). -/
def serPair24 (bufLen : Nat) (acc k v : List Nat) : Option (List Nat) :=
  if acc.length + 2 + k.length + 4 + v.length > bufLen then none
  else some (acc ++ writeU16 k.length ++ k ++ writeU32 v.length ++ v)

/-- The `for` loop writing a run of `[2B len][bytes]` elements. -/
def serArgs1 (bufLen : Nat) : List (List Nat) → List Nat → Option (List Nat)
  | [], acc => some acc
  | s :: rest, acc =>
    match serStr2 bufLen acc s with
    | none => none
    | some acc' => serArgs1 bufLen rest acc'

/-- The `for` loop writing a run of key/value pairs. -/
def serPairs (bufLen : Nat) : List (List Nat × List Nat) → List Nat → Option (List Nat)
  | [], acc => some acc
  | (k, v) :: rest, acc =>
    match serPair24 bufLen acc k v with
    | none => none
    | some acc' => serPairs bufLen rest acc'

/-- `respb_serialize_command` from respb_serializer.c.  `none` models the
`return 0` overflow/shape aborts; `some out` is the written prefix, with
`out.length` the returned byte count.  Argument `i` is accessed as
`cmd.args.getD i []`, mirroring the C indexing `cmd->args[i]` (the C code
trusts `argc`; a record with `argc` larger than the populated slots would
read stale data, which the well-formedness predicates below exclude). -/
def respb_serialize_command (bufLen : Nat) (cmd : Command) : Option (List Nat) :=
  if bufLen < 4 then none
  else
    let arg := fun i => cmd.args.getD i []
    let hdr := writeU16 cmd.opcode ++ writeU16 cmd.mux_id
    -- GET 0x0000, INCR 0x0009, DECR 0x0003, TTL 0x02C9, LLEN 0x0044, SCARD 0x0084
    if cmd.opcode = 0x0000 ∨ cmd.opcode = 0x0009 ∨ cmd.opcode = 0x0003 ∨
       cmd.opcode = 0x02C9 ∨ cmd.opcode = 0x0044 ∨ cmd.opcode = 0x0084 then
      if cmd.argc < 1 then none
      else serStr2 bufLen hdr (arg 0)
    -- SET 0x0001
    else if cmd.opcode = 0x0001 then
      if cmd.argc < 2 then none
      else if 4 + 2 + (arg 0).length + 4 + (arg 1).length + 9 > bufLen then none
      else some (hdr ++ writeU16 (arg 0).length ++ arg 0 ++
                 writeU32 (arg 1).length ++ arg 1 ++ [0] ++ writeU64 0)
    -- APPEND 0x0002
    else if cmd.opcode = 0x0002 then
      if cmd.argc < 2 then none
      else if 4 + 2 + (arg 0).length + 4 + (arg 1).length > bufLen then none
      else some (hdr ++ writeU16 (arg 0).length ++ arg 0 ++
                 writeU32 (arg 1).length ++ arg 1)
    -- INCRBY 0x000A, DECRBY 0x0004 (default increment 1)
    else if cmd.opcode = 0x000A ∨ cmd.opcode = 0x0004 then
      if cmd.argc < 1 then none
      else if 4 + 2 + (arg 0).length + 8 > bufLen then none
      else some (hdr ++ writeU16 (arg 0).length ++ arg 0 ++ writeU64 1)
    -- MGET 0x000C, DEL 0x02C0, EXISTS 0x02C2
    else if cmd.opcode = 0x000C ∨ cmd.opcode = 0x02C0 ∨ cmd.opcode = 0x02C2 then
      if 4 + 2 > bufLen then none
      else serArgs1 bufLen ((List.range cmd.argc).map arg) (hdr ++ writeU16 cmd.argc)
    -- MSET 0x000D
    else if cmd.opcode = 0x000D then
      if cmd.argc < 2 ∨ cmd.argc % 2 ≠ 0 then none
      else if 4 + 2 > bufLen then none
      else serPairs bufLen
        ((List.range (cmd.argc / 2)).map (fun i => (arg (2 * i), arg (2 * i + 1))))
        (hdr ++ writeU16 (cmd.argc / 2))
    -- LPUSH 0x0040, RPUSH 0x0041
    else if cmd.opcode = 0x0040 ∨ cmd.opcode = 0x0041 then
      if cmd.argc < 1 then none
      else if 4 + 2 + (arg 0).length + 2 > bufLen then none
      else serArgs1 bufLen ((List.range (cmd.argc - 1)).map (fun i => arg (i + 1)))
        (hdr ++ writeU16 (arg 0).length ++ arg 0 ++ writeU16 (cmd.argc - 1))
    -- SADD 0x0080
    else if cmd.opcode = 0x0080 then
      if cmd.argc < 1 then none
      else if 4 + 2 + (arg 0).length + 2 > bufLen then none
      else serArgs1 bufLen ((List.range (cmd.argc - 1)).map (fun i => arg (i + 1)))
        (hdr ++ writeU16 (arg 0).length ++ arg 0 ++ writeU16 (cmd.argc - 1))
    -- HSET 0x0100
    else if cmd.opcode = 0x0100 then
      if cmd.argc < 1 ∨ (cmd.argc - 1) % 2 ≠ 0 then none
      else if 4 + 2 + (arg 0).length + 2 > bufLen then none
      else serPairs bufLen
        ((List.range ((cmd.argc - 1) / 2)).map (fun i => (arg (2 * i + 1), arg (2 * i + 2))))
        (hdr ++ writeU16 (arg 0).length ++ arg 0 ++ writeU16 ((cmd.argc - 1) / 2))
    -- HGET 0x0101
    else if cmd.opcode = 0x0101 then
      if cmd.argc < 2 then none
      else if 4 + 2 + (arg 0).length + 2 + (arg 1).length > bufLen then none
      else some (hdr ++ writeU16 (arg 0).length ++ arg 0 ++
                 writeU16 (arg 1).length ++ arg 1)
    -- PING 0x0300, MULTI 0x0240, EXEC 0x0241 (no payload)
    else if cmd.opcode = 0x0300 ∨ cmd.opcode = 0x0240 ∨ cmd.opcode = 0x0241 then
      some hdr
    -- MODULE 0xF000 (rewrites an 8-byte module header, then dispatches)
    else if cmd.opcode = 0xF000 then
      if bufLen < 8 then none
      else
        let mhdr := writeU16 0xF000 ++ writeU16 cmd.mux_id ++ writeU32 cmd.module_subcommand
        if cmd.module_id = 0 then
          if cmd.command_id = 0 ∧ cmd.argc ≥ 3 then
            if 8 + 2 + (arg 0).length + 2 + (arg 1).length + 4 + (arg 2).length + 1 > bufLen
            then none
            else some (mhdr ++ writeU16 (arg 0).length ++ arg 0 ++
                       writeU16 (arg 1).length ++ arg 1 ++
                       writeU32 (arg 2).length ++ arg 2 ++ [0])
          else serArgs1 bufLen ((List.range cmd.argc).map arg) mhdr
        else if cmd.module_id = 1 then
          if cmd.command_id = 0 ∧ cmd.argc ≥ 2 then
            if 8 + 2 + (arg 0).length + 2 + (arg 1).length > bufLen then none
            else some (mhdr ++ writeU16 (arg 0).length ++ arg 0 ++
                       writeU16 (arg 1).length ++ arg 1)
          else serArgs1 bufLen ((List.range cmd.argc).map arg) mhdr
        else if cmd.module_id = 2 then
          if cmd.command_id = 1 ∧ cmd.argc ≥ 2 then
            if 8 + 2 + (arg 0).length + 2 + (arg 1).length > bufLen then none
            else some (mhdr ++ writeU16 (arg 0).length ++ arg 0 ++
                       writeU16 (arg 1).length ++ arg 1)
          else serArgs1 bufLen ((List.range cmd.argc).map arg) mhdr
        else serArgs1 bufLen ((List.range cmd.argc).map arg) mhdr
    -- RESP_PASSTHROUGH 0xFFFF
    else if cmd.opcode = 0xFFFF then
      if bufLen < 8 then none
      else if 8 + cmd.resp_length > bufLen then none
      else some (writeU16 0xFFFF ++ writeU16 cmd.mux_id ++ writeU32 cmd.resp_length ++
                 cmd.resp_data.take cmd.resp_length)
    -- default: generic [2B argc] + 2-byte-length strings
    else
      if 4 + 2 > bufLen then none
      else serArgs1 bufLen ((List.range cmd.argc).map arg) (hdr ++ writeU16 cmd.argc)

end Respb

/-! ### Metrics core (metrics.c) -/

namespace Metrics

/-- `MAX_LATENCY_SAMPLES` from benchmark.h. -/
def MAX_LATENCY_SAMPLES : Nat := 10000

def UINT64_MAX : Nat := 2 ^ 64 - 1

/-- The latency-related fields of `benchmark_metrics_t`.
`latency_sample_count` is `latency_samples.length` (the C code stores the
next sample at index `latency_sample_count` and increments it, i.e. it
appends). -/
structure BMetrics where
  latency_samples : List Nat := []
  total_latency_ns : Nat := 0
  min_latency_ns : Nat := UINT64_MAX
  max_latency_ns : Nat := 0
  avg_latency_ns : Nat := 0
  p50_latency_ns : Nat := 0
  p90_latency_ns : Nat := 0
  p99_latency_ns : Nat := 0
deriving DecidableEq

/-- `benchmark_metrics_init`: zeroed record with `min = UINT64_MAX`. -/
def benchmark_metrics_init : BMetrics := {}

/-- `benchmark_record_latency` from metrics.c: the sample is stored only
below the cap, but `total_latency_ns += latency_ns` runs unconditionally
(uint64 arithmetic, hence the mod 2^64), and min/max always update. -/
def benchmark_record_latency (m : BMetrics) (l : Nat) : BMetrics :=
  { m with
    latency_samples :=
      if m.latency_samples.length < MAX_LATENCY_SAMPLES
      then m.latency_samples ++ [l] else m.latency_samples,
    total_latency_ns := (m.total_latency_ns + l) % 2 ^ 64,
    min_latency_ns := if l < m.min_latency_ns then l else m.min_latency_ns,
    max_latency_ns := if l > m.max_latency_ns then l else m.max_latency_ns }

/-- `benchmark_compute_percentiles` from metrics.c: qsort the sample
array ascending (modeled by insertion sort — any ascending sort of the
same multiset), pick `samples[count*P/100]`, and set the average from the
running sum. -/
def benchmark_compute_percentiles (m : BMetrics) : BMetrics :=
  if m.latency_samples.length = 0 then m
  else
    let n := m.latency_samples.length
    let sorted := List.insertionSort (· ≤ ·) m.latency_samples
    { m with
      latency_samples := sorted,
      p50_latency_ns := sorted.getD (n * 50 / 100) 0,
      p90_latency_ns := sorted.getD (n * 90 / 100) 0,
      p99_latency_ns := sorted.getD (n * 99 / 100) 0,
      avg_latency_ns := m.total_latency_ns / n }

/-- A whole run of `benchmark_record_latency` calls. -/
def recordAll (ls : List Nat) : BMetrics :=
  ls.foldl benchmark_record_latency benchmark_metrics_init

end Metrics

/-! ### Reference RESP parser (valkey_resp_parser.c) -/

namespace VK

open Respb (byteAt slice)

def PROTO_INLINE_MAX_SIZE : Nat := 65536
def PROTO_MBULK_BIG_ARG : Nat := 32768
def INT_MAX : Int := 2 ^ 31 - 1

def READ_FLAGS_ERROR_BIG_MULTIBULK : Nat := 2 ^ 2
def READ_FLAGS_ERROR_INVALID_MULTIBULK_LEN : Nat := 2 ^ 3
def READ_FLAGS_ERROR_UNAUTHENTICATED_MULTIBULK_LEN : Nat := 2 ^ 4
def READ_FLAGS_ERROR_UNAUTHENTICATED_BULK_LEN : Nat := 2 ^ 5
def READ_FLAGS_ERROR_BIG_BULK_COUNT : Nat := 2 ^ 6
def READ_FLAGS_ERROR_MBULK_UNEXPECTED_CHARACTER : Nat := 2 ^ 7
def READ_FLAGS_ERROR_MBULK_INVALID_BULK_LEN : Nat := 2 ^ 8
def READ_FLAGS_PARSING_NEGATIVE_MBULK_LEN : Nat := 2 ^ 12
def READ_FLAGS_PARSING_COMPLETED : Nat := 2 ^ 13

/-- The digit-consuming `while` loop of `string2ll` with its two
ULLONG_MAX overflow guards.  Hitting a non-digit makes the C loop exit
with `plen < slen`, which returns 0, hence `none` here. -/
def s2lLoop : List Nat → Nat → Option Nat
  | [], v => some v
  | c :: rest, v =>
    if 48 ≤ c ∧ c ≤ 57 then
      if v > (2 ^ 64 - 1) / 10 then none
      else if v * 10 > (2 ^ 64 - 1) - (c - 48) then none
      else s2lLoop rest (v * 10 + (c - 48))
    else none

/-- `string2ll` from valkey_resp_parser.c (bytes as character codes:
45 = '-', 48..57 = '0'..'9').  `none` is the C return value 0 (failure);
`some v` sets `*value = v`.  The `c = 48 ∧ s.length = 1` arm transcribes
the second "first and only digit is 0" branch of the C code (it is
unreachable: the leading special case already caught it). -/
def string2ll (s : List Nat) : Option Int :=
  match s with
  | [] => none
  | c0 :: rest0 =>
    if c0 = 48 ∧ rest0 = [] then some 0
    else
      let neg := c0 = 45
      match (if neg then rest0 else c0 :: rest0) with
      | [] => none
      | c :: rest =>
        if 49 ≤ c ∧ c ≤ 57 then
          match s2lLoop rest (c - 48) with
          | none => none
          | some v =>
            if neg then
              if v > 2 ^ 63 then none else some (-(v : Int))
            else
              if v > 2 ^ 63 - 1 then none else some (v : Int)
        else if c = 48 ∧ s.length = 1 then some 0
        else none

/-- The RESP client state fields `parseMultibulk` reads and writes.
`bulklen = none` is the C sentinel −1; `multibulklen` is the remaining
element count (the C `long`, only ever 0 or a parsed count in
(0, INT_MAX]).  `argv` collects the argument byte strings (the C code
allocates owned copies; the list holds their contents).  Buffer-capacity
bookkeeping (`argv_len`, `querybuf_peak`, `net_input_bytes_curr_cmd`) has
no effect on parsing and is omitted. -/
structure VClient where
  querybuf : List Nat
  qb_pos : Nat := 0
  multibulklen : Nat := 0
  bulklen : Option Nat := none
  reqtype : Nat := 0
  argv : List (List Nat) := []
deriving DecidableEq

/-- `memchr(querybuf + qb_pos, '\r', len - qb_pos)`: absolute index of
the first 13 at or after `start`. -/
def memchrCR (buf : List Nat) (start : Nat) : Option Nat :=
  match (buf.drop start).findIdx? (· == 13) with
  | none => none
  | some i => some (start + i)

/-- Outcome of one iteration of the `while (c->multibulklen)` body:
either a direct return/break with a flag, or fall through to the next
iteration with `multibulklen` to be decremented. -/
inductive StepRes where
  | stop (flag : Nat) (c : VClient)
  | cont (c : VClient)

/-- One iteration of the `while` body of `parseMultibulk`: read the bulk
length when unknown (with the `$` check, the 512 MiB / authentication
bounds and the big-argument buffer trim), then consume the bulk body
(with the zero-copy capture of a buffer holding exactly one big
argument).  `stop 0` covers both `break` (incomplete) and `return 0`. -/
def mbStep (repl auth : Bool) (c : VClient) : StepRes :=
  let afterLen : VClient → StepRes := fun c =>
    let L := c.bulklen.getD 0
    if c.querybuf.length - c.qb_pos < L + 2 then .stop 0 c
    else if ¬repl ∧ c.qb_pos = 0 ∧ L ≥ PROTO_MBULK_BIG_ARG ∧
            c.querybuf.length = L + 2 then
      .cont { c with argv := c.argv ++ [c.querybuf.take L],
                     querybuf := [], bulklen := none }
    else
      .cont { c with argv := c.argv ++ [slice c.querybuf c.qb_pos L],
                     qb_pos := c.qb_pos + L + 2, bulklen := none }
  match c.bulklen with
  | some _ => afterLen c
  | none =>
    match memchrCR c.querybuf c.qb_pos with
    | none =>
      if c.querybuf.length - c.qb_pos > PROTO_INLINE_MAX_SIZE then
        .stop READ_FLAGS_ERROR_BIG_BULK_COUNT c
      else .stop 0 c
    | some idx =>
      if (idx - c.qb_pos : Int) > (c.querybuf.length : Int) - c.qb_pos - 2 then
        .stop 0 c
      else if byteAt c.querybuf c.qb_pos ≠ 36 then
        .stop READ_FLAGS_ERROR_MBULK_UNEXPECTED_CHARACTER c
      else
        let tok := slice c.querybuf (c.qb_pos + 1) (idx - (c.qb_pos + 1))
        match string2ll tok with
        | none => .stop READ_FLAGS_ERROR_MBULK_INVALID_BULK_LEN c
        | some ll =>
          if ll < 0 ∨ (¬repl ∧ ll > 512 * 1024 * 1024) then
            .stop READ_FLAGS_ERROR_MBULK_INVALID_BULK_LEN c
          else if ll > 16384 ∧ auth then
            .stop READ_FLAGS_ERROR_UNAUTHENTICATED_BULK_LEN c
          else
            let L := ll.toNat
            let c1 := { c with qb_pos := idx + 2 }
            let c2 :=
              if ¬repl ∧ L ≥ PROTO_MBULK_BIG_ARG ∧
                 c1.querybuf.length - c1.qb_pos ≤ L + 2 then
                { c1 with querybuf := c1.querybuf.drop c1.qb_pos, qb_pos := 0 }
              else c1
            afterLen { c2 with bulklen := some L }

/-- The `while (c->multibulklen)` loop followed by the completion check.
`fuel` equals the current `multibulklen`; each completed element
decrements it.  Returns the C result flag and the final client state. -/
def mbLoop (repl auth : Bool) : Nat → VClient → Nat × VClient
  | 0, c => (READ_FLAGS_PARSING_COMPLETED, { c with multibulklen := 0, reqtype := 0 })
  | fuel + 1, c =>
    match mbStep repl auth { c with multibulklen := fuel + 1 } with
    | .stop f c1 => (f, c1)
    | .cont c1 => mbLoop repl auth fuel c1

/-- `parseMultibulk` from valkey_resp_parser.c.  `repl` and `auth` are
the `READ_FLAGS_REPLICATED` / `READ_FLAGS_AUTH_REQUIRED` bits of
`read_flags`.  The flag result 0 is "incomplete"; otherwise it is one of
the `READ_FLAGS_...` constants.  The `assert(querybuf[qb_pos] == '*')`
of the C code is not modeled; all theorems below supply inputs that
satisfy it. -/
def parseMultibulk (repl auth : Bool) (c : VClient) : Nat × VClient :=
  if c.multibulklen = 0 then
    match memchrCR c.querybuf c.qb_pos with
    | none =>
      if c.querybuf.length - c.qb_pos > PROTO_INLINE_MAX_SIZE then
        (READ_FLAGS_ERROR_BIG_MULTIBULK, c)
      else (0, c)
    | some idx =>
      if (idx - c.qb_pos : Int) > (c.querybuf.length : Int) - c.qb_pos - 2 then
        (0, c)
      else
        let tok := slice c.querybuf (c.qb_pos + 1) (idx - (c.qb_pos + 1))
        match string2ll tok with
        | none => (READ_FLAGS_ERROR_INVALID_MULTIBULK_LEN, c)
        | some ll =>
          if ll > INT_MAX then (READ_FLAGS_ERROR_INVALID_MULTIBULK_LEN, c)
          else if ll > 10 ∧ auth then
            (READ_FLAGS_ERROR_UNAUTHENTICATED_MULTIBULK_LEN, c)
          else
            let c1 := { c with qb_pos := idx + 2 }
            if ll ≤ 0 then (READ_FLAGS_PARSING_NEGATIVE_MBULK_LEN, c1)
            else
              mbLoop repl auth ll.toNat
                { c1 with multibulklen := ll.toNat, bulklen := none, argv := [] }
  else mbLoop repl auth c.multibulklen c

end VK

namespace Respb

/-! ### Cursor monotonicity: no parser step ever moves `pos` backwards -/

@[simp] theorem kpos_done (a : α) (p : Nat) : (PRes.done a p).kpos = p := rfl
@[simp] theorem kpos_more (p : Nat) : (PRes.more (α := α) p).kpos = p := rfl
@[simp] theorem kpos_fail (p : Nat) : (PRes.fail (α := α) p).kpos = p := rfl

/-- A parser computation whose final cursor is never before its start. -/
def Mono (m : PM α) : Prop := ∀ pos, pos ≤ (m pos).kpos

theorem mono_pure (a : α) : Mono (pure (f := PM) a) := fun _ => le_refl _

theorem mono_bind {m : PM α} {f : α → PM β} (hm : Mono m) (hf : ∀ a, Mono (f a)) :
    Mono (m >>= f) := by
  intro pos
  have h1 := hm pos
  simp only [run_bind]
  cases h : m pos with
  | done a p => rw [h] at h1; exact le_trans h1 (hf a p)
  | more p => rw [h] at h1; exact h1
  | fail p => rw [h] at h1; exact h1

theorem mono_ite {c : Prop} [Decidable c] {m₁ m₂ : PM α}
    (h1 : Mono m₁) (h2 : Mono m₂) : Mono (if c then m₁ else m₂) := by
  split
  · exact h1
  · exact h2

theorem mono_checkAvail (blen n : Nat) : Mono (checkAvail blen n) := by
  intro pos
  unfold checkAvail
  split <;> simp

theorem mono_advance (n : Nat) : Mono (advance n) := by
  intro pos
  simp [advance]

theorem mono_getPos : Mono getPos := fun _ => le_refl _

theorem mono_skip (blen n : Nat) : Mono (skip blen n) :=
  mono_bind (mono_checkAvail blen n) fun _ => mono_advance n

theorem mono_skipOpt (blen n : Nat) : Mono (skipOpt blen n) := by
  unfold skipOpt
  exact mono_ite (mono_pure ()) (mono_skip blen n)

theorem mono_readStr2 (B : List Nat) (blen : Nat) : Mono (readStr2 B blen) := by
  unfold readStr2
  apply mono_bind (mono_checkAvail blen 2); intro _
  apply mono_bind mono_getPos; intro p
  apply mono_bind (mono_advance 2); intro _
  apply mono_bind (mono_checkAvail blen _); intro _
  apply mono_bind mono_getPos; intro q
  apply mono_bind (mono_advance _); intro _
  exact mono_pure _

theorem mono_readStr4 (B : List Nat) (blen : Nat) : Mono (readStr4 B blen) := by
  unfold readStr4
  apply mono_bind (mono_checkAvail blen 4); intro _
  apply mono_bind mono_getPos; intro p
  apply mono_bind (mono_advance 4); intro _
  apply mono_bind (mono_checkAvail blen _); intro _
  apply mono_bind mono_getPos; intro q
  apply mono_bind (mono_advance _); intro _
  exact mono_pure _

theorem mono_readCnt2 (B : List Nat) (blen : Nat) : Mono (readCnt2 B blen) := by
  unfold readCnt2
  apply mono_bind (mono_checkAvail blen 2); intro _
  apply mono_bind mono_getPos; intro p
  apply mono_bind (mono_advance 2); intro _
  exact mono_pure _

theorem mono_readCnt4 (B : List Nat) (blen : Nat) : Mono (readCnt4 B blen) := by
  unfold readCnt4
  apply mono_bind (mono_checkAvail blen 4); intro _
  apply mono_bind mono_getPos; intro p
  apply mono_bind (mono_advance 4); intro _
  exact mono_pure _

theorem mono_readByte (B : List Nat) (blen : Nat) : Mono (readByte B blen) := by
  unfold readByte
  apply mono_bind (mono_checkAvail blen 1); intro _
  apply mono_bind mono_getPos; intro p
  apply mono_bind (mono_advance 1); intro _
  exact mono_pure _

theorem mono_readGroup {elem : PM (List (List Nat))} (h : Mono elem) :
    ∀ k, Mono (readGroup elem k) := by
  intro k
  induction k with
  | zero => exact mono_pure _
  | succ n ih =>
    unfold readGroup
    apply mono_bind h; intro _
    apply mono_bind ih; intro _
    exact mono_pure _

theorem mono_elem1 (B : List Nat) (blen : Nat) : Mono (elem1 B blen) := by
  unfold elem1
  apply mono_bind (mono_readStr2 B blen); intro _
  exact mono_pure _

theorem mono_elem24 (B : List Nat) (blen : Nat) : Mono (elem24 B blen) := by
  unfold elem24
  apply mono_bind (mono_readStr2 B blen); intro _
  apply mono_bind (mono_readStr4 B blen); intro _
  exact mono_pure _

theorem mono_elem22 (B : List Nat) (blen : Nat) : Mono (elem22 B blen) := by
  unfold elem22
  apply mono_bind (mono_readStr2 B blen); intro _
  apply mono_bind (mono_readStr2 B blen); intro _
  exact mono_pure _

theorem mono_failNow : Mono (fun pos => (PRes.fail (α := α) pos)) := fun _ => le_refl _

/-- Every opcode's case body only moves the cursor forward. -/
theorem runShape_mono (B : List Nat) (blen : Nat) (sh : Shape) :
    Mono (runShape B blen sh) := by
  cases sh <;>
    (unfold runShape
     repeat first
       | exact mono_readStr2 B blen
       | exact mono_readStr4 B blen
       | exact mono_readCnt2 B blen
       | exact mono_readCnt4 B blen
       | exact mono_readByte B blen
       | exact mono_readGroup (mono_elem1 B blen) _
       | exact mono_readGroup (mono_elem24 B blen) _
       | exact mono_readGroup (mono_elem22 B blen) _
       | exact mono_getPos
       | exact mono_failNow
       | apply mono_checkAvail
       | apply mono_advance
       | apply mono_skipOpt
       | apply mono_skip
       | apply mono_pure
       | apply mono_ite
       | apply mono_bind
       | intro _)

/-- `respb_parse_command` never moves the cursor backwards, on any
result. -/
theorem respb_parse_mono (B : List Nat) (blen pos : Nat) :
    pos ≤ (respb_parse_command B blen pos).kpos := by
  unfold respb_parse_command
  split
  · simp
  · have h := runShape_mono B blen (shapeOf (readU16 B pos)) (pos + 4)
    cases hr : runShape B blen (shapeOf (readU16 B pos)) (pos + 4) with
    | done pl p2 => rw [hr] at h; simp only [hr, kpos_done] at h ⊢; omega
    | more p => rw [hr] at h; simp only [hr, kpos_more] at h ⊢; omega
    | fail p => rw [hr] at h; simp only [hr, kpos_fail] at h ⊢; omega

/-! ### C1: cursor on the incomplete path -/

/-- C1 (counterexample): a GET frame with the payload missing.  On the
buffer `00 00 00 00` the parser reports incomplete (`return 0`), yet the
cursor has moved from 0 to 4: the 4-byte header consume at the top of
`respb_parse_command` is not undone when a later `CHECK_AVAIL` fails, so
"on incomplete, the cursor is unchanged" is false. -/
theorem c1_incomplete_moves_cursor :
    respb_parse_command [0, 0, 0, 0] 4 0 = PRes.more 4 ∧ (4 : Nat) ≠ 0 :=
  ⟨rfl, by decide⟩

/-- C1 (amended): on an incomplete result the cursor is unchanged only
when the incomplete arises from the initial 4-byte header check
(`pos + 4 > buffer_len`); any deeper incomplete return leaves the cursor
wherever the consumed prefix pushed it, which is never before the
starting position. -/
theorem c1_amended_incomplete_cursor (B : List Nat) (blen pos : Nat) :
    (pos + 4 > blen → respb_parse_command B blen pos = PRes.more pos) ∧
    (∀ p', respb_parse_command B blen pos = PRes.more p' → pos ≤ p') := by
  constructor
  · intro h
    unfold respb_parse_command
    rw [if_pos h]
  · intro p' h
    have hm := respb_parse_mono B blen pos
    rw [h] at hm
    simpa using hm

/-- C1 amended claim at a concrete input: with fewer than 4 bytes
available the header check fails and the cursor stays at 0. -/
theorem c1_amended_incomplete_cursor_witness :
    respb_parse_command [0, 0] 2 0 = PRes.more 0 :=
  (c1_amended_incomplete_cursor [0, 0] 2 0).1 (by decide)

/-! ### C6: cursor advance on success -/

/-- C6 (counterexample): a module command (BF.ADD, opcode 0xF000,
subcommand 0x00010000, empty key and item) parses successfully consuming
12 bytes with `raw_payload_len = 8`: the advance is
`raw_payload_len + 4`, not the `raw_payload_len + 8` the claim asserts
for module commands — `raw_payload` starts right after the basic 4-byte
header, so the 4-byte subcommand extension is part of the payload span. -/
theorem c6_module_advance_counterexample :
    respb_parse_command [0xF0, 0, 0, 0, 0, 1, 0, 0, 0, 0, 0, 0] 12 0 =
      PRes.done { opcode := 0xF000, mux_id := 0, argc := 2, args := [[], []],
                  raw_payload_len := 8, module_subcommand := 0x00010000,
                  module_id := 1, command_id := 0 } 12 ∧
    (12 : Nat) - 0 ≠ 8 + 8 :=
  ⟨rfl, by decide⟩

/-- C6 (amended): on every successful parse the cursor strictly
advances, and the advance equals `command.raw_payload_len + 4` uniformly
— for ordinary, module (0xF000) and RESP-passthrough (0xFFFF) opcodes
alike — because `raw_payload` spans the bytes immediately after the basic
4-byte opcode/mux header. -/
theorem c6_amended_success_advance (B : List Nat) (blen pos : Nat) (cmd : Command) (p' : Nat)
    (h : respb_parse_command B blen pos = PRes.done cmd p') :
    p' = pos + 4 + cmd.raw_payload_len ∧ pos < p' := by
  unfold respb_parse_command at h
  split at h
  · exact absurd h (by simp)
  · have hm := runShape_mono B blen (shapeOf (readU16 B pos)) (pos + 4)
    cases hr : runShape B blen (shapeOf (readU16 B pos)) (pos + 4) with
    | done pl p2 =>
        rw [hr] at h hm
        simp only [kpos_done] at hm
        injection h with h1 h2
        subst h2
        rw [← h1]
        constructor
        · show p2 = pos + 4 + (p2 - (pos + 4))
          omega
        · omega
    | more p => rw [hr] at h; exact absurd h (by simp)
    | fail p => rw [hr] at h; exact absurd h (by simp)

/-- C6 amended claim at a concrete input (the spec's `GET mykey`
scenario: 11 bytes consumed, payload length 7). -/
theorem c6_amended_success_advance_witness : (11 : Nat) = 0 + 4 + 7 ∧ (0 : Nat) < 11 :=
  c6_amended_success_advance [0, 0, 0, 0, 0, 5, 109, 121, 107, 101, 121] 11 0
    { opcode := 0, mux_id := 0, argc := 1, args := [[109, 121, 107, 101, 121]],
      raw_payload_len := 7 } 11 rfl

/-! ### C9: unknown opcode error path -/

/-- C9: for an opcode outside the catalogue (the `default` branch of the
switch, i.e. shape `.unknown`) with the 4 header bytes available,
`respb_parse_command` returns the error result and the cursor ends
exactly 4 bytes past where the call began: the opcode/mux header is
consumed and not restored on the error path. -/
theorem c9_unknown_opcode_error_cursor (B : List Nat) (blen pos : Nat)
    (h4 : pos + 4 ≤ blen) (hop : shapeOf (readU16 B pos) = Shape.unknown) :
    respb_parse_command B blen pos = PRes.fail (pos + 4) := by
  simp only [respb_parse_command, hop]
  rw [if_neg (by omega)]
  rfl

/-- C9 at a concrete input: the spec's boundary scenario `0xBEEF`. -/
theorem c9_unknown_opcode_error_cursor_witness :
    respb_parse_command [0xBE, 0xEF, 0, 0] 4 0 = PRes.fail 4 :=
  c9_unknown_opcode_error_cursor [0xBE, 0xEF, 0, 0] 4 0 (by decide) (by decide)

/-! ### Single-step evaluation lemmas for the parser primitives -/

theorem checkAvail_pass {blen n pos : Nat} (h : pos + n ≤ blen) :
    checkAvail blen n pos = .done () pos := if_neg (by omega)

theorem checkAvail_stop {blen n pos : Nat} (h : pos + n > blen) :
    checkAvail blen n pos = .more pos := if_pos h

@[simp] theorem advance_run (n pos : Nat) : advance n pos = .done () (pos + n) := rfl

@[simp] theorem getPos_run (pos : Nat) : getPos pos = .done pos pos := rfl

theorem skip_run {blen n pos : Nat} (h : pos + n ≤ blen) :
    skip blen n pos = .done () (pos + n) := by
  unfold skip
  simp [run_bind, checkAvail_pass h]

theorem skip_stop {blen n pos : Nat} (h : pos + n > blen) :
    skip blen n pos = .more pos := by
  unfold skip
  simp [run_bind, checkAvail_stop h]

theorem readStr2_run (B : List Nat) {blen pos : Nat} (h2 : pos + 2 ≤ blen)
    (hl : pos + 2 + readU16 B pos ≤ blen) :
    readStr2 B blen pos =
      .done (slice B (pos + 2) (readU16 B pos)) (pos + 2 + readU16 B pos) := by
  unfold readStr2
  simp [run_bind, checkAvail_pass h2, checkAvail_pass hl]

theorem readStr2_stop1 (B : List Nat) {blen pos : Nat} (h2 : pos + 2 > blen) :
    readStr2 B blen pos = .more pos := by
  unfold readStr2
  simp [run_bind, checkAvail_stop h2]

theorem readStr2_stop2 (B : List Nat) {blen pos : Nat} (h2 : pos + 2 ≤ blen)
    (hl : pos + 2 + readU16 B pos > blen) :
    readStr2 B blen pos = .more (pos + 2) := by
  unfold readStr2
  simp [run_bind, checkAvail_pass h2, checkAvail_stop hl]

theorem readStr4_run (B : List Nat) {blen pos : Nat} (h4 : pos + 4 ≤ blen)
    (hl : pos + 4 + readU32 B pos ≤ blen) :
    readStr4 B blen pos =
      .done (slice B (pos + 4) (readU32 B pos)) (pos + 4 + readU32 B pos) := by
  unfold readStr4
  simp [run_bind, checkAvail_pass h4, checkAvail_pass hl]

theorem readStr4_stop1 (B : List Nat) {blen pos : Nat} (h4 : pos + 4 > blen) :
    readStr4 B blen pos = .more pos := by
  unfold readStr4
  simp [run_bind, checkAvail_stop h4]

theorem readStr4_stop2 (B : List Nat) {blen pos : Nat} (h4 : pos + 4 ≤ blen)
    (hl : pos + 4 + readU32 B pos > blen) :
    readStr4 B blen pos = .more (pos + 4) := by
  unfold readStr4
  simp [run_bind, checkAvail_pass h4, checkAvail_stop hl]

theorem readCnt2_run (B : List Nat) {blen pos : Nat} (h : pos + 2 ≤ blen) :
    readCnt2 B blen pos = .done (readU16 B pos) (pos + 2) := by
  unfold readCnt2
  simp [run_bind, checkAvail_pass h]

theorem readCnt2_stop (B : List Nat) {blen pos : Nat} (h : pos + 2 > blen) :
    readCnt2 B blen pos = .more pos := by
  unfold readCnt2
  simp [run_bind, checkAvail_stop h]

theorem readCnt4_run (B : List Nat) {blen pos : Nat} (h : pos + 4 ≤ blen) :
    readCnt4 B blen pos = .done (readU32 B pos) (pos + 4) := by
  unfold readCnt4
  simp [run_bind, checkAvail_pass h]

theorem readCnt4_stop (B : List Nat) {blen pos : Nat} (h : pos + 4 > blen) :
    readCnt4 B blen pos = .more pos := by
  unfold readCnt4
  simp [run_bind, checkAvail_stop h]

theorem readByte_run (B : List Nat) {blen pos : Nat} (h : pos + 1 ≤ blen) :
    readByte B blen pos = .done (byteAt B pos) (pos + 1) := by
  unfold readByte
  simp [run_bind, checkAvail_pass h]

/-! ### C4: the parse result depends only on the first `buffer_len`
bytes — no read past the checked window -/

theorem byteAt_eq_of_take {B1 B2 : List Nat} {blen : Nat}
    (h : B1.take blen = B2.take blen) {i : Nat} (hi : i < blen) :
    byteAt B1 i = byteAt B2 i := by
  unfold byteAt
  rw [List.getD_eq_getElem?_getD, List.getD_eq_getElem?_getD]
  have h1 : B1[i]? = (B1.take blen)[i]? := by simp [List.getElem?_take, hi]
  have h2 : B2[i]? = (B2.take blen)[i]? := by simp [List.getElem?_take, hi]
  rw [h1, h2, h]

theorem readU16_eq_of_take {B1 B2 : List Nat} {blen : Nat}
    (h : B1.take blen = B2.take blen) {i : Nat} (hi : i + 2 ≤ blen) :
    readU16 B1 i = readU16 B2 i := by
  unfold readU16
  rw [byteAt_eq_of_take h (by omega), byteAt_eq_of_take h (by omega)]

theorem readU32_eq_of_take {B1 B2 : List Nat} {blen : Nat}
    (h : B1.take blen = B2.take blen) {i : Nat} (hi : i + 4 ≤ blen) :
    readU32 B1 i = readU32 B2 i := by
  unfold readU32
  rw [byteAt_eq_of_take h (by omega), byteAt_eq_of_take h (by omega),
      byteAt_eq_of_take h (by omega), byteAt_eq_of_take h (by omega)]

theorem slice_take (B : List Nat) (blen pos len : Nat) (hle : pos + len ≤ blen) :
    slice B pos len = ((B.take blen).drop pos).take len := by
  unfold slice
  rw [List.drop_take, List.take_take, min_eq_left (by omega)]

theorem slice_eq_of_take {B1 B2 : List Nat} {blen : Nat}
    (h : B1.take blen = B2.take blen) {pos len : Nat} (hle : pos + len ≤ blen) :
    slice B1 pos len = slice B2 pos len := by
  rw [slice_take B1 blen pos len hle, slice_take B2 blen pos len hle, h]

theorem readStr2_eq_of_take {B1 B2 : List Nat} {blen : Nat}
    (h : B1.take blen = B2.take blen) :
    readStr2 B1 blen = readStr2 B2 blen := by
  funext pos
  by_cases h2 : pos + 2 ≤ blen
  · have e16 := readU16_eq_of_take h h2
    by_cases h3 : pos + 2 + readU16 B1 pos ≤ blen
    · rw [readStr2_run B1 h2 h3, readStr2_run B2 h2 (e16 ▸ h3), e16,
          slice_eq_of_take h (by rw [← e16]; omega)]
    · rw [readStr2_stop2 B1 h2 (by omega), readStr2_stop2 B2 h2 (by rw [← e16]; omega)]
  · rw [readStr2_stop1 B1 (by omega), readStr2_stop1 B2 (by omega)]

theorem readStr4_eq_of_take {B1 B2 : List Nat} {blen : Nat}
    (h : B1.take blen = B2.take blen) :
    readStr4 B1 blen = readStr4 B2 blen := by
  funext pos
  by_cases h4 : pos + 4 ≤ blen
  · have e32 := readU32_eq_of_take h h4
    by_cases h3 : pos + 4 + readU32 B1 pos ≤ blen
    · rw [readStr4_run B1 h4 h3, readStr4_run B2 h4 (e32 ▸ h3), e32,
          slice_eq_of_take h (by rw [← e32]; omega)]
    · rw [readStr4_stop2 B1 h4 (by omega), readStr4_stop2 B2 h4 (by rw [← e32]; omega)]
  · rw [readStr4_stop1 B1 (by omega), readStr4_stop1 B2 (by omega)]

theorem readCnt2_eq_of_take {B1 B2 : List Nat} {blen : Nat}
    (h : B1.take blen = B2.take blen) :
    readCnt2 B1 blen = readCnt2 B2 blen := by
  funext pos
  by_cases h2 : pos + 2 ≤ blen
  · rw [readCnt2_run B1 h2, readCnt2_run B2 h2, readU16_eq_of_take h h2]
  · rw [readCnt2_stop B1 (by omega), readCnt2_stop B2 (by omega)]

theorem readCnt4_eq_of_take {B1 B2 : List Nat} {blen : Nat}
    (h : B1.take blen = B2.take blen) :
    readCnt4 B1 blen = readCnt4 B2 blen := by
  funext pos
  by_cases h4 : pos + 4 ≤ blen
  · rw [readCnt4_run B1 h4, readCnt4_run B2 h4, readU32_eq_of_take h h4]
  · rw [readCnt4_stop B1 (by omega), readCnt4_stop B2 (by omega)]

theorem readByte_eq_of_take {B1 B2 : List Nat} {blen : Nat}
    (h : B1.take blen = B2.take blen) :
    readByte B1 blen = readByte B2 blen := by
  funext pos
  by_cases h1 : pos + 1 ≤ blen
  · rw [readByte_run B1 h1, readByte_run B2 h1, byteAt_eq_of_take h (by omega)]
  · unfold readByte
    simp [run_bind, checkAvail_stop (show pos + 1 > blen by omega)]

theorem elem1_eq_of_take {B1 B2 : List Nat} {blen : Nat}
    (h : B1.take blen = B2.take blen) : elem1 B1 blen = elem1 B2 blen := by
  unfold elem1
  rw [readStr2_eq_of_take h]

theorem elem24_eq_of_take {B1 B2 : List Nat} {blen : Nat}
    (h : B1.take blen = B2.take blen) : elem24 B1 blen = elem24 B2 blen := by
  unfold elem24
  rw [readStr2_eq_of_take h, readStr4_eq_of_take h]

theorem elem22_eq_of_take {B1 B2 : List Nat} {blen : Nat}
    (h : B1.take blen = B2.take blen) : elem22 B1 blen = elem22 B2 blen := by
  unfold elem22
  rw [readStr2_eq_of_take h]

theorem passthrough_eq_of_take {B1 B2 : List Nat} {blen : Nat}
    (h : B1.take blen = B2.take blen) :
    runShape B1 blen .passthrough = runShape B2 blen .passthrough := by
  funext pos
  unfold runShape
  by_cases h4 : pos + 4 ≤ blen
  · have e32 := readU32_eq_of_take h h4
    simp only [run_bind, readCnt4_run B1 h4, readCnt4_run B2 h4, ← e32]
    by_cases hn : pos + 4 + readU32 B1 pos ≤ blen
    · simp only [checkAvail_pass hn, getPos_run, advance_run, run_pure,
        slice_eq_of_take h (show pos + 4 + readU32 B1 pos ≤ blen from hn)]
    · simp only [checkAvail_stop (show pos + 4 + readU32 B1 pos > blen by omega)]
  · simp only [run_bind, readCnt4_stop B1 (show pos + 4 > blen by omega),
      readCnt4_stop B2 (show pos + 4 > blen by omega)]

/-- Every case body reads only bytes below `buffer_len`. -/
theorem runShape_eq_of_take {B1 B2 : List Nat} {blen : Nat}
    (h : B1.take blen = B2.take blen) :
    ∀ sh, runShape B1 blen sh = runShape B2 blen sh := by
  intro sh
  cases sh <;>
    first
    | exact passthrough_eq_of_take h
    | rfl
    | simp only [runShape, readStr2_eq_of_take h, readStr4_eq_of_take h,
        readCnt2_eq_of_take h, readCnt4_eq_of_take h, readByte_eq_of_take h,
        elem1_eq_of_take h, elem24_eq_of_take h, elem22_eq_of_take h]

/-- C4: bounds safety.  `respb_parse_command` always yields one of the
three outcomes (by the result type) and never observes a byte at an index
`≥ buffer_len`: (i) the result is determined by the first `buffer_len`
bytes alone — every length-prefixed or fixed-width read is guarded by a
`pos + needed ≤ buffer_len` check — and (ii) in particular, appending
arbitrary junk beyond `B.length` leaves the outcome unchanged. -/
theorem c4_bounds_safety :
    (∀ (B1 B2 : List Nat) (blen pos : Nat), B1.take blen = B2.take blen →
      respb_parse_command B1 blen pos = respb_parse_command B2 blen pos) ∧
    (∀ (B junk : List Nat) (pos : Nat),
      respb_parse_command (B ++ junk) B.length pos = respb_parse_command B B.length pos) := by
  have main : ∀ (B1 B2 : List Nat) (blen pos : Nat), B1.take blen = B2.take blen →
      respb_parse_command B1 blen pos = respb_parse_command B2 blen pos := by
    intro B1 B2 blen pos h
    unfold respb_parse_command
    split
    · rfl
    · rename_i hle
      rw [readU16_eq_of_take h (by omega),
          readU16_eq_of_take h (show pos + 2 + 2 ≤ blen by omega),
          runShape_eq_of_take h]
  exact ⟨main, fun B junk pos =>
    main (B ++ junk) B B.length pos (by rw [List.take_left, List.take_length])⟩

/-- C4 at a concrete input: two buffers agreeing on the 4-byte window
parse identically even though they differ beyond it. -/
theorem c4_bounds_safety_witness :
    respb_parse_command [0, 0, 0, 0, 5] 4 0 = respb_parse_command [0, 0, 0, 0, 7] 4 0 :=
  c4_bounds_safety.1 [0, 0, 0, 0, 5] [0, 0, 0, 0, 7] 4 0 (by decide)

/-! ### Reading back encoded fields (parse-of-encode lemmas) -/

@[simp] theorem RESPB_MAX_ARGS_eq : RESPB_MAX_ARGS = 64 := rfl

/-- Wire encoding of one `[2B len][bytes]` element. -/
def encStr2 (s : List Nat) : List Nat := writeU16 s.length ++ s

/-- Wire encoding of a run of `[2B len][bytes]` elements. -/
def encList2 (ks : List (List Nat)) : List Nat := (ks.map encStr2).flatten

@[simp] theorem encStr2_length (s : List Nat) : (encStr2 s).length = 2 + s.length := by
  simp [encStr2, writeU16]
  omega

@[simp] theorem encList2_nil : encList2 [] = [] := rfl

@[simp] theorem encList2_cons (k : List Nat) (ks : List (List Nat)) :
    encList2 (k :: ks) = encStr2 k ++ encList2 ks := by
  simp [encList2]

theorem encList2_append (xs ys : List (List Nat)) :
    encList2 (xs ++ ys) = encList2 xs ++ encList2 ys := by
  simp [encList2]

theorem byteAt_append (pre rest : List Nat) (i : Nat) :
    byteAt (pre ++ rest) (pre.length + i) = byteAt rest i := by
  unfold byteAt
  rw [List.getD_eq_getElem?_getD, List.getD_eq_getElem?_getD,
      List.getElem?_append_right (by omega)]
  congr 2
  omega

theorem readU16_append (pre rest : List Nat) :
    readU16 (pre ++ rest) pre.length = readU16 rest 0 := by
  have h0 := byteAt_append pre rest 0
  have h1 := byteAt_append pre rest 1
  unfold readU16
  rw [Nat.add_zero] at h0
  rw [h1, ← h0]

theorem readU32_append (pre rest : List Nat) :
    readU32 (pre ++ rest) pre.length = readU32 rest 0 := by
  have h0 := byteAt_append pre rest 0
  have h1 := byteAt_append pre rest 1
  have h2 := byteAt_append pre rest 2
  have h3 := byteAt_append pre rest 3
  unfold readU32
  rw [Nat.add_zero] at h0
  rw [h1, h2, h3, ← h0]

theorem readU16_writeU16 (v : Nat) (rest : List Nat) :
    readU16 (writeU16 v ++ rest) 0 = v % 2 ^ 16 := by
  simp only [writeU16, List.cons_append, List.nil_append]
  unfold readU16 byteAt
  simp [List.getD]
  omega

theorem readU32_writeU32 (v : Nat) (rest : List Nat) :
    readU32 (writeU32 v ++ rest) 0 = v % 2 ^ 32 := by
  simp only [writeU32, List.cons_append, List.nil_append]
  unfold readU32 byteAt
  simp [List.getD]
  omega

theorem readU16_enc (pre : List Nat) (v : Nat) (rest : List Nat) :
    readU16 (pre ++ (writeU16 v ++ rest)) pre.length = v % 2 ^ 16 := by
  rw [readU16_append, readU16_writeU16]

theorem readU32_enc (pre : List Nat) (v : Nat) (rest : List Nat) :
    readU32 (pre ++ (writeU32 v ++ rest)) pre.length = v % 2 ^ 32 := by
  rw [readU32_append, readU32_writeU32]

theorem slice_enc (pre s post : List Nat) :
    slice (pre ++ s ++ post) pre.length s.length = s := by
  unfold slice
  rw [List.append_assoc, List.drop_left, List.take_left]

/-- Reading back one encoded `[2B len][bytes]` element in place. -/
theorem readStr2_enc {B : List Nat} (pre s post : List Nat)
    (hB : B = pre ++ encStr2 s ++ post) (hs : s.length < 2 ^ 16) :
    readStr2 B B.length pre.length = .done s (pre.length + 2 + s.length) := by
  have hlen : B.length = pre.length + 2 + s.length + post.length := by
    subst hB; simp [encStr2, writeU16]; omega
  have h16 : readU16 B pre.length = s.length := by
    rw [hB]
    show readU16 (pre ++ (writeU16 s.length ++ s) ++ post) pre.length = s.length
    simp only [List.append_assoc]
    rw [readU16_enc, Nat.mod_eq_of_lt hs]
  have hsl : slice B (pre.length + 2) s.length = s := by
    have : B = (pre ++ writeU16 s.length) ++ s ++ post := by
      rw [hB]; simp [encStr2, List.append_assoc]
    rw [this]
    have h2 : (pre ++ writeU16 s.length).length = pre.length + 2 := by
      simp [writeU16]
    rw [← h2]
    exact slice_enc (pre ++ writeU16 s.length) s post
  rw [readStr2_run B (by omega) (by rw [h16]; omega), h16, hsl]

theorem readGroup_succ (elem : PM (List (List Nat))) (k pos : Nat) :
    readGroup elem (k + 1) pos =
      (do
        let a ← elem
        let r ← readGroup elem k
        pure (a ++ r)) pos := rfl

theorem elem1_run {B : List Nat} {blen pos : Nat} {s : List Nat} {p : Nat}
    (h : readStr2 B blen pos = .done s p) : elem1 B blen pos = .done [s] p := by
  unfold elem1
  simp only [run_bind, h, run_pure]

/-- Reading back `k` encoded elements with `elem1` consumes exactly their
bytes and collects them in order. -/
theorem readGroup_elem1_enc {B : List Nat} (ks : List (List Nat)) (pre post : List Nat)
    (hB : B = pre ++ encList2 ks ++ post) (hks : ∀ k ∈ ks, k.length < 2 ^ 16) :
    readGroup (elem1 B B.length) ks.length pre.length =
      .done ks (pre.length + (encList2 ks).length) := by
  induction ks generalizing pre with
  | nil =>
      simp only [List.length_nil, encList2_nil, List.length_nil, Nat.add_zero]
      rfl
  | cons k ks ih =>
      have hk : k.length < 2 ^ 16 := hks k (by simp)
      have hstr : readStr2 B B.length pre.length = .done k (pre.length + 2 + k.length) := by
        apply readStr2_enc pre k (encList2 ks ++ post)
        · rw [hB, encList2_cons]
          simp [List.append_assoc]
        · exact hk
      have hrec : readGroup (elem1 B B.length) ks.length (pre.length + 2 + k.length) =
          .done ks (pre.length + 2 + k.length + (encList2 ks).length) := by
        have h2 : (pre ++ encStr2 k).length = pre.length + 2 + k.length := by
          simp [encStr2, writeU16]; omega
        rw [← h2]
        apply ih (pre ++ encStr2 k)
        · rw [hB, encList2_cons]
          simp [List.append_assoc]
        · intro x hx; exact hks x (by simp [hx])
      show (readGroup (elem1 B B.length) (ks.length + 1)) pre.length = _
      rw [readGroup_succ]
      simp only [run_bind, elem1_run hstr, hrec, run_pure, List.singleton_append]
      congr 1
      simp [encList2_cons, encStr2, writeU16]
      omega

/-! ### C2: repeated-group truncation -/

@[simp] theorem writeU16_length (v : Nat) : (writeU16 v).length = 2 := rfl
@[simp] theorem writeU32_length (v : Nat) : (writeU32 v).length = 4 := rfl
@[simp] theorem writeU64_length (v : Nat) : (writeU64 v).length = 8 := rfl

/-- A case body whose successful payload always respects the
`RESPB_MAX_ARGS` cap on `argc`. -/
def ArgcLe (m : PM Payload) : Prop :=
  ∀ pos pl p', m pos = .done pl p' → pl.argc ≤ RESPB_MAX_ARGS

theorem argcLe_bind {m : PM α} {f : α → PM Payload} (hf : ∀ a, ArgcLe (f a)) :
    ArgcLe (m >>= f) := by
  intro pos pl p' h
  simp only [run_bind] at h
  cases hm : m pos with
  | done a p => rw [hm] at h; exact hf a p pl p' h
  | more p => rw [hm] at h; exact absurd h (by simp)
  | fail p => rw [hm] at h; exact absurd h (by simp)

theorem argcLe_ite {c : Prop} [Decidable c] {m₁ m₂ : PM Payload}
    (h1 : ArgcLe m₁) (h2 : ArgcLe m₂) : ArgcLe (if c then m₁ else m₂) := by
  split
  · exact h1
  · exact h2

theorem argcLe_pure {pl : Payload} (h : pl.argc ≤ RESPB_MAX_ARGS) : ArgcLe (pure pl) := by
  intro pos pl' p' hp
  simp only [run_pure] at hp
  injection hp with h1 h2
  rw [← h1]
  exact h

theorem argcLe_fail : ArgcLe (fun pos => (PRes.fail (α := Payload) pos)) := by
  intro pos pl p' h
  exact absurd h (by simp)

/-- Every case body computes `argc ≤ RESPB_MAX_ARGS` on success. -/
theorem runShape_argc_le (B : List Nat) (blen : Nat) (sh : Shape) :
    ArgcLe (runShape B blen sh) := by
  have P : ∀ {pl : Payload}, pl.argc ≤ 64 → ArgcLe (pure pl) := fun h => argcLe_pure h
  have bnd : ∀ {α : Type} {m : PM α} {f : α → PM Payload},
      (∀ a, ArgcLe (f a)) → ArgcLe (m >>= f) := fun hf => argcLe_bind hf
  cases sh with
  | argsNone => exact P (by simp)
  | fixedOnly n => refine bnd fun _ => P ?_; simp
  | keyOnly => refine bnd fun _ => P ?_; simp
  | keyFixed n => refine bnd fun _ => bnd fun _ => P ?_; simp
  | twoStr2 => refine bnd fun _ => bnd fun _ => P ?_; simp
  | twoStr2Fixed n => refine bnd fun _ => bnd fun _ => bnd fun _ => P ?_; simp
  | str2str4 => refine bnd fun _ => bnd fun _ => P ?_; simp
  | str2str4Fixed n => refine bnd fun _ => bnd fun _ => bnd fun _ => P ?_; simp
  | keyFixedStr4 n => refine bnd fun _ => bnd fun _ => bnd fun _ => P ?_; simp
  | keyFixedStr2 n => refine bnd fun _ => bnd fun _ => bnd fun _ => P ?_; simp
  | threeStr2 => refine bnd fun _ => bnd fun _ => bnd fun _ => P ?_; simp
  | threeStr2Fixed n =>
      refine bnd fun _ => bnd fun _ => bnd fun _ => bnd fun _ => P ?_; simp
  | skipStr2 n => refine bnd fun _ => bnd fun _ => P ?_; simp
  | hsetnx => refine bnd fun _ => bnd fun _ => bnd fun _ => P ?_; simp
  | linsert => refine bnd fun _ => bnd fun _ => bnd fun _ => bnd fun _ => P ?_; simp
  | getex =>
      refine bnd fun _ => bnd fun _ =>
        argcLe_ite (bnd fun _ => P ?_) (bnd fun _ => P ?_)
      all_goals simp
  | strLoop pre withKey trail =>
      refine bnd fun _ => argcLe_ite
        (bnd fun k => bnd fun y => bnd fun cnt => bnd fun xs => bnd fun _ => P ?_)
        (bnd fun y => bnd fun cnt => bnd fun xs => bnd fun _ => P ?_)
      all_goals cases withKey <;> simp <;> omega
  | pairLoop withKey =>
      refine argcLe_ite
        (bnd fun _ => bnd fun n => bnd fun _ => P ?_)
        (bnd fun n => bnd fun _ => P ?_)
      all_goals simp <;> split <;> omega
  | evalShape four =>
      refine argcLe_ite ?_ ?_
      · refine bnd fun s => ?_
        refine bnd fun nk => ?_
        refine bnd fun ks => ?_
        refine bnd fun na => ?_
        refine argcLe_ite ?_ ?_
        · refine bnd fun a => bnd fun y => P ?_
          simp <;> (repeat' split) <;> omega
        · refine bnd fun y => P ?_
          simp <;> (repeat' split) <;> omega
      · refine bnd fun s => ?_
        refine bnd fun nk => ?_
        refine bnd fun ks => ?_
        refine bnd fun na => ?_
        refine argcLe_ite ?_ ?_
        · refine bnd fun a => bnd fun y => P ?_
          simp <;> (repeat' split) <;> omega
        · refine bnd fun y => P ?_
          simp <;> (repeat' split) <;> omega
  | countFirstOnly =>
      refine bnd fun cnt => argcLe_ite
        (bnd fun a => bnd fun y => P ?_)
        (bnd fun y => P ?_)
      all_goals simp <;> split <;> omega
  | hexpire =>
      refine bnd fun _ => bnd fun _ => bnd fun _ => argcLe_ite
        (bnd fun a => bnd fun y => P ?_)
        (bnd fun y => P ?_)
      all_goals simp
  | hexpiretime =>
      refine bnd fun _ => bnd fun nf => argcLe_ite
        (bnd fun a => bnd fun y => P ?_)
        (bnd fun y => P ?_)
      all_goals simp <;> split <;> omega
  | hgetex =>
      refine bnd fun _ => bnd fun _ => bnd fun nf => argcLe_ite
        (bnd fun a => bnd fun y => P ?_)
        (bnd fun y => P ?_)
      all_goals simp <;> split <;> omega
  | hsetex =>
      refine bnd fun _ => bnd fun _ => bnd fun nf => argcLe_ite
        (bnd fun f => bnd fun v => bnd fun y => P ?_)
        (bnd fun y => P ?_)
      all_goals simp <;> split <;> omega
  | xadd =>
      refine bnd fun _ => bnd fun _ => bnd fun cnt => argcLe_ite
        (bnd fun f => bnd fun y => P ?_)
        (bnd fun y => P ?_)
      all_goals simp <;> split <;> omega
  | xdel =>
      refine bnd fun _ => bnd fun cnt => argcLe_ite
        (bnd fun f => bnd fun y => P ?_)
        (bnd fun y => P ?_)
      all_goals simp <;> split <;> omega
  | xack =>
      refine bnd fun _ => bnd fun _ => bnd fun cnt => argcLe_ite
        (bnd fun f => bnd fun y => P ?_)
        (bnd fun y => P ?_)
      all_goals simp <;> split <;> omega
  | xclaim =>
      refine bnd fun _ => bnd fun _ => bnd fun _ => bnd fun _ => bnd fun cnt =>
        argcLe_ite
          (bnd fun f => bnd fun y => bnd fun _ => P ?_)
          (bnd fun y => bnd fun _ => P ?_)
      all_goals simp <;> split <;> omega
  | xautoclaim =>
      refine bnd fun _ => bnd fun _ => bnd fun _ => bnd fun _ => bnd fun _ => P ?_
      simp
  | xread =>
      refine bnd fun nk => bnd fun _ => P ?_
      simp <;> split <;> omega
  | xreadgroup =>
      refine bnd fun _ => bnd fun _ => bnd fun nk => bnd fun _ => P ?_
      simp <;> split <;> omega
  | migrate =>
      refine bnd fun _ => bnd fun _ => bnd fun _ => bnd fun _ => bnd fun _ => P ?_
      simp
  | restore =>
      refine bnd fun _ => bnd fun _ => bnd fun _ => bnd fun _ => P ?_
      simp
  | moduleCmd =>
      refine bnd fun sub => argcLe_ite
        (argcLe_ite
          (bnd fun _ => bnd fun _ => bnd fun _ => bnd fun _ => P ?_)
          (argcLe_ite
            (bnd fun _ => bnd fun np => bnd fun _ => P ?_)
            (bnd fun _ => P ?_)))
        (argcLe_ite
          (argcLe_ite
            (bnd fun _ => bnd fun _ => P ?_)
            (argcLe_ite
              (bnd fun _ => bnd fun _ => P ?_)
              (bnd fun _ => P ?_)))
          (argcLe_ite
            (argcLe_ite
              (bnd fun _ => bnd fun _ => P ?_)
              (bnd fun _ => P ?_))
            (bnd fun _ => P ?_)))
      all_goals simp <;> omega
  | passthrough =>
      refine bnd fun _ => bnd fun _ => bnd fun _ => bnd fun _ => P ?_
      simp
  | unknown => exact argcLe_fail

lemma parse_done_argc_le (B : List Nat) (blen pos : Nat) (cmd : Command) (p' : Nat)
    (h : respb_parse_command B blen pos = PRes.done cmd p') :
    cmd.argc ≤ RESPB_MAX_ARGS := by
  unfold respb_parse_command at h
  split at h
  · exact absurd h (by simp)
  · have ha := runShape_argc_le B blen (shapeOf (readU16 B pos))
    cases hr : runShape B blen (shapeOf (readU16 B pos)) (pos + 4) with
    | done pl p2 =>
        rw [hr] at h
        injection h with h1 h2
        rw [← h1]
        exact ha (pos + 4) pl p2 hr
    | more p => rw [hr] at h; exact absurd h (by simp)
    | fail p => rw [hr] at h; exact absurd h (by simp)

lemma parse_strLoop_trunc (op mux : Nat) (keys : List (List Nat)) (rest : List Nat)
    (hop : op = 0x000C ∨ op = 0x02C0 ∨ op = 0x02C2 ∨ op = 0x02C1)
    (hmux : mux < 2 ^ 16) (hge : RESPB_MAX_ARGS ≤ keys.length)
    (hcnt : keys.length < 2 ^ 16) (hks : ∀ k ∈ keys, k.length < 2 ^ 16) :
    respb_parse_command
      (writeU16 op ++ writeU16 mux ++ writeU16 keys.length ++ encList2 keys ++ rest)
      (writeU16 op ++ writeU16 mux ++ writeU16 keys.length ++ encList2 keys ++ rest).length
      0 =
    PRes.done
      { opcode := op, mux_id := mux, argc := RESPB_MAX_ARGS,
        args := keys.take RESPB_MAX_ARGS,
        raw_payload_len := 2 + (encList2 (keys.take RESPB_MAX_ARGS)).length }
      (6 + (encList2 (keys.take RESPB_MAX_ARGS)).length) := by
  simp only [RESPB_MAX_ARGS_eq] at hge ⊢
  set B := writeU16 op ++ writeU16 mux ++ writeU16 keys.length ++ encList2 keys ++ rest
    with hBdef
  have hoplt : op < 2 ^ 16 := by rcases hop with rfl | rfl | rfl | rfl <;> decide
  have hB0 : readU16 B 0 = op := by
    have e : B = writeU16 op ++
        (writeU16 mux ++ (writeU16 keys.length ++ (encList2 keys ++ rest))) := by
      simp [hBdef, List.append_assoc]
    rw [e, readU16_writeU16, Nat.mod_eq_of_lt hoplt]
  have hB2 : readU16 B 2 = mux := by
    have e : B = writeU16 op ++
        (writeU16 mux ++ (writeU16 keys.length ++ (encList2 keys ++ rest))) := by
      simp [hBdef, List.append_assoc]
    rw [e, show (2 : Nat) = (writeU16 op).length from rfl, readU16_enc,
        Nat.mod_eq_of_lt hmux]
  have hB4 : readU16 B 4 = keys.length := by
    have e : B = (writeU16 op ++ writeU16 mux) ++
        (writeU16 keys.length ++ (encList2 keys ++ rest)) := by
      simp [hBdef, List.append_assoc]
    rw [e, show (4 : Nat) = (writeU16 op ++ writeU16 mux).length from rfl, readU16_enc,
        Nat.mod_eq_of_lt hcnt]
  have hlen : B.length = 6 + (encList2 keys).length + rest.length := by
    rw [hBdef]; simp; omega
  have htk : (keys.take 64).length = 64 := by
    rw [List.length_take]; omega
  have hsplitkeys : encList2 keys = encList2 (keys.take 64) ++ encList2 (keys.drop 64) := by
    rw [← encList2_append, List.take_append_drop]
  have hgrp0 := readGroup_elem1_enc (B := B) (keys.take 64)
    (writeU16 op ++ writeU16 mux ++ writeU16 keys.length)
    (encList2 (keys.drop 64) ++ rest)
    (by rw [hBdef, hsplitkeys]; simp [List.append_assoc])
    (fun k hk => hks k (List.mem_of_mem_take hk))
  rw [htk] at hgrp0
  rw [show (writeU16 op ++ writeU16 mux ++ writeU16 keys.length).length = 6 by simp]
    at hgrp0
  have hshape : shapeOf op = Shape.strLoop 0 false 0 := by
    rcases hop with rfl | rfl | rfl | rfl <;> decide
  have hcnt2 : readCnt2 B B.length 4 = .done keys.length 6 := by
    rw [readCnt2_run B (by omega), hB4]
  have hrun : runShape B B.length (Shape.strLoop 0 false 0) 4 =
      .done { args := keys.take 64, argc := 64 }
        (6 + (encList2 (keys.take 64)).length) := by
    unfold runShape
    simp only [run_bind, skipOpt, if_pos rfl, run_pure, hcnt2, Bool.false_eq_true,
      if_false, if_true, ite_true, ite_false, RESPB_MAX_ARGS_eq, min_eq_right hge,
      hgrp0, List.nil_append, Nat.zero_add]
  unfold respb_parse_command
  rw [if_neg (by omega), hB0, hshape, hrun]
  show PRes.done
      ({ opcode := op, mux_id := readU16 B 2, argc := 64, args := keys.take 64,
         raw_payload_len := 6 + (encList2 (keys.take 64)).length - (0 + 4) } : Command)
      (6 + (encList2 (keys.take 64)).length) = _
  rw [hB2]
  congr 2
  all_goals omega

/-- C2 (amended, two parts).  Part 1: on every successful parse,
`argc ≤ RESPB_MAX_ARGS` — the cap claim holds.  Part 2: for the
repeated-group commands MGET (0x000C), DEL (0x02C0), EXISTS (0x02C2) and
UNLINK (0x02C1) with a declared element count of at least
`RESPB_MAX_ARGS`, a successful parse stores the first `RESPB_MAX_ARGS`
elements and consumes ONLY their bytes: the cursor stops after element
63, leaving the remaining declared elements unconsumed in the stream
(it does not consume all declared elements, as the original claim said). -/
theorem c2_amended_group_truncation :
    (∀ (B : List Nat) (blen pos : Nat) (cmd : Command) (p' : Nat),
        respb_parse_command B blen pos = PRes.done cmd p' → cmd.argc ≤ RESPB_MAX_ARGS) ∧
    (∀ (op mux : Nat) (keys : List (List Nat)) (rest : List Nat),
        op = 0x000C ∨ op = 0x02C0 ∨ op = 0x02C2 ∨ op = 0x02C1 →
        mux < 2 ^ 16 →
        RESPB_MAX_ARGS ≤ keys.length → keys.length < 2 ^ 16 →
        (∀ k ∈ keys, k.length < 2 ^ 16) →
        respb_parse_command
          (writeU16 op ++ writeU16 mux ++ writeU16 keys.length ++ encList2 keys ++ rest)
          (writeU16 op ++ writeU16 mux ++ writeU16 keys.length ++ encList2 keys ++ rest).length
          0 =
        PRes.done
          { opcode := op, mux_id := mux, argc := RESPB_MAX_ARGS,
            args := keys.take RESPB_MAX_ARGS,
            raw_payload_len := 2 + (encList2 (keys.take RESPB_MAX_ARGS)).length }
          (6 + (encList2 (keys.take RESPB_MAX_ARGS)).length)) :=
  ⟨fun B blen pos cmd p' h => parse_done_argc_le B blen pos cmd p' h,
   fun op mux keys rest hop hmux hge hcnt hks =>
     parse_strLoop_trunc op mux keys rest hop hmux hge hcnt hks⟩

/-- C2 counterexample: an MGET (opcode 0x000C) frame declaring 65 empty
keys.  All 65 declared elements occupy bytes 6..135 (two length bytes
each), so consuming every declared element would leave the cursor at 136.
The parse succeeds with `argc = 64` (the cap) but the cursor stops at 134:
the parser reads only `min(count, RESPB_MAX_ARGS)` elements and does not
consume the bytes of the elements beyond the cap. -/
theorem c2_group_truncation_counterexample :
    respb_parse_command
      ([0x00, 0x0C, 0x00, 0x00, 0x00, 65] ++
        (List.replicate 65 ([0, 0] : List Nat)).flatten)
      136 0 =
    PRes.done
      { opcode := 0x000C, mux_id := 0, argc := 64,
        args := List.replicate 64 [], raw_payload_len := 130 }
      134 ∧
    (134 : Nat) ≠ 136 := by
  have h := parse_strLoop_trunc 0x000C 0 (List.replicate 65 []) []
    (Or.inl rfl) (by decide) (by decide) (by decide) (by decide)
  have hbuf : writeU16 0x000C ++ writeU16 0 ++
      writeU16 (List.replicate 65 ([] : List Nat)).length ++
      encList2 (List.replicate 65 ([] : List Nat)) ++ [] =
      [0x00, 0x0C, 0x00, 0x00, 0x00, 65] ++
        (List.replicate 65 ([0, 0] : List Nat)).flatten := by decide
  rw [hbuf] at h
  have htk : (List.replicate 65 ([] : List Nat)).take RESPB_MAX_ARGS =
      List.replicate 64 [] := by decide
  rw [htk] at h
  have hel : (encList2 (List.replicate 64 ([] : List Nat))).length = 128 := by decide
  rw [hel] at h
  have hln : ([0x00, 0x0C, 0x00, 0x00, 0x00, 65] ++
      (List.replicate 65 ([0, 0] : List Nat)).flatten).length = 136 := by decide
  rw [hln] at h
  exact ⟨h, by decide⟩

theorem c2_amended_group_truncation_witness :
    (({ opcode := 0, mux_id := 0, argc := 1, args := [[109, 121, 107, 101, 121]],
        raw_payload_len := 7 } : Command).argc ≤ RESPB_MAX_ARGS) ∧
    respb_parse_command
      (writeU16 0x000C ++ writeU16 0 ++
        writeU16 (List.replicate 65 ([] : List Nat)).length ++
        encList2 (List.replicate 65 ([] : List Nat)) ++ [])
      (writeU16 0x000C ++ writeU16 0 ++
        writeU16 (List.replicate 65 ([] : List Nat)).length ++
        encList2 (List.replicate 65 ([] : List Nat)) ++ []).length 0 =
    PRes.done
      { opcode := 0x000C, mux_id := 0, argc := RESPB_MAX_ARGS,
        args := (List.replicate 65 ([] : List Nat)).take RESPB_MAX_ARGS,
        raw_payload_len :=
          2 + (encList2 ((List.replicate 65 ([] : List Nat)).take RESPB_MAX_ARGS)).length }
      (6 + (encList2 ((List.replicate 65 ([] : List Nat)).take RESPB_MAX_ARGS)).length) :=
  ⟨c2_amended_group_truncation.1 [0, 0, 0, 0, 0, 5, 109, 121, 107, 101, 121] 11 0
      { opcode := 0, mux_id := 0, argc := 1, args := [[109, 121, 107, 101, 121]],
        raw_payload_len := 7 } 11 rfl,
   c2_amended_group_truncation.2 0x000C 0 (List.replicate 65 []) []
      (Or.inl rfl) (by decide) (by decide) (by decide) (by decide)⟩

end Respb

namespace Metrics

/-! ### Latency recording invariants (C5) -/

/-- A run of `benchmark_record_latency` appends each latency while the
array is below the cap and drops the sample afterwards: the samples held
are the first `MAX_LATENCY_SAMPLES` ones. -/
lemma record_samples (ls : List Nat) : ∀ (m : BMetrics),
    (ls.foldl benchmark_record_latency m).latency_samples =
      m.latency_samples ++ ls.take (MAX_LATENCY_SAMPLES - m.latency_samples.length) := by
  induction ls with
  | nil => intro m; simp
  | cons l t ih =>
      intro m
      rw [List.foldl_cons, ih]
      by_cases h : m.latency_samples.length < MAX_LATENCY_SAMPLES
      · simp only [benchmark_record_latency, if_pos h, List.length_append,
          List.length_singleton]
        rw [List.append_assoc, List.singleton_append]
        congr 1
        rw [show MAX_LATENCY_SAMPLES - m.latency_samples.length =
              (MAX_LATENCY_SAMPLES - (m.latency_samples.length + 1)) + 1 by omega,
            List.take_succ_cons]
      · simp only [benchmark_record_latency, if_neg h]
        rw [show MAX_LATENCY_SAMPLES - m.latency_samples.length = 0 by omega]
        simp

/-- `total_latency_ns += latency_ns` runs on EVERY call (uint64
arithmetic), so the running total sums all latencies passed in, dropped
samples included. -/
lemma record_total (ls : List Nat) : ∀ (m : BMetrics),
    m.total_latency_ns < 2 ^ 64 →
    (ls.foldl benchmark_record_latency m).total_latency_ns =
      (m.total_latency_ns + ls.sum) % 2 ^ 64 := by
  induction ls with
  | nil =>
      intro m hm
      simp only [List.foldl_nil, List.sum_nil, Nat.add_zero]
      exact (Nat.mod_eq_of_lt hm).symm
  | cons l t ih =>
      intro m hm
      rw [List.foldl_cons,
          ih (benchmark_record_latency m l)
            (Nat.mod_lt _ (by norm_num))]
      simp only [benchmark_record_latency]
      rw [Nat.mod_add_mod, List.sum_cons, Nat.add_assoc]

/-- C5 counterexample: after 10001 calls of `benchmark_record_latency`
with latency 1 the sample array holds the 10000 first samples (sum
10000), but `total_latency_ns` is 10001: the 10001st latency, whose
sample was dropped at the cap, still went into the running total, so the
total does not equal the sum of the stored samples. -/
theorem c5_total_counts_dropped_counterexample :
    (recordAll (List.replicate 10001 1)).latency_samples.length = 10000 ∧
    (recordAll (List.replicate 10001 1)).latency_samples.sum = 10000 ∧
    (recordAll (List.replicate 10001 1)).total_latency_ns = 10001 ∧
    (recordAll (List.replicate 10001 1)).total_latency_ns ≠
      (recordAll (List.replicate 10001 1)).latency_samples.sum := by
  have hs : (recordAll (List.replicate 10001 1)).latency_samples =
      List.replicate 10000 1 := by
    unfold recordAll
    rw [record_samples]
    show ([] : List Nat) ++ (List.replicate 10001 1).take (MAX_LATENCY_SAMPLES - 0) = _
    rw [List.nil_append, Nat.sub_zero, List.take_replicate]
    norm_num [MAX_LATENCY_SAMPLES]
  have ht : (recordAll (List.replicate 10001 1)).total_latency_ns = 10001 := by
    unfold recordAll
    rw [record_total _ _ (by norm_num [benchmark_metrics_init]),
        show benchmark_metrics_init.total_latency_ns = 0 from rfl,
        List.sum_replicate, smul_eq_mul, Nat.zero_add, Nat.mul_one]
    exact Nat.mod_eq_of_lt (by norm_num)
  refine ⟨?_, ?_, ?_, ?_⟩
  · rw [hs, List.length_replicate]
  · rw [hs, List.sum_replicate, smul_eq_mul, Nat.mul_one]
  · exact ht
  · rw [hs, ht, List.sum_replicate, smul_eq_mul, Nat.mul_one]
    omega

/-- C5 (amended): the sample count never exceeds `MAX_LATENCY_SAMPLES`
and the stored samples are exactly the first `MAX_LATENCY_SAMPLES`
latencies, but `total_latency_ns` sums EVERY latency passed in (modulo
uint64), including those recorded after the cap whose samples were
dropped — not only the stored ones. -/
theorem c5_amended_latency_accounting (ls : List Nat) :
    (recordAll ls).latency_samples.length ≤ MAX_LATENCY_SAMPLES ∧
    (recordAll ls).latency_samples = ls.take MAX_LATENCY_SAMPLES ∧
    (recordAll ls).total_latency_ns = ls.sum % 2 ^ 64 := by
  have hs : (recordAll ls).latency_samples = ls.take MAX_LATENCY_SAMPLES := by
    unfold recordAll
    rw [record_samples]
    show ([] : List Nat) ++ ls.take (MAX_LATENCY_SAMPLES - 0) = _
    rw [List.nil_append, Nat.sub_zero]
  refine ⟨?_, hs, ?_⟩
  · rw [hs, List.length_take]
    omega
  · unfold recordAll
    rw [record_total _ _ (by norm_num [benchmark_metrics_init])]
    show ((0 : Nat) + ls.sum) % 2 ^ 64 = _
    rw [Nat.zero_add]

/-! ### Percentile computation (C7) -/

/-- `min_latency_ns`/`max_latency_ns` are updated online on every call,
so they bound every stored sample. -/
lemma record_minmax (ls : List Nat) : ∀ (m : BMetrics),
    (∀ x ∈ m.latency_samples, m.min_latency_ns ≤ x ∧ x ≤ m.max_latency_ns) →
    ∀ x ∈ (ls.foldl benchmark_record_latency m).latency_samples,
      (ls.foldl benchmark_record_latency m).min_latency_ns ≤ x ∧
      x ≤ (ls.foldl benchmark_record_latency m).max_latency_ns := by
  induction ls with
  | nil => intro m hm; exact hm
  | cons l t ih =>
      intro m hm
      rw [List.foldl_cons]
      refine ih (benchmark_record_latency m l) ?_
      intro x hx
      simp only [benchmark_record_latency] at hx ⊢
      by_cases h : m.latency_samples.length < MAX_LATENCY_SAMPLES
      · rw [if_pos h] at hx
        rcases List.mem_append.mp hx with hx | hx
        · have h2 := hm x hx
          constructor
          · split <;> omega
          · split <;> omega
        · rw [List.mem_singleton] at hx
          subst hx
          constructor
          · split <;> omega
          · split <;> omega
      · rw [if_neg h] at hx
        have h2 := hm x hx
        constructor
        · split <;> omega
        · split <;> omega

lemma recordAll_minmax (ls : List Nat) :
    ∀ x ∈ (recordAll ls).latency_samples,
      (recordAll ls).min_latency_ns ≤ x ∧ x ≤ (recordAll ls).max_latency_ns := by
  unfold recordAll
  exact record_minmax ls benchmark_metrics_init
    (fun x hx => absurd hx (List.not_mem_nil x))

/-- Reading a sorted list with `getD` at increasing in-range indices is
monotone. -/
lemma sorted_getD_le (l : List Nat) (hs : l.Sorted (· ≤ ·)) (i j : Nat)
    (hij : i ≤ j) (hj : j < l.length) : l.getD i 0 ≤ l.getD j 0 := by
  rcases Nat.lt_or_ge i j with h | h
  · have hi : i < l.length := lt_of_lt_of_le h (Nat.le_of_lt hj)
    rw [List.getD_eq_getElem l 0 hi, List.getD_eq_getElem l 0 hj]
    exact hs.rel_get_of_lt (show (⟨i, hi⟩ : Fin l.length) < ⟨j, hj⟩ by simpa using h)
  · have : i = j := by omega
    subst this
    exact le_refl _

lemma getD_mem (l : List Nat) (i : Nat) (h : i < l.length) : l.getD i 0 ∈ l := by
  rw [List.getD_eq_getElem l 0 h]
  exact List.getElem_mem h

/-- The three percentile fields of `benchmark_compute_percentiles` on a
non-empty sample array. -/
lemma compute_percentiles_fields (m : BMetrics)
    (hn : ¬ m.latency_samples.length = 0) :
    (benchmark_compute_percentiles m).p50_latency_ns =
      (List.insertionSort (· ≤ ·) m.latency_samples).getD
        (m.latency_samples.length * 50 / 100) 0 ∧
    (benchmark_compute_percentiles m).p90_latency_ns =
      (List.insertionSort (· ≤ ·) m.latency_samples).getD
        (m.latency_samples.length * 90 / 100) 0 ∧
    (benchmark_compute_percentiles m).p99_latency_ns =
      (List.insertionSort (· ≤ ·) m.latency_samples).getD
        (m.latency_samples.length * 99 / 100) 0 := by
  unfold benchmark_compute_percentiles
  rw [if_neg hn]
  exact ⟨rfl, rfl, rfl⟩

/-- C7: with at least 100 recorded latencies, the computed percentiles
satisfy `p50 ≤ p90 ≤ p99`, `min_latency_ns ≤ p50` and
`p99 ≤ max_latency_ns`: the sample array is sorted ascending and the
percentiles are read at the increasing in-range indices `n*P/100`, whose
values are samples bounded by the online min/max. -/
theorem c7_percentile_ordering (ls : List Nat) (h100 : 100 ≤ ls.length) :
    (benchmark_compute_percentiles (recordAll ls)).p50_latency_ns ≤
      (benchmark_compute_percentiles (recordAll ls)).p90_latency_ns ∧
    (benchmark_compute_percentiles (recordAll ls)).p90_latency_ns ≤
      (benchmark_compute_percentiles (recordAll ls)).p99_latency_ns ∧
    (recordAll ls).min_latency_ns ≤
      (benchmark_compute_percentiles (recordAll ls)).p50_latency_ns ∧
    (benchmark_compute_percentiles (recordAll ls)).p99_latency_ns ≤
      (recordAll ls).max_latency_ns := by
  have hsamp : (recordAll ls).latency_samples = ls.take MAX_LATENCY_SAMPLES := by
    unfold recordAll
    rw [record_samples]
    show ([] : List Nat) ++ ls.take (MAX_LATENCY_SAMPLES - 0) = _
    rw [List.nil_append, Nat.sub_zero]
  have hlen : (recordAll ls).latency_samples.length =
      min MAX_LATENCY_SAMPLES ls.length := by
    rw [hsamp, List.length_take]
  have hpos : 0 < (recordAll ls).latency_samples.length := by
    rw [hlen]
    simp only [MAX_LATENCY_SAMPLES]
    omega
  obtain ⟨h50, h90, h99⟩ :=
    compute_percentiles_fields (recordAll ls) (by omega)
  rw [h50, h90, h99]
  have hsort : (List.insertionSort (· ≤ ·) (recordAll ls).latency_samples).Sorted
      (· ≤ ·) := List.sorted_insertionSort (· ≤ ·) _
  have hslen : (List.insertionSort (· ≤ ·) (recordAll ls).latency_samples).length =
      (recordAll ls).latency_samples.length := by
    simp [List.length_insertionSort]
  have hmem : ∀ i, i < (recordAll ls).latency_samples.length →
      (List.insertionSort (· ≤ ·) (recordAll ls).latency_samples).getD i 0 ∈
        (recordAll ls).latency_samples := by
    intro i hi
    exact (List.perm_insertionSort (· ≤ ·) _).mem_iff.mp
      (getD_mem _ i (by omega))
  have h99lt : (recordAll ls).latency_samples.length * 99 / 100 <
      (recordAll ls).latency_samples.length := by omega
  have h5090 : (recordAll ls).latency_samples.length * 50 / 100 ≤
      (recordAll ls).latency_samples.length * 90 / 100 := by omega
  have h9099 : (recordAll ls).latency_samples.length * 90 / 100 ≤
      (recordAll ls).latency_samples.length * 99 / 100 := by omega
  refine ⟨?_, ?_, ?_, ?_⟩
  · exact sorted_getD_le _ hsort _ _ (by omega) (by omega)
  · exact sorted_getD_le _ hsort _ _ (by omega) (by omega)
  · exact (recordAll_minmax ls _ (hmem _ (by omega))).1
  · exact (recordAll_minmax ls _ (hmem _ (by omega))).2

theorem c7_percentile_ordering_witness :
    (benchmark_compute_percentiles (recordAll (List.range 100))).p50_latency_ns ≤
      (benchmark_compute_percentiles (recordAll (List.range 100))).p90_latency_ns ∧
    (benchmark_compute_percentiles (recordAll (List.range 100))).p90_latency_ns ≤
      (benchmark_compute_percentiles (recordAll (List.range 100))).p99_latency_ns ∧
    (recordAll (List.range 100)).min_latency_ns ≤
      (benchmark_compute_percentiles (recordAll (List.range 100))).p50_latency_ns ∧
    (benchmark_compute_percentiles (recordAll (List.range 100))).p99_latency_ns ≤
      (recordAll (List.range 100)).max_latency_ns :=
  c7_percentile_ordering (List.range 100) (by rw [List.length_range])

end Metrics

namespace VK

open Respb (byteAt slice)

/-! ### RESP length-token machinery (C8, C10) -/



lemma findIdx13_go (tok : List Nat) (rest : List Nat) (h13 : (13 : Nat) ∉ tok) :
    ∀ (i : Nat), List.findIdx? (· == 13) (tok ++ 13 :: rest) i = some (i + tok.length) := by
  induction tok with
  | nil => intro i; rw [List.nil_append, List.findIdx?_cons]; simp
  | cons a t ih =>
      intro i
      rw [List.cons_append, List.findIdx?_cons]
      have ha : (a == 13) = false := by
        simp only [beq_eq_false_iff_ne, ne_eq]
        exact fun h => h13 (h ▸ List.mem_cons_self a t)
      rw [ha]
      simp only [Bool.false_eq_true, if_false]
      rw [ih (fun hm => h13 (List.mem_cons_of_mem a hm)) (i + 1)]
      rw [List.length_cons]
      congr 1
      omega

lemma memchrCR_token (pre : List Nat) (h : Nat) (tok rest : List Nat)
    (hh : ¬ h = 13) (h13 : (13 : Nat) ∉ tok) :
    memchrCR (pre ++ h :: (tok ++ 13 :: 10 :: rest)) pre.length =
      some (pre.length + (tok.length + 1)) := by
  unfold memchrCR
  rw [List.drop_left, List.findIdx?_cons]
  have hh' : (h == 13) = false := by simpa using hh
  rw [hh']
  simp only [Bool.false_eq_true, if_false]
  rw [findIdx13_go tok (10 :: rest) h13 1]
  show some (pre.length + (1 + tok.length)) = some (pre.length + (tok.length + 1))
  congr 1
  omega



lemma slice_token (pre : List Nat) (h : Nat) (tok rest : List Nat) :
    slice (pre ++ h :: (tok ++ 13 :: 10 :: rest)) (pre.length + 1)
      (pre.length + (tok.length + 1) - (pre.length + 1)) = tok := by
  have h1 : pre.length + (tok.length + 1) - (pre.length + 1) = tok.length := by omega
  rw [h1]
  have h2 : pre ++ h :: (tok ++ 13 :: 10 :: rest) =
      (pre ++ [h]) ++ tok ++ (13 :: 10 :: rest) := by
    simp [List.append_assoc]
  have h3 : pre.length + 1 = (pre ++ [h]).length := by simp
  rw [h2, h3, Respb.slice_enc]

lemma byteAt_token (pre : List Nat) (h : Nat) (X : List Nat) :
    byteAt (pre ++ h :: X) pre.length = h := by
  have := Respb.byteAt_append pre (h :: X) 0
  simpa [Respb.byteAt] using this

lemma mbStep_invalid_token (repl auth : Bool) (pre tok rest : List Nat)
    (mb rt : Nat) (argv : List (List Nat))
    (h13 : (13 : Nat) ∉ tok) (hs : string2ll tok = none) :
    mbStep repl auth
      { querybuf := pre ++ 36 :: (tok ++ 13 :: 10 :: rest), qb_pos := pre.length,
        multibulklen := mb, bulklen := none, reqtype := rt, argv := argv } =
    StepRes.stop READ_FLAGS_ERROR_MBULK_INVALID_BULK_LEN
      { querybuf := pre ++ 36 :: (tok ++ 13 :: 10 :: rest), qb_pos := pre.length,
        multibulklen := mb, bulklen := none, reqtype := rt, argv := argv } := by
  have hmem := memchrCR_token pre 36 tok rest (by omega) h13
  have hguard : ¬ (((pre.length + (tok.length + 1) : Nat) : Int) - pre.length >
      ((pre ++ 36 :: (tok ++ 13 :: 10 :: rest)).length : Int) - pre.length - 2) := by
    push_cast [List.length_append, List.length_cons]
    omega
  simp only [mbStep, hmem]
  rw [if_neg hguard]
  rw [if_neg (by simp [byteAt_token])]
  rw [slice_token, hs]



lemma mbStep_bulk_oob (repl auth : Bool) (pre tok rest : List Nat)
    (mb rt : Nat) (argv : List (List Nat)) (ll : Int)
    (h13 : (13 : Nat) ∉ tok) (hs : string2ll tok = some ll)
    (hbad : ll < 0 ∨ (¬ repl = true ∧ ll > 512 * 1024 * 1024)) :
    mbStep repl auth
      { querybuf := pre ++ 36 :: (tok ++ 13 :: 10 :: rest), qb_pos := pre.length,
        multibulklen := mb, bulklen := none, reqtype := rt, argv := argv } =
    StepRes.stop READ_FLAGS_ERROR_MBULK_INVALID_BULK_LEN
      { querybuf := pre ++ 36 :: (tok ++ 13 :: 10 :: rest), qb_pos := pre.length,
        multibulklen := mb, bulklen := none, reqtype := rt, argv := argv } := by
  have hmem := memchrCR_token pre 36 tok rest (by omega) h13
  have hguard : ¬ (((pre.length + (tok.length + 1) : Nat) : Int) - pre.length >
      ((pre ++ 36 :: (tok ++ 13 :: 10 :: rest)).length : Int) - pre.length - 2) := by
    push_cast [List.length_append, List.length_cons]
    omega
  simp only [mbStep, hmem]
  rw [if_neg hguard]
  rw [if_neg (by simp [byteAt_token])]
  rw [slice_token]
  simp only [hs]
  rw [if_pos hbad]

lemma mbStep_bulk_unauth (repl : Bool) (pre tok rest : List Nat)
    (mb rt : Nat) (argv : List (List Nat)) (ll : Int)
    (h13 : (13 : Nat) ∉ tok) (hs : string2ll tok = some ll)
    (hok : ¬ (ll < 0 ∨ (¬ repl = true ∧ ll > 512 * 1024 * 1024)))
    (hau : ll > 16384) :
    mbStep repl true
      { querybuf := pre ++ 36 :: (tok ++ 13 :: 10 :: rest), qb_pos := pre.length,
        multibulklen := mb, bulklen := none, reqtype := rt, argv := argv } =
    StepRes.stop READ_FLAGS_ERROR_UNAUTHENTICATED_BULK_LEN
      { querybuf := pre ++ 36 :: (tok ++ 13 :: 10 :: rest), qb_pos := pre.length,
        multibulklen := mb, bulklen := none, reqtype := rt, argv := argv } := by
  have hmem := memchrCR_token pre 36 tok rest (by omega) h13
  have hguard : ¬ (((pre.length + (tok.length + 1) : Nat) : Int) - pre.length >
      ((pre ++ 36 :: (tok ++ 13 :: 10 :: rest)).length : Int) - pre.length - 2) := by
    push_cast [List.length_append, List.length_cons]
    omega
  simp only [mbStep, hmem]
  rw [if_neg hguard]
  rw [if_neg (by simp [byteAt_token])]
  rw [slice_token]
  simp only [hs]
  rw [if_neg hok]
  rw [if_pos ⟨hau, by trivial⟩]



lemma parseMultibulk_step (repl auth : Bool) (q : List Nat) (qp : Nat)
    (n rt : Nat) (argv : List (List Nat)) (hn : ¬ n = 0) (f : Nat) (c1 : VClient)
    (hstep : mbStep repl auth
      { querybuf := q, qb_pos := qp, multibulklen := n, bulklen := none,
        reqtype := rt, argv := argv } = StepRes.stop f c1) :
    parseMultibulk repl auth
      { querybuf := q, qb_pos := qp, multibulklen := n, bulklen := none,
        reqtype := rt, argv := argv } = (f, c1) := by
  unfold parseMultibulk
  rw [if_neg hn]
  cases n with
  | zero => exact absurd rfl hn
  | succ fuel =>
      rw [mbLoop]
      simp only []
      rw [hstep]



lemma s2lLoop_nondigit (l : List Nat) : ∀ (v x : Nat), x ∈ l → ¬ (48 ≤ x ∧ x ≤ 57) →
    s2lLoop l v = none := by
  induction l with
  | nil => intro v x hx; cases hx
  | cons c t ih =>
      intro v x hx hnd
      rcases List.mem_cons.mp hx with rfl | hx
      · simp only [s2lLoop]
        rw [if_neg hnd]
      · simp only [s2lLoop]
        split
        · split
          · rfl
          · split
            · rfl
            · exact ih _ x hx hnd
        · rfl

lemma foldl_den_ge (l : List Nat) : ∀ (v : Nat),
    v ≤ l.foldl (fun a c => a * 10 + (c - 48)) v := by
  induction l with
  | nil => intro v; exact le_refl v
  | cons c t ih =>
      intro v
      rw [List.foldl_cons]
      exact le_trans (by omega) (ih (v * 10 + (c - 48)))

lemma s2lLoop_digits (l : List Nat) : ∀ (v : Nat),
    (∀ x ∈ l, 48 ≤ x ∧ x ≤ 57) → v ≤ 2 ^ 64 - 1 →
    s2lLoop l v =
      if l.foldl (fun a c => a * 10 + (c - 48)) v ≤ 2 ^ 64 - 1 then
        some (l.foldl (fun a c => a * 10 + (c - 48)) v)
      else none := by
  induction l with
  | nil =>
      intro v _ hv
      rw [List.foldl_nil, if_pos hv]
      rfl
  | cons c t ih =>
      intro v hd hv
      have hc := hd c (List.mem_cons_self c t)
      simp only [s2lLoop]
      rw [if_pos hc, List.foldl_cons]
      by_cases hov : v * 10 + (c - 48) ≤ 2 ^ 64 - 1
      · have hg1 : ¬ v > (2 ^ 64 - 1) / 10 := by omega
        have hg2 : ¬ v * 10 > (2 ^ 64 - 1) - (c - 48) := by omega
        rw [if_neg hg1, if_neg hg2]
        exact ih _ (fun x hx => hd x (List.mem_cons_of_mem c hx)) hov
      · have hbig : ¬ t.foldl (fun a k => a * 10 + (k - 48)) (v * 10 + (c - 48)) ≤
            2 ^ 64 - 1 := fun h =>
          hov (le_trans (foldl_den_ge t (v * 10 + (c - 48))) h)
        rw [if_neg hbig]
        by_cases hg1 : v > (2 ^ 64 - 1) / 10
        · rw [if_pos hg1]
        · have hg2 : v * 10 > (2 ^ 64 - 1) - (c - 48) := by omega
          rw [if_neg hg1, if_pos hg2]



lemma string2ll_leading_zero (t : List Nat) (ht : t ≠ []) :
    string2ll (48 :: t) = none := by
  simp only [string2ll]
  rw [if_neg (fun h => ht h.2)]
  rw [if_neg (show ¬ (48 : Nat) = 45 by omega)]
  simp only []
  rw [if_neg (show ¬ ((49 : Nat) ≤ 48 ∧ (48 : Nat) ≤ 57) by omega)]
  rw [if_neg (fun h => by
    have := h.2
    simp [List.length_cons] at this
    exact ht this)]

lemma string2ll_leading_plus (t : List Nat) : string2ll (43 :: t) = none := by
  simp only [string2ll]
  rw [if_neg (show ¬ ((43 : Nat) = 48 ∧ t = []) from fun h => by omega)]
  rw [if_neg (show ¬ (43 : Nat) = 45 by omega)]
  simp only []
  rw [if_neg (show ¬ ((49 : Nat) ≤ 43 ∧ (43 : Nat) ≤ 57) by omega)]
  rw [if_neg (show ¬ ((43 : Nat) = 48 ∧ (43 :: t).length = 1) from fun h => by omega)]



lemma string2ll_embedded_nondigit (pre : List Nat) (x : Nat) (post : List Nat)
    (hx : ¬ (48 ≤ x ∧ x ≤ 57)) (hxp : ¬ (x = 45 ∧ pre = [])) :
    string2ll (pre ++ x :: post) = none := by
  cases pre with
  | nil =>
      have hx45 : ¬ x = 45 := fun h => hxp ⟨h, rfl⟩
      have hx48 : ¬ x = 48 := fun h => hx (by omega)
      simp only [List.nil_append, string2ll]
      rw [if_neg (fun h => hx48 h.1)]
      rw [if_neg hx45]
      simp only []
      rw [if_neg (fun h => hx (by omega))]
      rw [if_neg (fun h => hx48 h.1)]
  | cons p ps =>
      simp only [List.cons_append, string2ll]
      rw [if_neg (fun h => by simpa using congrArg List.length h.2)]
      by_cases hp : p = 45
      · rw [if_pos hp]
        cases ps with
        | nil =>
            simp only [List.nil_append]
            rw [if_neg (fun h => hx (by omega))]
            rw [if_neg (fun h => by simpa using congrArg id h.2)]
        | cons q qs =>
            simp only [List.cons_append]
            by_cases hq : 49 ≤ q ∧ q ≤ 57
            · rw [if_pos hq, s2lLoop_nondigit _ _ x (by simp) hx]
            · rw [if_neg hq]
              rw [if_neg (fun h => by simpa using congrArg id h.2)]
      · rw [if_neg hp]
        simp only []
        by_cases hpd : 49 ≤ p ∧ p ≤ 57
        · rw [if_pos hpd, s2lLoop_nondigit _ _ x (by simp) hx]
        · rw [if_neg hpd]
          rw [if_neg (fun h => by simpa using congrArg id h.2)]



lemma string2ll_pos_overflow (c : Nat) (rest : List Nat)
    (hc : 49 ≤ c ∧ c ≤ 57) (hd : ∀ x ∈ rest, 48 ≤ x ∧ x ≤ 57)
    (hbig : 2 ^ 63 - 1 < rest.foldl (fun a k => a * 10 + (k - 48)) (c - 48)) :
    string2ll (c :: rest) = none := by
  simp only [string2ll]
  rw [if_neg (fun h => by omega)]
  rw [if_neg (show ¬ c = 45 by omega)]
  simp only []
  rw [if_pos hc]
  rw [s2lLoop_digits rest (c - 48) hd (by omega)]
  by_cases hov : rest.foldl (fun a k => a * 10 + (k - 48)) (c - 48) ≤ 2 ^ 64 - 1
  · rw [if_pos hov]
    simp only []
    rw [if_neg (show ¬ c = 45 by omega)]
    rw [if_pos (show rest.foldl (fun a k => a * 10 + (k - 48)) (c - 48) > 2 ^ 63 - 1 by omega)]
  · rw [if_neg hov]

lemma string2ll_neg_overflow (c : Nat) (rest : List Nat)
    (hc : 49 ≤ c ∧ c ≤ 57) (hd : ∀ x ∈ rest, 48 ≤ x ∧ x ≤ 57)
    (hbig : 2 ^ 63 < rest.foldl (fun a k => a * 10 + (k - 48)) (c - 48)) :
    string2ll (45 :: c :: rest) = none := by
  simp only [string2ll]
  rw [if_neg (fun h => by omega)]
  rw [if_pos trivial]
  simp only []
  rw [if_pos hc]
  rw [s2lLoop_digits rest (c - 48) hd (by omega)]
  by_cases hov : rest.foldl (fun a k => a * 10 + (k - 48)) (c - 48) ≤ 2 ^ 64 - 1
  · rw [if_pos hov]
    simp only []
    rw [if_pos trivial]
    rw [if_pos (show rest.foldl (fun a k => a * 10 + (k - 48)) (c - 48) > 2 ^ 63 by omega)]
  · rw [if_neg hov]



lemma parseMultibulk_invalid_multibulk (repl auth : Bool) (tok rest : List Nat)
    (h13 : (13 : Nat) ∉ tok) (hs : string2ll tok = none) :
    (parseMultibulk repl auth { querybuf := 42 :: (tok ++ 13 :: 10 :: rest) }).1 =
      READ_FLAGS_ERROR_INVALID_MULTIBULK_LEN := by
  have hmem := memchrCR_token [] 42 tok rest (by omega) h13
  simp only [List.nil_append, List.length_nil] at hmem
  have hslice := slice_token [] 42 tok rest
  simp only [List.nil_append, List.length_nil] at hslice
  have hguard : ¬ (((0 + (tok.length + 1) : Nat) : Int) - ((0 : Nat) : Int) >
      (((42 :: (tok ++ 13 :: 10 :: rest)).length : Nat) : Int) - ((0 : Nat) : Int) - 2) := by
    push_cast [List.length_cons, List.length_append]
    omega
  simp only [parseMultibulk, hmem]
  rw [if_pos trivial]
  rw [if_neg hguard]
  rw [hslice]
  simp only [hs]



/-- C8 counterexample: the frame `*1\r\n$536870913\r\n` declares a bulk
length of 512 MiB + 1.  For a REPLICATED client (`READ_FLAGS_REPLICATED`
set) `parseMultibulk` does NOT return the invalid-bulk-length flag: the
512 MiB bound is guarded by `!is_replicated`, so the parse reports 0
(incomplete) and would keep consuming.  The same bytes on a
non-replicated client do produce `READ_FLAGS_ERROR_MBULK_INVALID_BULK_LEN`,
so the claim fails exactly on replicated clients. -/
theorem c8_replicated_bulk_cap_counterexample :
    (parseMultibulk true false
      { querybuf := [42, 49, 13, 10, 36, 53, 51, 54, 56, 55, 48, 57, 49, 51, 13, 10] }).1 =
      0 ∧
    (parseMultibulk false false
      { querybuf := [42, 49, 13, 10, 36, 53, 51, 54, 56, 55, 48, 57, 49, 51, 13, 10] }).1 =
      READ_FLAGS_ERROR_MBULK_INVALID_BULK_LEN ∧
    (0 : Nat) ≠ READ_FLAGS_ERROR_MBULK_INVALID_BULK_LEN := by
  refine ⟨?_, ?_, ?_⟩ <;> decide



/-- C8 (amended): for NON-replicated clients the declared bulk length,
parsed as a decimal integer from the token after `$`, is bounded:  a
parsed value outside [0, 512 MiB] yields
`READ_FLAGS_ERROR_MBULK_INVALID_BULK_LEN`, and a value within bounds but
above 16384 with authentication pending yields
`READ_FLAGS_ERROR_UNAUTHENTICATED_BULK_LEN`.  (Replicated clients skip
the 512 MiB bound — see the counterexample.) -/
theorem c8_amended_bulk_length_bounds :
    (∀ (auth : Bool) (pre tok rest : List Nat) (n rt : Nat) (argv : List (List Nat)) (ll : Int),
        ¬ n = 0 → (13 : Nat) ∉ tok → string2ll tok = some ll →
        ll < 0 ∨ ll > 512 * 1024 * 1024 →
        (parseMultibulk false auth
          { querybuf := pre ++ 36 :: (tok ++ 13 :: 10 :: rest), qb_pos := pre.length,
            multibulklen := n, bulklen := none, reqtype := rt, argv := argv }).1 =
          READ_FLAGS_ERROR_MBULK_INVALID_BULK_LEN) ∧
    (∀ (pre tok rest : List Nat) (n rt : Nat) (argv : List (List Nat)) (ll : Int),
        ¬ n = 0 → (13 : Nat) ∉ tok → string2ll tok = some ll →
        0 ≤ ll → ll ≤ 512 * 1024 * 1024 → ll > 16384 →
        (parseMultibulk false true
          { querybuf := pre ++ 36 :: (tok ++ 13 :: 10 :: rest), qb_pos := pre.length,
            multibulklen := n, bulklen := none, reqtype := rt, argv := argv }).1 =
          READ_FLAGS_ERROR_UNAUTHENTICATED_BULK_LEN) := by
  constructor
  · intro auth pre tok rest n rt argv ll hn h13 hll hbad
    refine congrArg Prod.fst (parseMultibulk_step false auth _ _ n rt argv hn _ _
      (mbStep_bulk_oob false auth pre tok rest n rt argv ll h13 hll ?_))
    rcases hbad with h | h
    · exact Or.inl h
    · exact Or.inr ⟨by simp, h⟩
  · intro pre tok rest n rt argv ll hn h13 hll h0 hcap hau
    refine congrArg Prod.fst (parseMultibulk_step false true _ _ n rt argv hn _ _
      (mbStep_bulk_unauth false pre tok rest n rt argv ll h13 hll ?_ hau))
    rintro (h | ⟨-, h⟩) <;> omega

theorem c8_amended_bulk_length_bounds_witness :
    (parseMultibulk false false
      { querybuf := [] ++ 36 :: ([53, 51, 54, 56, 55, 48, 57, 49, 51] ++ 13 :: 10 :: []),
        qb_pos := List.length ([] : List Nat), multibulklen := 1, bulklen := none,
        reqtype := 0, argv := [] }).1 =
      READ_FLAGS_ERROR_MBULK_INVALID_BULK_LEN :=
  c8_amended_bulk_length_bounds.1 false [] [53, 51, 54, 56, 55, 48, 57, 49, 51] [] 1 0 [] 536870913
    (by decide) (by decide) (by decide) (Or.inr (by decide))

/-- C10: `string2ll` accepts only canonical decimal tokens and the
parser surfaces the corresponding flags.  Parts: (1) leading zeros
(other than exactly "0") fail; (2) a leading `+` fails; (3) any
non-digit anywhere but a leading `-` fails; (4) a positive magnitude
above 2^63 - 1 fails; (5) a negative magnitude above 2^63 fails; (6) a
failing token after `*` makes `parseMultibulk` return
`READ_FLAGS_ERROR_INVALID_MULTIBULK_LEN`; (7) a failing token after `$`
makes it return `READ_FLAGS_ERROR_MBULK_INVALID_BULK_LEN`. -/
theorem c10_canonical_length_tokens :
    (∀ (t : List Nat), t ≠ [] → string2ll (48 :: t) = none) ∧
    (∀ (t : List Nat), string2ll (43 :: t) = none) ∧
    (∀ (pre : List Nat) (x : Nat) (post : List Nat),
        ¬ (48 ≤ x ∧ x ≤ 57) → ¬ (x = 45 ∧ pre = []) →
        string2ll (pre ++ x :: post) = none) ∧
    (∀ (c : Nat) (rest : List Nat),
        49 ≤ c ∧ c ≤ 57 → (∀ x ∈ rest, 48 ≤ x ∧ x ≤ 57) →
        2 ^ 63 - 1 < rest.foldl (fun a k => a * 10 + (k - 48)) (c - 48) →
        string2ll (c :: rest) = none) ∧
    (∀ (c : Nat) (rest : List Nat),
        49 ≤ c ∧ c ≤ 57 → (∀ x ∈ rest, 48 ≤ x ∧ x ≤ 57) →
        2 ^ 63 < rest.foldl (fun a k => a * 10 + (k - 48)) (c - 48) →
        string2ll (45 :: c :: rest) = none) ∧
    (∀ (repl auth : Bool) (tok rest : List Nat),
        (13 : Nat) ∉ tok → string2ll tok = none →
        (parseMultibulk repl auth { querybuf := 42 :: (tok ++ 13 :: 10 :: rest) }).1 =
          READ_FLAGS_ERROR_INVALID_MULTIBULK_LEN) ∧
    (∀ (repl auth : Bool) (pre tok rest : List Nat) (n rt : Nat) (argv : List (List Nat)),
        ¬ n = 0 → (13 : Nat) ∉ tok → string2ll tok = none →
        (parseMultibulk repl auth
          { querybuf := pre ++ 36 :: (tok ++ 13 :: 10 :: rest), qb_pos := pre.length,
            multibulklen := n, bulklen := none, reqtype := rt, argv := argv }).1 =
          READ_FLAGS_ERROR_MBULK_INVALID_BULK_LEN) :=
  ⟨string2ll_leading_zero, string2ll_leading_plus, string2ll_embedded_nondigit,
   string2ll_pos_overflow, string2ll_neg_overflow,
   parseMultibulk_invalid_multibulk,
   fun repl auth pre tok rest n rt argv hn h13 hs =>
     congrArg Prod.fst (parseMultibulk_step repl auth _ _ n rt argv hn _ _
       (mbStep_invalid_token repl auth pre tok rest n rt argv h13 hs))⟩


end VK

namespace Respb

/-! ### Serializer round trip (C3) -/

/-- Wire encoding of one `[4B len][bytes]` element. -/
def encStr4 (s : List Nat) : List Nat := writeU32 s.length ++ s

/-- Wire encoding of one `[2B klen][k][4B vlen][v]` pair. -/
def encPair24 (k v : List Nat) : List Nat :=
  writeU16 k.length ++ k ++ writeU32 v.length ++ v

/-- Wire encoding of a run of pairs. -/
def encPairs24 (ps : List (List Nat × List Nat)) : List Nat :=
  (ps.map fun p => encPair24 p.1 p.2).flatten

/-- The flattened argument list `k1, v1, k2, v2, ...` of a pair run. -/
def flatPairs : List (List Nat × List Nat) → List (List Nat)
  | [] => []
  | (k, v) :: t => k :: v :: flatPairs t

@[simp] theorem encStr4_length (s : List Nat) : (encStr4 s).length = 4 + s.length := by
  simp [encStr4, writeU32]
  omega

@[simp] theorem encPair24_length (k v : List Nat) :
    (encPair24 k v).length = 2 + k.length + 4 + v.length := by
  simp [encPair24, writeU16, writeU32]
  omega

@[simp] theorem encPairs24_nil : encPairs24 [] = [] := rfl

@[simp] theorem encPairs24_cons (k v : List Nat) (ps : List (List Nat × List Nat)) :
    encPairs24 ((k, v) :: ps) = encPair24 k v ++ encPairs24 ps := by
  simp [encPairs24]

@[simp] theorem flatPairs_nil : flatPairs [] = [] := rfl

@[simp] theorem flatPairs_cons (k v : List Nat) (ps : List (List Nat × List Nat)) :
    flatPairs ((k, v) :: ps) = k :: v :: flatPairs ps := rfl

@[simp] theorem flatPairs_length (ps : List (List Nat × List Nat)) :
    (flatPairs ps).length = 2 * ps.length := by
  induction ps with
  | nil => rfl
  | cons p t ih => cases p; simp [flatPairs, ih]; omega

theorem readStr4_enc {B : List Nat} (pre s post : List Nat)
    (hB : B = pre ++ encStr4 s ++ post) (hs : s.length < 2 ^ 32) :
    readStr4 B B.length pre.length = .done s (pre.length + 4 + s.length) := by
  have h32 : readU32 B pre.length = s.length := by
    rw [hB]
    show readU32 (pre ++ (writeU32 s.length ++ s) ++ post) pre.length = s.length
    simp only [List.append_assoc]
    rw [readU32_enc, Nat.mod_eq_of_lt hs]
  have hlen : B.length = pre.length + 4 + s.length + post.length := by
    subst hB; simp [encStr4, writeU32]; omega
  have hsl : slice B (pre.length + 4) s.length = s := by
    have h : B = (pre ++ writeU32 s.length) ++ s ++ post := by
      rw [hB]; simp [encStr4, List.append_assoc]
    rw [h]
    have h4 : (pre ++ writeU32 s.length).length = pre.length + 4 := by
      simp [writeU32]
    rw [← h4]
    exact slice_enc (pre ++ writeU32 s.length) s post
  rw [readStr4_run B (by omega) (by rw [h32]; omega), h32, hsl]

theorem elem24_run {B : List Nat} {blen pos : Nat} {k v : List Nat} {p q : Nat}
    (hk : readStr2 B blen pos = .done k p) (hv : readStr4 B blen p = .done v q) :
    elem24 B blen pos = .done [k, v] q := by
  unfold elem24
  simp only [run_bind, hk, hv, run_pure]

theorem readGroup_elem24_enc {B : List Nat} (ps : List (List Nat × List Nat))
    (pre post : List Nat) (hB : B = pre ++ encPairs24 ps ++ post)
    (hps : ∀ p ∈ ps, p.1.length < 2 ^ 16 ∧ p.2.length < 2 ^ 32) :
    readGroup (elem24 B B.length) ps.length pre.length =
      .done (flatPairs ps) (pre.length + (encPairs24 ps).length) := by
  induction ps generalizing pre with
  | nil =>
      simp only [List.length_nil, encPairs24_nil, Nat.add_zero]
      rfl
  | cons p t ih =>
      obtain ⟨k, v⟩ := p
      have hkv := hps (k, v) (List.mem_cons_self _ _)
      have hB' : B = (pre ++ encStr2 k) ++ encStr4 v ++ (encPairs24 t ++ post) := by
        rw [hB]
        simp [encPair24, encStr2, encStr4, List.append_assoc]
      have hBk : B = pre ++ encStr2 k ++ (encStr4 v ++ encPairs24 t ++ post) := by
        rw [hB']
        simp [List.append_assoc]
      have hk := readStr2_enc pre k (encStr4 v ++ encPairs24 t ++ post) hBk hkv.1
      have hv := readStr4_enc (pre ++ encStr2 k) v (encPairs24 t ++ post) hB' hkv.2
      have hlen2 : (pre ++ encStr2 k).length = pre.length + 2 + k.length := by
        simp [encStr2, writeU16]
        omega
      rw [hlen2] at hv
      have hrec := ih ((pre ++ encStr2 k) ++ encStr4 v)
        (by rw [hB']; simp [List.append_assoc])
        (fun q hq => hps q (List.mem_cons_of_mem _ hq))
      have hlen4 : ((pre ++ encStr2 k) ++ encStr4 v).length =
          pre.length + 2 + k.length + 4 + v.length := by
        simp [encStr2, encStr4, writeU16, writeU32]
        omega
      rw [hlen4] at hrec
      rw [List.length_cons, readGroup_succ]
      simp only [run_bind, elem24_run hk hv, hrec, run_pure, flatPairs_cons]
      congr 1
      simp [encPairs24_cons, encPair24, writeU16, writeU32]
      omega



theorem serStr2_some (bufLen : Nat) (acc s : List Nat)
    (h : acc.length + 2 + s.length ≤ bufLen) :
    serStr2 bufLen acc s = some (acc ++ encStr2 s) := by
  unfold serStr2
  rw [if_neg (by omega)]
  simp [encStr2, List.append_assoc]

theorem serArgs1_enc (bufLen : Nat) (elems : List (List Nat)) : ∀ (acc : List Nat),
    acc.length + (encList2 elems).length ≤ bufLen →
    serArgs1 bufLen elems acc = some (acc ++ encList2 elems) := by
  induction elems with
  | nil => intro acc h; simp [serArgs1]
  | cons s t ih =>
      intro acc h
      have hlen : (encList2 (s :: t)).length =
          2 + s.length + (encList2 t).length := by
        simp [encList2_cons, encStr2, writeU16]
        omega
      unfold serArgs1
      rw [serStr2_some bufLen acc s (by omega)]
      show serArgs1 bufLen t (acc ++ encStr2 s) = some (acc ++ encList2 (s :: t))
      rw [ih (acc ++ encStr2 s) (by simp [encStr2, writeU16]; omega)]
      simp [encList2_cons, List.append_assoc]

theorem serPair24_some (bufLen : Nat) (acc k v : List Nat)
    (h : acc.length + 2 + k.length + 4 + v.length ≤ bufLen) :
    serPair24 bufLen acc k v = some (acc ++ encPair24 k v) := by
  unfold serPair24
  rw [if_neg (by omega)]
  simp [encPair24, List.append_assoc]

theorem serPairs_enc (bufLen : Nat) (ps : List (List Nat × List Nat)) :
    ∀ (acc : List Nat),
    acc.length + (encPairs24 ps).length ≤ bufLen →
    serPairs bufLen ps acc = some (acc ++ encPairs24 ps) := by
  induction ps with
  | nil => intro acc h; simp [serPairs]
  | cons p t ih =>
      obtain ⟨k, v⟩ := p
      intro acc h
      have hlen : (encPairs24 ((k, v) :: t)).length =
          2 + k.length + 4 + v.length + (encPairs24 t).length := by
        simp [encPairs24_cons, encPair24, writeU16, writeU32]
        omega
      unfold serPairs
      rw [serPair24_some bufLen acc k v (by omega)]
      show serPairs bufLen t (acc ++ encPair24 k v) = some (acc ++ encPairs24 ((k, v) :: t))
      rw [ih (acc ++ encPair24 k v) (by simp [encPair24, writeU16, writeU32]; omega)]
      simp [encPairs24_cons, List.append_assoc]

theorem map_getD_range (l : List (List Nat)) :
    (List.range l.length).map (fun i => l.getD i []) = l := by
  apply List.ext_getElem
  · simp
  · intro i h1 h2
    simp only [List.getElem_map, List.getElem_range]
    rw [List.getD_eq_getElem l [] (by simpa using h1)]

theorem pairs_map_getD (ps : List (List Nat × List Nat)) :
    (List.range ps.length).map (fun i =>
      ((flatPairs ps).getD (2 * i) [], (flatPairs ps).getD (2 * i + 1) [])) = ps := by
  induction ps with
  | nil => rfl
  | cons p t ih =>
      obtain ⟨k, v⟩ := p
      rw [List.length_cons, List.range_succ_eq_map, List.map_cons, List.map_map]
      simp only [flatPairs_cons]
      rw [List.cons_eq_cons]
      refine ⟨rfl, ?_⟩
      refine Eq.trans (List.map_congr_left ?_) ih
      intro i hi
      simp only [Function.comp_apply]
      rw [show (2 * (i + 1)) = (2 * i + 1) + 1 from by omega]
      simp only [List.getD_cons_succ]

theorem parse_done_of_runShape (B : List Nat) (op mux : Nat) (pl : Payload) (p2 : Nat)
    (hB0 : readU16 B 0 = op) (hB2 : readU16 B 2 = mux)
    (h4 : 4 ≤ B.length)
    (hrun : runShape B B.length (shapeOf op) 4 = PRes.done pl p2) :
    respb_parse_command B B.length 0 = PRes.done
      { opcode := op, mux_id := mux, argc := pl.argc, args := pl.args,
        raw_payload_len := p2 - 4, module_subcommand := pl.msub, module_id := pl.mid,
        command_id := pl.cid, resp_length := pl.rlen, resp_data := pl.rdata } p2 := by
  unfold respb_parse_command
  rw [if_neg (by omega), hB0, Nat.zero_add, hrun, hB2]



theorem runShape_keyOnly_enc {B : List Nat} (pre k post : List Nat)
    (hB : B = pre ++ encStr2 k ++ post) (hk : k.length < 2 ^ 16) :
    runShape B B.length .keyOnly pre.length =
      .done { args := [k], argc := 1 } (pre.length + 2 + k.length) := by
  unfold runShape
  simp only [run_bind, readStr2_enc pre k post hB hk, run_pure]

theorem runShape_twoStr2_enc {B : List Nat} (pre a b post : List Nat)
    (hB : B = pre ++ encStr2 a ++ encStr2 b ++ post)
    (ha : a.length < 2 ^ 16) (hb : b.length < 2 ^ 16) :
    runShape B B.length .twoStr2 pre.length =
      .done { args := [a, b], argc := 2 } (pre.length + 2 + a.length + 2 + b.length) := by
  have h1 := readStr2_enc (B := B) pre a (encStr2 b ++ post) (by rw [hB]; try simp) ha
  have h2 := readStr2_enc (B := B) (pre ++ encStr2 a) b post (by rw [hB]; try simp) hb
  rw [show (pre ++ encStr2 a).length = pre.length + 2 + a.length by simp <;> omega] at h2
  unfold runShape
  simp only [run_bind, h1, h2, run_pure]

theorem runShape_str2str4_enc {B : List Nat} (pre a b post : List Nat)
    (hB : B = pre ++ encStr2 a ++ encStr4 b ++ post)
    (ha : a.length < 2 ^ 16) (hb : b.length < 2 ^ 32) :
    runShape B B.length .str2str4 pre.length =
      .done { args := [a, b], argc := 2 } (pre.length + 2 + a.length + 4 + b.length) := by
  have h1 := readStr2_enc (B := B) pre a (encStr4 b ++ post) (by rw [hB]; try simp) ha
  have h2 := readStr4_enc (B := B) (pre ++ encStr2 a) b post (by rw [hB]; try simp) hb
  rw [show (pre ++ encStr2 a).length = pre.length + 2 + a.length by simp <;> omega] at h2
  unfold runShape
  simp only [run_bind, h1, h2, run_pure]

theorem runShape_str2str4Fixed_enc {B : List Nat} (n : Nat) (pre a b tail : List Nat)
    (hB : B = pre ++ encStr2 a ++ encStr4 b ++ tail) (htail : tail.length = n)
    (ha : a.length < 2 ^ 16) (hb : b.length < 2 ^ 32) :
    runShape B B.length (.str2str4Fixed n) pre.length =
      .done { args := [a, b], argc := 2 } (pre.length + 2 + a.length + 4 + b.length + n) := by
  have h1 := readStr2_enc (B := B) pre a (encStr4 b ++ tail) (by rw [hB]; try simp) ha
  have h2 := readStr4_enc (B := B) (pre ++ encStr2 a) b tail (by rw [hB]; try simp) hb
  rw [show (pre ++ encStr2 a).length = pre.length + 2 + a.length by simp <;> omega] at h2
  have hlen : B.length = pre.length + 2 + a.length + 4 + b.length + n := by
    rw [hB]; simp <;> omega
  have h3 : skip B.length n (pre.length + 2 + a.length + 4 + b.length) =
      .done () (pre.length + 2 + a.length + 4 + b.length + n) :=
    skip_run (by omega)
  unfold runShape
  simp only [run_bind, h1, h2, h3, run_pure]

theorem runShape_keyFixed_enc {B : List Nat} (n : Nat) (pre k tail : List Nat)
    (hB : B = pre ++ encStr2 k ++ tail) (htail : tail.length = n)
    (hk : k.length < 2 ^ 16) :
    runShape B B.length (.keyFixed n) pre.length =
      .done { args := [k], argc := 1 } (pre.length + 2 + k.length + n) := by
  have h1 := readStr2_enc (B := B) pre k tail (by rw [hB]; try simp) hk
  have hlen : B.length = pre.length + 2 + k.length + n := by
    rw [hB]; simp <;> omega
  have h3 : skip B.length n (pre.length + 2 + k.length) =
      .done () (pre.length + 2 + k.length + n) := skip_run (by omega)
  unfold runShape
  simp only [run_bind, h1, h3, run_pure]

theorem runShape_argsNone (B : List Nat) (pos : Nat) :
    runShape B B.length .argsNone pos = .done { argc := 0 } pos := rfl



theorem runShape_strLoop_enc {B : List Nat} (pre : List Nat) (ks : List (List Nat))
    (post : List Nat)
    (hB : B = pre ++ writeU16 ks.length ++ encList2 ks ++ post)
    (hn : ks.length ≤ 64) (hks : ∀ k ∈ ks, k.length < 2 ^ 16) :
    runShape B B.length (.strLoop 0 false 0) pre.length =
      .done { args := ks, argc := ks.length }
        (pre.length + 2 + (encList2 ks).length) := by
  have hlen : pre.length + 2 ≤ B.length := by
    rw [hB]; simp [writeU16] <;> omega
  have hu16 : readU16 B pre.length = ks.length := by
    rw [hB]
    simp only [List.append_assoc]
    rw [readU16_enc, Nat.mod_eq_of_lt (by omega)]
  have hcnt2 : readCnt2 B B.length pre.length = .done ks.length (pre.length + 2) :=
    by rw [readCnt2_run B hlen, hu16]
  have hgrp := readGroup_elem1_enc (B := B) ks (pre ++ writeU16 ks.length) post
    (by rw [hB]; try simp [List.append_assoc]) hks
  rw [show (pre ++ writeU16 ks.length).length = pre.length + 2 by simp [writeU16]] at hgrp
  unfold runShape
  simp only [run_bind, skipOpt, if_pos rfl, run_pure, hcnt2, Bool.false_eq_true,
    if_false, if_true, ite_true, ite_false, RESPB_MAX_ARGS_eq, min_eq_left hn,
    hgrp, List.nil_append, Nat.zero_add]

theorem runShape_strLoopKey_enc {B : List Nat} (pre k : List Nat) (ks : List (List Nat))
    (post : List Nat)
    (hB : B = pre ++ encStr2 k ++ writeU16 ks.length ++ encList2 ks ++ post)
    (hkl : k.length < 2 ^ 16) (hn : ks.length ≤ 63)
    (hks : ∀ x ∈ ks, x.length < 2 ^ 16) :
    runShape B B.length (.strLoop 0 true 0) pre.length =
      .done { args := k :: ks, argc := 1 + ks.length }
        (pre.length + 2 + k.length + 2 + (encList2 ks).length) := by
  have h1 := readStr2_enc (B := B) pre k (writeU16 ks.length ++ encList2 ks ++ post)
    (by rw [hB]; simp) hkl
  have hlen : pre.length + 2 + k.length + 2 ≤ B.length := by
    rw [hB]; simp [writeU16, encStr2]; omega
  have hu16 : readU16 B (pre.length + 2 + k.length) = ks.length := by
    have e : B = (pre ++ encStr2 k) ++ (writeU16 ks.length ++ (encList2 ks ++ post)) := by
      rw [hB]; simp [List.append_assoc]
    rw [e, show pre.length + 2 + k.length = (pre ++ encStr2 k).length by simp <;> omega,
        readU16_enc, Nat.mod_eq_of_lt (by omega)]
  have hcnt2 : readCnt2 B B.length (pre.length + 2 + k.length) =
      .done ks.length (pre.length + 2 + k.length + 2) := by
    rw [readCnt2_run B (by omega), hu16]
  have hgrp := readGroup_elem1_enc (B := B) ks (pre ++ encStr2 k ++ writeU16 ks.length)
    post (by rw [hB]; try simp [List.append_assoc]) hks
  rw [show (pre ++ encStr2 k ++ writeU16 ks.length).length = pre.length + 2 + k.length + 2
    by simp [writeU16] <;> omega] at hgrp
  unfold runShape
  simp only [run_bind, skipOpt, if_pos rfl, run_pure, h1, hcnt2, Bool.true_eq_false,
    if_false, if_true, ite_true, ite_false, RESPB_MAX_ARGS_eq, min_eq_left hn,
    hgrp, List.singleton_append, Nat.zero_add]



theorem runShape_pairLoop_enc {B : List Nat} (pre : List Nat)
    (ps : List (List Nat × List Nat)) (post : List Nat)
    (hB : B = pre ++ writeU16 ps.length ++ encPairs24 ps ++ post)
    (hn : ps.length < 32)
    (hps : ∀ p ∈ ps, p.1.length < 2 ^ 16 ∧ p.2.length < 2 ^ 32) :
    runShape B B.length (.pairLoop false) pre.length =
      .done { args := flatPairs ps, argc := ps.length * 2 }
        (pre.length + 2 + (encPairs24 ps).length) := by
  have hlen : pre.length + 2 ≤ B.length := by
    rw [hB]; simp [writeU16] <;> omega
  have hu16 : readU16 B pre.length = ps.length := by
    rw [hB]
    simp only [List.append_assoc]
    rw [readU16_enc, Nat.mod_eq_of_lt (by omega)]
  have hcnt2 : readCnt2 B B.length pre.length = .done ps.length (pre.length + 2) :=
    by rw [readCnt2_run B hlen, hu16]
  have hgrp := readGroup_elem24_enc (B := B) ps (pre ++ writeU16 ps.length) post
    (by rw [hB]; try simp [List.append_assoc]) hps
  rw [show (pre ++ writeU16 ps.length).length = pre.length + 2 by simp [writeU16]] at hgrp
  unfold runShape
  simp only [run_bind, run_pure, hcnt2, Bool.false_eq_true, if_false, if_true,
    ite_true, ite_false, RESPB_MAX_ARGS_eq, min_eq_left (by omega : ps.length ≤ 32),
    if_pos hn, hgrp]

theorem runShape_pairLoopKey_enc {B : List Nat} (pre k : List Nat)
    (ps : List (List Nat × List Nat)) (post : List Nat)
    (hB : B = pre ++ encStr2 k ++ writeU16 ps.length ++ encPairs24 ps ++ post)
    (hkl : k.length < 2 ^ 16) (hn : ps.length < 31)
    (hps : ∀ p ∈ ps, p.1.length < 2 ^ 16 ∧ p.2.length < 2 ^ 32) :
    runShape B B.length (.pairLoop true) pre.length =
      .done { args := k :: flatPairs ps, argc := 1 + ps.length * 2 }
        (pre.length + 2 + k.length + 2 + (encPairs24 ps).length) := by
  have h1 := readStr2_enc (B := B) pre k (writeU16 ps.length ++ encPairs24 ps ++ post)
    (by rw [hB]; simp) hkl
  have hlen : pre.length + 2 + k.length + 2 ≤ B.length := by
    rw [hB]; simp [writeU16, encStr2] <;> omega
  have hu16 : readU16 B (pre.length + 2 + k.length) = ps.length := by
    have e : B = (pre ++ encStr2 k) ++ (writeU16 ps.length ++ (encPairs24 ps ++ post)) := by
      rw [hB]; simp [List.append_assoc]
    rw [e, show pre.length + 2 + k.length = (pre ++ encStr2 k).length by simp <;> omega,
        readU16_enc, Nat.mod_eq_of_lt (by omega)]
  have hcnt2 : readCnt2 B B.length (pre.length + 2 + k.length) =
      .done ps.length (pre.length + 2 + k.length + 2) := by
    rw [readCnt2_run B (by omega), hu16]
  have hgrp := readGroup_elem24_enc (B := B) ps (pre ++ encStr2 k ++ writeU16 ps.length)
    post (by rw [hB]; try simp [List.append_assoc]) hps
  rw [show (pre ++ encStr2 k ++ writeU16 ps.length).length = pre.length + 2 + k.length + 2
    by simp [writeU16] <;> omega] at hgrp
  unfold runShape
  simp only [run_bind, run_pure, h1, hcnt2, Bool.true_eq_false, if_false, if_true,
    ite_true, ite_false, RESPB_MAX_ARGS_eq, min_eq_left (by omega : ps.length ≤ 31),
    if_pos hn, hgrp]

theorem runShape_passthrough_enc {B : List Nat} (pre data post : List Nat)
    (hB : B = pre ++ writeU32 data.length ++ data ++ post)
    (hd : data.length < 2 ^ 32) :
    runShape B B.length .passthrough pre.length =
      .done { argc := 0, rlen := data.length, rdata := data }
        (pre.length + 4 + data.length) := by
  have hlen4 : pre.length + 4 ≤ B.length := by
    rw [hB]; simp [writeU32] <;> omega
  have hu32 : readU32 B pre.length = data.length := by
    rw [hB]
    simp only [List.append_assoc]
    rw [readU32_enc, Nat.mod_eq_of_lt hd]
  have hcnt4 : readCnt4 B B.length pre.length = .done data.length (pre.length + 4) := by
    rw [readCnt4_run B hlen4, hu32]
  have hav : checkAvail B.length data.length (pre.length + 4) =
      .done () (pre.length + 4) := by
    refine checkAvail_pass ?_
    rw [hB]; simp [writeU32] <;> omega
  have hsl : slice B (pre.length + 4) data.length = data := by
    have e : B = (pre ++ writeU32 data.length) ++ data ++ post := by
      rw [hB]; try simp [List.append_assoc]
    rw [e, show pre.length + 4 = (pre ++ writeU32 data.length).length
      by simp [writeU32] <;> omega]
    exact slice_enc (pre ++ writeU32 data.length) data post
  unfold runShape
  simp only [run_bind, hcnt4, hav, getPos_run, advance_run, run_pure, hsl]



theorem roundtrip_keyClass (op mux : Nat) (k : List Nat) (bufLen : Nat)
    (hop : op = 0x0000 ∨ op = 0x0009 ∨ op = 0x0003 ∨ op = 0x02C9 ∨ op = 0x0044 ∨
           op = 0x0084)
    (hmux : mux < 2 ^ 16) (hk : k.length < 2 ^ 16) (hbuf : 6 + k.length ≤ bufLen) :
    ∃ out,
      respb_serialize_command bufLen
        { opcode := op, mux_id := mux, argc := 1, args := [k],
          raw_payload_len := 0 } = some out ∧
      respb_parse_command out out.length 0 =
        PRes.done { opcode := op, mux_id := mux, argc := 1, args := [k],
                    raw_payload_len := 2 + k.length } out.length := by
  have hoplt : op < 2 ^ 16 := by rcases hop with rfl | rfl | rfl | rfl | rfl | rfl <;> decide
  refine ⟨writeU16 op ++ writeU16 mux ++ encStr2 k, ?_, ?_⟩
  · simp only [respb_serialize_command]
    rw [if_neg (by omega), if_pos hop, if_neg (by omega), List.getD_cons_zero]
    rw [serStr2_some bufLen (writeU16 op ++ writeU16 mux) k (by simp [writeU16] <;> omega)]
  · set B := writeU16 op ++ writeU16 mux ++ encStr2 k with hBdef
    have hB0 : readU16 B 0 = op := by
      have e : B = writeU16 op ++ (writeU16 mux ++ encStr2 k) := by
        rw [hBdef]; simp [List.append_assoc]
      rw [e, readU16_writeU16, Nat.mod_eq_of_lt hoplt]
    have hB2 : readU16 B 2 = mux := by
      have e : B = writeU16 op ++ (writeU16 mux ++ encStr2 k) := by
        rw [hBdef]; simp [List.append_assoc]
      rw [e, show (2 : Nat) = (writeU16 op).length from rfl, readU16_enc,
          Nat.mod_eq_of_lt hmux]
    have hshape : shapeOf op = Shape.keyOnly := by
      rcases hop with rfl | rfl | rfl | rfl | rfl | rfl <;> decide
    have hrun := runShape_keyOnly_enc (B := B) (writeU16 op ++ writeU16 mux) k []
      (by rw [hBdef]; simp) hk
    rw [show (writeU16 op ++ writeU16 mux).length = 4 by simp [writeU16]] at hrun
    have hp := parse_done_of_runShape B op mux { args := [k], argc := 1 }
      (4 + 2 + k.length) hB0 hB2 (by simp [hBdef, writeU16] <;> omega)
      (by rw [hshape]; exact hrun)
    rw [show (4 : Nat) + 2 + k.length - 4 = 2 + k.length by omega] at hp
    rw [show (4 : Nat) + 2 + k.length = B.length
      by simp [hBdef, writeU16, encStr2] <;> omega] at hp
    exact hp



theorem roundtrip_SET (mux : Nat) (k v : List Nat) (bufLen : Nat)
    (hmux : mux < 2 ^ 16) (hk : k.length < 2 ^ 16) (hv : v.length < 2 ^ 32)
    (hbuf : 4 + 2 + k.length + 4 + v.length + 9 ≤ bufLen) :
    ∃ out,
      respb_serialize_command bufLen
        { opcode := 0x0001, mux_id := mux, argc := 2, args := [k, v],
          raw_payload_len := 0 } = some out ∧
      respb_parse_command out out.length 0 =
        PRes.done { opcode := 0x0001, mux_id := mux, argc := 2, args := [k, v],
                    raw_payload_len := 2 + k.length + 4 + v.length + 9 } out.length := by
  refine ⟨writeU16 0x0001 ++ writeU16 mux ++ encStr2 k ++ encStr4 v ++
    ([0] ++ writeU64 0), ?_, ?_⟩
  · simp only [respb_serialize_command, List.getD_cons_zero, List.getD_cons_succ]
    norm_num
    refine ⟨by omega, by omega, ?_⟩
    simp [encStr2, encStr4, List.append_assoc]
  · set B := writeU16 0x0001 ++ writeU16 mux ++ encStr2 k ++ encStr4 v ++
      ([0] ++ writeU64 0) with hBdef
    have hB0 : readU16 B 0 = 0x0001 := by
      have e : B = writeU16 0x0001 ++ (writeU16 mux ++ (encStr2 k ++ (encStr4 v ++
          ([0] ++ writeU64 0)))) := by
        rw [hBdef]; simp [List.append_assoc]
      rw [e, readU16_writeU16, Nat.mod_eq_of_lt (by norm_num)]
    have hB2 : readU16 B 2 = mux := by
      have e : B = writeU16 0x0001 ++ (writeU16 mux ++ (encStr2 k ++ (encStr4 v ++
          ([0] ++ writeU64 0)))) := by
        rw [hBdef]; simp [List.append_assoc]
      have h := readU16_enc (writeU16 0x0001) mux ((encStr2 k ++ (encStr4 v ++
          ([0] ++ writeU64 0))))
      rw [show (writeU16 0x0001).length = 2 from rfl] at h
      rw [e, h, Nat.mod_eq_of_lt hmux]
    have hrun := runShape_str2str4Fixed_enc (B := B) 9 (writeU16 0x0001 ++ writeU16 mux)
      k v ([0] ++ writeU64 0) (by rw [hBdef]; try simp [List.append_assoc])
      (by simp [writeU64]) hk hv
    rw [show (writeU16 0x0001 ++ writeU16 mux).length = 4 by simp [writeU16]] at hrun
    have hp := parse_done_of_runShape B 0x0001 mux { args := [k, v], argc := 2 }
      (4 + 2 + k.length + 4 + v.length + 9) hB0 hB2
      (by simp [hBdef, writeU16] <;> omega)
      (by rw [show shapeOf 0x0001 = Shape.str2str4Fixed 9 from by decide]; exact hrun)
    rw [show (4 : Nat) + 2 + k.length + 4 + v.length + 9 - 4 =
      2 + k.length + 4 + v.length + 9 by omega] at hp
    rw [show (4 : Nat) + 2 + k.length + 4 + v.length + 9 = B.length
      by simp [hBdef, writeU16, writeU64, encStr2, encStr4, writeU32] <;> omega] at hp
    exact hp

theorem roundtrip_APPEND (mux : Nat) (k v : List Nat) (bufLen : Nat)
    (hmux : mux < 2 ^ 16) (hk : k.length < 2 ^ 16) (hv : v.length < 2 ^ 32)
    (hbuf : 4 + 2 + k.length + 4 + v.length ≤ bufLen) :
    ∃ out,
      respb_serialize_command bufLen
        { opcode := 0x0002, mux_id := mux, argc := 2, args := [k, v],
          raw_payload_len := 0 } = some out ∧
      respb_parse_command out out.length 0 =
        PRes.done { opcode := 0x0002, mux_id := mux, argc := 2, args := [k, v],
                    raw_payload_len := 2 + k.length + 4 + v.length } out.length := by
  refine ⟨writeU16 0x0002 ++ writeU16 mux ++ encStr2 k ++ encStr4 v, ?_, ?_⟩
  · simp only [respb_serialize_command, List.getD_cons_zero, List.getD_cons_succ]
    norm_num
    refine ⟨by omega, by omega, ?_⟩
    simp [encStr2, encStr4, List.append_assoc]
  · set B := writeU16 0x0002 ++ writeU16 mux ++ encStr2 k ++ encStr4 v with hBdef
    have hB0 : readU16 B 0 = 0x0002 := by
      have e : B = writeU16 0x0002 ++ (writeU16 mux ++ (encStr2 k ++ encStr4 v)) := by
        rw [hBdef]; simp [List.append_assoc]
      rw [e, readU16_writeU16, Nat.mod_eq_of_lt (by norm_num)]
    have hB2 : readU16 B 2 = mux := by
      have e : B = writeU16 0x0002 ++ (writeU16 mux ++ (encStr2 k ++ encStr4 v)) := by
        rw [hBdef]; simp [List.append_assoc]
      have h := readU16_enc (writeU16 0x0002) mux ((encStr2 k ++ encStr4 v))
      rw [show (writeU16 0x0002).length = 2 from rfl] at h
      rw [e, h, Nat.mod_eq_of_lt hmux]
    have hrun := runShape_str2str4_enc (B := B) (writeU16 0x0002 ++ writeU16 mux)
      k v [] (by rw [hBdef]; simp [List.append_assoc]) hk hv
    rw [show (writeU16 0x0002 ++ writeU16 mux).length = 4 by simp [writeU16]] at hrun
    have hp := parse_done_of_runShape B 0x0002 mux { args := [k, v], argc := 2 }
      (4 + 2 + k.length + 4 + v.length) hB0 hB2
      (by simp [hBdef, writeU16] <;> omega)
      (by rw [show shapeOf 0x0002 = Shape.str2str4 from by decide]; exact hrun)
    rw [show (4 : Nat) + 2 + k.length + 4 + v.length - 4 =
      2 + k.length + 4 + v.length by omega] at hp
    rw [show (4 : Nat) + 2 + k.length + 4 + v.length = B.length
      by simp [hBdef, writeU16, encStr2, encStr4, writeU32] <;> omega] at hp
    exact hp

theorem roundtrip_INCRBY (op mux : Nat) (k : List Nat) (bufLen : Nat)
    (hop : op = 0x000A ∨ op = 0x0004)
    (hmux : mux < 2 ^ 16) (hk : k.length < 2 ^ 16)
    (hbuf : 4 + 2 + k.length + 8 ≤ bufLen) :
    ∃ out,
      respb_serialize_command bufLen
        { opcode := op, mux_id := mux, argc := 1, args := [k],
          raw_payload_len := 0 } = some out ∧
      respb_parse_command out out.length 0 =
        PRes.done { opcode := op, mux_id := mux, argc := 1, args := [k],
                    raw_payload_len := 2 + k.length + 8 } out.length := by
  have hoplt : op < 2 ^ 16 := by rcases hop with rfl | rfl <;> decide
  refine ⟨writeU16 op ++ writeU16 mux ++ encStr2 k ++ writeU64 1, ?_, ?_⟩
  · rcases hop with rfl | rfl <;>
      (simp only [respb_serialize_command, List.getD_cons_zero]
       norm_num
       refine ⟨by omega, by omega, ?_⟩
       simp [encStr2, List.append_assoc])
  · set B := writeU16 op ++ writeU16 mux ++ encStr2 k ++ writeU64 1 with hBdef
    have hB0 : readU16 B 0 = op := by
      have e : B = writeU16 op ++ (writeU16 mux ++ (encStr2 k ++ writeU64 1)) := by
        rw [hBdef]; simp [List.append_assoc]
      rw [e, readU16_writeU16, Nat.mod_eq_of_lt hoplt]
    have hB2 : readU16 B 2 = mux := by
      have e : B = writeU16 op ++ (writeU16 mux ++ (encStr2 k ++ writeU64 1)) := by
        rw [hBdef]; simp [List.append_assoc]
      rw [e, show (2 : Nat) = (writeU16 op).length from rfl, readU16_enc,
          Nat.mod_eq_of_lt hmux]
    have hshape : shapeOf op = Shape.keyFixed 8 := by
      rcases hop with rfl | rfl <;> decide
    have hrun := runShape_keyFixed_enc (B := B) 8 (writeU16 op ++ writeU16 mux)
      k (writeU64 1) (by rw [hBdef]; try simp [List.append_assoc]) (by simp [writeU64]) hk
    rw [show (writeU16 op ++ writeU16 mux).length = 4 by simp [writeU16]] at hrun
    have hp := parse_done_of_runShape B op mux { args := [k], argc := 1 }
      (4 + 2 + k.length + 8) hB0 hB2
      (by simp [hBdef, writeU16] <;> omega)
      (by rw [hshape]; exact hrun)
    rw [show (4 : Nat) + 2 + k.length + 8 - 4 = 2 + k.length + 8 by omega] at hp
    rw [show (4 : Nat) + 2 + k.length + 8 = B.length
      by simp [hBdef, writeU16, writeU64, encStr2] <;> omega] at hp
    exact hp

theorem roundtrip_HGET (mux : Nat) (k f : List Nat) (bufLen : Nat)
    (hmux : mux < 2 ^ 16) (hk : k.length < 2 ^ 16) (hf : f.length < 2 ^ 16)
    (hbuf : 4 + 2 + k.length + 2 + f.length ≤ bufLen) :
    ∃ out,
      respb_serialize_command bufLen
        { opcode := 0x0101, mux_id := mux, argc := 2, args := [k, f],
          raw_payload_len := 0 } = some out ∧
      respb_parse_command out out.length 0 =
        PRes.done { opcode := 0x0101, mux_id := mux, argc := 2, args := [k, f],
                    raw_payload_len := 2 + k.length + 2 + f.length } out.length := by
  refine ⟨writeU16 0x0101 ++ writeU16 mux ++ encStr2 k ++ encStr2 f, ?_, ?_⟩
  · simp only [respb_serialize_command, List.getD_cons_zero, List.getD_cons_succ]
    norm_num
    refine ⟨by omega, by omega, ?_⟩
    simp [encStr2, List.append_assoc]
  · set B := writeU16 0x0101 ++ writeU16 mux ++ encStr2 k ++ encStr2 f with hBdef
    have hB0 : readU16 B 0 = 0x0101 := by
      have e : B = writeU16 0x0101 ++ (writeU16 mux ++ (encStr2 k ++ encStr2 f)) := by
        rw [hBdef]; simp [List.append_assoc]
      rw [e, readU16_writeU16, Nat.mod_eq_of_lt (by norm_num)]
    have hB2 : readU16 B 2 = mux := by
      have e : B = writeU16 0x0101 ++ (writeU16 mux ++ (encStr2 k ++ encStr2 f)) := by
        rw [hBdef]; simp [List.append_assoc]
      have h := readU16_enc (writeU16 0x0101) mux ((encStr2 k ++ encStr2 f))
      rw [show (writeU16 0x0101).length = 2 from rfl] at h
      rw [e, h, Nat.mod_eq_of_lt hmux]
    have hrun := runShape_twoStr2_enc (B := B) (writeU16 0x0101 ++ writeU16 mux)
      k f [] (by rw [hBdef]; simp [List.append_assoc]) hk hf
    rw [show (writeU16 0x0101 ++ writeU16 mux).length = 4 by simp [writeU16]] at hrun
    have hp := parse_done_of_runShape B 0x0101 mux { args := [k, f], argc := 2 }
      (4 + 2 + k.length + 2 + f.length) hB0 hB2
      (by simp [hBdef, writeU16] <;> omega)
      (by rw [show shapeOf 0x0101 = Shape.twoStr2 from by decide]; exact hrun)
    rw [show (4 : Nat) + 2 + k.length + 2 + f.length - 4 =
      2 + k.length + 2 + f.length by omega] at hp
    rw [show (4 : Nat) + 2 + k.length + 2 + f.length = B.length
      by simp [hBdef, writeU16, encStr2] <;> omega] at hp
    exact hp

theorem roundtrip_noArgs (op mux : Nat) (bufLen : Nat)
    (hop : op = 0x0300 ∨ op = 0x0240 ∨ op = 0x0241)
    (hmux : mux < 2 ^ 16) (hbuf : 4 ≤ bufLen) :
    ∃ out,
      respb_serialize_command bufLen
        { opcode := op, mux_id := mux, argc := 0, args := [],
          raw_payload_len := 0 } = some out ∧
      respb_parse_command out out.length 0 =
        PRes.done { opcode := op, mux_id := mux, argc := 0, args := [],
                    raw_payload_len := 0 } out.length := by
  have hoplt : op < 2 ^ 16 := by rcases hop with rfl | rfl | rfl <;> decide
  refine ⟨writeU16 op ++ writeU16 mux, ?_, ?_⟩
  · rcases hop with rfl | rfl | rfl <;>
      (simp only [respb_serialize_command]
       norm_num
       omega)
  · set B := writeU16 op ++ writeU16 mux with hBdef
    have hB0 : readU16 B 0 = op := by
      rw [hBdef, readU16_writeU16, Nat.mod_eq_of_lt hoplt]
    have hB2 : readU16 B 2 = mux := by
      rw [hBdef, show (2 : Nat) = (writeU16 op).length from rfl]
      rw [show writeU16 op ++ writeU16 mux = writeU16 op ++ (writeU16 mux ++ []) by simp]
      rw [readU16_enc, Nat.mod_eq_of_lt hmux]
    have hshape : shapeOf op = Shape.argsNone := by
      rcases hop with rfl | rfl | rfl <;> decide
    have hp := parse_done_of_runShape B op mux { argc := 0 } 4 hB0 hB2
      (by simp [hBdef, writeU16])
      (by rw [hshape]; exact runShape_argsNone B 4)
    rw [show (4 : Nat) - 4 = 0 by omega] at hp
    rw [show (4 : Nat) = B.length by simp [hBdef, writeU16]] at hp
    exact hp

lemma map_getD_cons (k : List Nat) (ks : List (List Nat)) :
    (List.range ks.length).map (fun i => (k :: ks).getD (i + 1) []) = ks := by
  simp only [List.getD_cons_succ]
  exact map_getD_range ks

lemma pairs_map_getD_cons (k : List Nat) (ps : List (List Nat × List Nat)) :
    (List.range ps.length).map (fun i =>
      ((k :: flatPairs ps).getD (2 * i + 1) [],
       (k :: flatPairs ps).getD (2 * i + 2) [])) = ps := by
  refine Eq.trans (List.map_congr_left ?_) (pairs_map_getD ps)
  intro i hi
  rw [show 2 * i + 2 = (2 * i + 1) + 1 from by omega]
  simp only [List.getD_cons_succ]

theorem roundtrip_MGET (op mux : Nat) (ks : List (List Nat)) (bufLen : Nat)
    (hop : op = 0x000C ∨ op = 0x02C0 ∨ op = 0x02C2)
    (hmux : mux < 2 ^ 16) (hn : ks.length ≤ 64)
    (hks : ∀ k ∈ ks, k.length < 2 ^ 16)
    (hbuf : 6 + (encList2 ks).length ≤ bufLen) :
    ∃ out,
      respb_serialize_command bufLen
        { opcode := op, mux_id := mux, argc := ks.length, args := ks,
          raw_payload_len := 0 } = some out ∧
      respb_parse_command out out.length 0 =
        PRes.done { opcode := op, mux_id := mux, argc := ks.length, args := ks,
                    raw_payload_len := 2 + (encList2 ks).length } out.length := by
  have hoplt : op < 2 ^ 16 := by rcases hop with rfl | rfl | rfl <;> decide
  refine ⟨writeU16 op ++ writeU16 mux ++ writeU16 ks.length ++ encList2 ks, ?_, ?_⟩
  · rcases hop with rfl | rfl | rfl <;>
      (simp only [respb_serialize_command]
       norm_num
       refine ⟨by omega, by omega, ?_⟩
       rw [show (List.map (fun i => ks[i]?.getD ([] : List Nat))
             (List.range ks.length)) = ks
           from by simpa [List.getD_eq_getElem?_getD] using map_getD_range ks]
       rw [serArgs1_enc bufLen ks _ (by simp [writeU16] <;> omega)]
       simp [List.append_assoc])
  · set B := writeU16 op ++ writeU16 mux ++ writeU16 ks.length ++ encList2 ks with hBdef
    have hB0 : readU16 B 0 = op := by
      have e : B = writeU16 op ++ (writeU16 mux ++ (writeU16 ks.length ++ encList2 ks)) := by
        rw [hBdef]; simp [List.append_assoc]
      rw [e, readU16_writeU16, Nat.mod_eq_of_lt hoplt]
    have hB2 : readU16 B 2 = mux := by
      have e : B = writeU16 op ++ (writeU16 mux ++ (writeU16 ks.length ++ encList2 ks)) := by
        rw [hBdef]; simp [List.append_assoc]
      rw [e, show (2 : Nat) = (writeU16 op).length from rfl, readU16_enc,
          Nat.mod_eq_of_lt hmux]
    have hshape : shapeOf op = Shape.strLoop 0 false 0 := by
      rcases hop with rfl | rfl | rfl <;> decide
    have hrun := runShape_strLoop_enc (B := B) (writeU16 op ++ writeU16 mux) ks []
      (by rw [hBdef]; simp [List.append_assoc]) hn hks
    rw [show (writeU16 op ++ writeU16 mux).length = 4 by simp [writeU16]] at hrun
    have hp := parse_done_of_runShape B op mux { args := ks, argc := ks.length }
      (4 + 2 + (encList2 ks).length) hB0 hB2
      (by simp [hBdef, writeU16] <;> omega)
      (by rw [hshape]; exact hrun)
    rw [show (4 : Nat) + 2 + (encList2 ks).length - 4 = 2 + (encList2 ks).length
      by omega] at hp
    rw [show (4 : Nat) + 2 + (encList2 ks).length = B.length
      by simp [hBdef, writeU16] <;> omega] at hp
    exact hp

theorem roundtrip_LPUSH (op mux : Nat) (k : List Nat) (ks : List (List Nat))
    (bufLen : Nat)
    (hop : op = 0x0040 ∨ op = 0x0041 ∨ op = 0x0080)
    (hmux : mux < 2 ^ 16) (hk : k.length < 2 ^ 16) (hn : ks.length ≤ 63)
    (hks : ∀ x ∈ ks, x.length < 2 ^ 16)
    (hbuf : 4 + 2 + k.length + 2 + (encList2 ks).length ≤ bufLen) :
    ∃ out,
      respb_serialize_command bufLen
        { opcode := op, mux_id := mux, argc := 1 + ks.length, args := k :: ks,
          raw_payload_len := 0 } = some out ∧
      respb_parse_command out out.length 0 =
        PRes.done { opcode := op, mux_id := mux, argc := 1 + ks.length,
                    args := k :: ks,
                    raw_payload_len := 2 + k.length + 2 + (encList2 ks).length }
          out.length := by
  have hoplt : op < 2 ^ 16 := by rcases hop with rfl | rfl | rfl <;> decide
  refine ⟨writeU16 op ++ writeU16 mux ++ encStr2 k ++ writeU16 ks.length ++
    encList2 ks, ?_, ?_⟩
  · rcases hop with rfl | rfl | rfl <;>
      (simp only [respb_serialize_command, List.getD_cons_zero]
       norm_num
       refine ⟨by omega, by omega, ?_⟩
       rw [show (List.map (fun i => ks[i]?.getD ([] : List Nat))
             (List.range ks.length)) = ks
           from by simpa [List.getD_eq_getElem?_getD] using map_getD_range ks]
       rw [serArgs1_enc bufLen ks _ (by simp [writeU16] <;> omega)]
       simp [encStr2, List.append_assoc])
  · set B := writeU16 op ++ writeU16 mux ++ encStr2 k ++ writeU16 ks.length ++
      encList2 ks with hBdef
    have hB0 : readU16 B 0 = op := by
      have e : B = writeU16 op ++ (writeU16 mux ++ (encStr2 k ++
          (writeU16 ks.length ++ encList2 ks))) := by
        rw [hBdef]; simp [List.append_assoc]
      rw [e, readU16_writeU16, Nat.mod_eq_of_lt hoplt]
    have hB2 : readU16 B 2 = mux := by
      have e : B = writeU16 op ++ (writeU16 mux ++ (encStr2 k ++
          (writeU16 ks.length ++ encList2 ks))) := by
        rw [hBdef]; simp [List.append_assoc]
      rw [e, show (2 : Nat) = (writeU16 op).length from rfl, readU16_enc,
          Nat.mod_eq_of_lt hmux]
    have hshape : shapeOf op = Shape.strLoop 0 true 0 := by
      rcases hop with rfl | rfl | rfl <;> decide
    have hrun := runShape_strLoopKey_enc (B := B) (writeU16 op ++ writeU16 mux) k ks []
      (by rw [hBdef]; simp [List.append_assoc]) hk hn hks
    rw [show (writeU16 op ++ writeU16 mux).length = 4 by simp [writeU16]] at hrun
    have hp := parse_done_of_runShape B op mux
      { args := k :: ks, argc := 1 + ks.length }
      (4 + 2 + k.length + 2 + (encList2 ks).length) hB0 hB2
      (by simp [hBdef, writeU16] <;> omega)
      (by rw [hshape]; exact hrun)
    rw [show (4 : Nat) + 2 + k.length + 2 + (encList2 ks).length - 4 =
      2 + k.length + 2 + (encList2 ks).length by omega] at hp
    rw [show (4 : Nat) + 2 + k.length + 2 + (encList2 ks).length = B.length
      by simp [hBdef, writeU16, encStr2] <;> omega] at hp
    exact hp

theorem roundtrip_MSET (mux : Nat) (ps : List (List Nat × List Nat)) (bufLen : Nat)
    (hmux : mux < 2 ^ 16) (hp0 : 1 ≤ ps.length) (hn : ps.length < 32)
    (hps : ∀ p ∈ ps, p.1.length < 2 ^ 16 ∧ p.2.length < 2 ^ 32)
    (hbuf : 6 + (encPairs24 ps).length ≤ bufLen) :
    ∃ out,
      respb_serialize_command bufLen
        { opcode := 0x000D, mux_id := mux, argc := ps.length * 2,
          args := flatPairs ps, raw_payload_len := 0 } = some out ∧
      respb_parse_command out out.length 0 =
        PRes.done { opcode := 0x000D, mux_id := mux, argc := ps.length * 2,
                    args := flatPairs ps,
                    raw_payload_len := 2 + (encPairs24 ps).length } out.length := by
  refine ⟨writeU16 0x000D ++ writeU16 mux ++ writeU16 ps.length ++ encPairs24 ps,
    ?_, ?_⟩
  · simp only [respb_serialize_command]
    norm_num
    refine ⟨by omega, List.length_pos.mp (by omega), by omega, ?_⟩
    rw [show (List.map (fun i => ((flatPairs ps)[2 * i]?.getD ([] : List Nat),
          (flatPairs ps)[2 * i + 1]?.getD ([] : List Nat))) (List.range ps.length)) = ps
        from by simpa [List.getD_eq_getElem?_getD] using pairs_map_getD ps]
    rw [serPairs_enc bufLen ps _ (by simp [writeU16] <;> omega)]
    simp [List.append_assoc]
  · set B := writeU16 0x000D ++ writeU16 mux ++ writeU16 ps.length ++ encPairs24 ps
      with hBdef
    have hB0 : readU16 B 0 = 0x000D := by
      have e : B = writeU16 0x000D ++ (writeU16 mux ++ (writeU16 ps.length ++
          encPairs24 ps)) := by
        rw [hBdef]; simp [List.append_assoc]
      rw [e, readU16_writeU16, Nat.mod_eq_of_lt (by norm_num)]
    have hB2 : readU16 B 2 = mux := by
      have e : B = writeU16 0x000D ++ (writeU16 mux ++ (writeU16 ps.length ++
          encPairs24 ps)) := by
        rw [hBdef]; simp [List.append_assoc]
      have h := readU16_enc (writeU16 0x000D) mux (writeU16 ps.length ++ encPairs24 ps)
      rw [show (writeU16 0x000D).length = 2 from rfl] at h
      rw [e, h, Nat.mod_eq_of_lt hmux]
    have hrun := runShape_pairLoop_enc (B := B) (writeU16 0x000D ++ writeU16 mux) ps []
      (by rw [hBdef]; simp [List.append_assoc]) hn hps
    rw [show (writeU16 0x000D ++ writeU16 mux).length = 4 by simp [writeU16]] at hrun
    have hp := parse_done_of_runShape B 0x000D mux
      { args := flatPairs ps, argc := ps.length * 2 }
      (4 + 2 + (encPairs24 ps).length) hB0 hB2
      (by simp [hBdef, writeU16] <;> omega)
      (by rw [show shapeOf 0x000D = Shape.pairLoop false from by decide]; exact hrun)
    rw [show (4 : Nat) + 2 + (encPairs24 ps).length - 4 = 2 + (encPairs24 ps).length
      by omega] at hp
    rw [show (4 : Nat) + 2 + (encPairs24 ps).length = B.length
      by simp [hBdef, writeU16] <;> omega] at hp
    exact hp

theorem roundtrip_HSET (mux : Nat) (k : List Nat) (ps : List (List Nat × List Nat))
    (bufLen : Nat)
    (hmux : mux < 2 ^ 16) (hk : k.length < 2 ^ 16) (hn : ps.length < 31)
    (hps : ∀ p ∈ ps, p.1.length < 2 ^ 16 ∧ p.2.length < 2 ^ 32)
    (hbuf : 4 + 2 + k.length + 2 + (encPairs24 ps).length ≤ bufLen) :
    ∃ out,
      respb_serialize_command bufLen
        { opcode := 0x0100, mux_id := mux, argc := 1 + ps.length * 2,
          args := k :: flatPairs ps, raw_payload_len := 0 } = some out ∧
      respb_parse_command out out.length 0 =
        PRes.done { opcode := 0x0100, mux_id := mux, argc := 1 + ps.length * 2,
                    args := k :: flatPairs ps,
                    raw_payload_len := 2 + k.length + 2 + (encPairs24 ps).length }
          out.length := by
  refine ⟨writeU16 0x0100 ++ writeU16 mux ++ encStr2 k ++ writeU16 ps.length ++
    encPairs24 ps, ?_, ?_⟩
  · simp only [respb_serialize_command, List.getD_cons_zero]
    norm_num
    refine ⟨by omega, by omega, ?_⟩
    rw [show (List.map (fun i => ((flatPairs ps)[2 * i]?.getD ([] : List Nat),
          (flatPairs ps)[2 * i + 1]?.getD ([] : List Nat))) (List.range ps.length)) = ps
        from by simpa [List.getD_eq_getElem?_getD] using pairs_map_getD ps]
    rw [serPairs_enc bufLen ps _ (by simp [writeU16] <;> omega)]
    simp [encStr2, List.append_assoc]
  · set B := writeU16 0x0100 ++ writeU16 mux ++ encStr2 k ++ writeU16 ps.length ++
      encPairs24 ps with hBdef
    have hB0 : readU16 B 0 = 0x0100 := by
      have e : B = writeU16 0x0100 ++ (writeU16 mux ++ (encStr2 k ++
          (writeU16 ps.length ++ encPairs24 ps))) := by
        rw [hBdef]; simp [List.append_assoc]
      rw [e, readU16_writeU16, Nat.mod_eq_of_lt (by norm_num)]
    have hB2 : readU16 B 2 = mux := by
      have e : B = writeU16 0x0100 ++ (writeU16 mux ++ (encStr2 k ++
          (writeU16 ps.length ++ encPairs24 ps))) := by
        rw [hBdef]; simp [List.append_assoc]
      have h := readU16_enc (writeU16 0x0100) mux
        (encStr2 k ++ (writeU16 ps.length ++ encPairs24 ps))
      rw [show (writeU16 0x0100).length = 2 from rfl] at h
      rw [e, h, Nat.mod_eq_of_lt hmux]
    have hrun := runShape_pairLoopKey_enc (B := B) (writeU16 0x0100 ++ writeU16 mux)
      k ps [] (by rw [hBdef]; simp [List.append_assoc]) hk hn hps
    rw [show (writeU16 0x0100 ++ writeU16 mux).length = 4 by simp [writeU16]] at hrun
    have hp := parse_done_of_runShape B 0x0100 mux
      { args := k :: flatPairs ps, argc := 1 + ps.length * 2 }
      (4 + 2 + k.length + 2 + (encPairs24 ps).length) hB0 hB2
      (by simp [hBdef, writeU16] <;> omega)
      (by rw [show shapeOf 0x0100 = Shape.pairLoop true from by decide]; exact hrun)
    rw [show (4 : Nat) + 2 + k.length + 2 + (encPairs24 ps).length - 4 =
      2 + k.length + 2 + (encPairs24 ps).length by omega] at hp
    rw [show (4 : Nat) + 2 + k.length + 2 + (encPairs24 ps).length = B.length
      by simp [hBdef, writeU16, encStr2] <;> omega] at hp
    exact hp

theorem roundtrip_passthrough (mux : Nat) (data : List Nat) (bufLen : Nat)
    (hmux : mux < 2 ^ 16) (hd : data.length < 2 ^ 32)
    (hbuf : 8 + data.length ≤ bufLen) :
    ∃ out,
      respb_serialize_command bufLen
        { opcode := 0xFFFF, mux_id := mux, argc := 0, args := [],
          raw_payload_len := 0, resp_length := data.length, resp_data := data } =
        some out ∧
      respb_parse_command out out.length 0 =
        PRes.done { opcode := 0xFFFF, mux_id := mux, argc := 0, args := [],
                    raw_payload_len := 4 + data.length,
                    resp_length := data.length, resp_data := data } out.length := by
  refine ⟨writeU16 0xFFFF ++ writeU16 mux ++ writeU32 data.length ++ data, ?_, ?_⟩
  · simp only [respb_serialize_command]
    norm_num
    refine ⟨by omega, by omega, ?_⟩
    simp [List.take_length, List.append_assoc]
    omega
  · set B := writeU16 0xFFFF ++ writeU16 mux ++ writeU32 data.length ++ data
      with hBdef
    have hB0 : readU16 B 0 = 0xFFFF := by
      have e : B = writeU16 0xFFFF ++ (writeU16 mux ++ (writeU32 data.length ++
          data)) := by
        rw [hBdef]; simp [List.append_assoc]
      rw [e, readU16_writeU16, Nat.mod_eq_of_lt (by norm_num)]
    have hB2 : readU16 B 2 = mux := by
      have e : B = writeU16 0xFFFF ++ (writeU16 mux ++ (writeU32 data.length ++
          data)) := by
        rw [hBdef]; simp [List.append_assoc]
      have h := readU16_enc (writeU16 0xFFFF) mux (writeU32 data.length ++ data)
      rw [show (writeU16 0xFFFF).length = 2 from rfl] at h
      rw [e, h, Nat.mod_eq_of_lt hmux]
    have hrun := runShape_passthrough_enc (B := B) (writeU16 0xFFFF ++ writeU16 mux)
      data [] (by rw [hBdef]; simp [List.append_assoc]) hd
    rw [show (writeU16 0xFFFF ++ writeU16 mux).length = 4 by simp [writeU16]] at hrun
    have hp := parse_done_of_runShape B 0xFFFF mux
      { argc := 0, rlen := data.length, rdata := data }
      (4 + 4 + data.length) hB0 hB2
      (by simp [hBdef, writeU16] <;> omega)
      (by rw [show shapeOf 0xFFFF = Shape.passthrough from by decide]; exact hrun)
    rw [show (4 : Nat) + 4 + data.length - 4 = 4 + data.length by omega] at hp
    rw [show (4 : Nat) + 4 + data.length = B.length
      by simp [hBdef, writeU16, writeU32] <;> omega] at hp
    exact hp

/-- C3 counterexample: a module record (opcode 0xF000) for JSON.GET —
`module_id = 0`, `command_id = 0`, `argc = 2` — serializes through the
generic `serialize_module_command` fallback as two plain `[2B len]`
strings with no count, but the parser's JSON.GET fast path (mid 0,
cid 0) expects `[2B key][2B path][4B json][1B]`: parsing the serializer's
own 14-byte output does not return the record — it reports incomplete
(the 4-byte json length read runs past the buffer). -/
theorem c3_module_generic_counterexample :
    respb_serialize_command 1024
      { opcode := 0xF000, mux_id := 0, argc := 2, args := [[107], [112]],
        raw_payload_len := 0, module_subcommand := 0, module_id := 0,
        command_id := 0 } =
      some [0xF0, 0x00, 0x00, 0x00, 0x00, 0x00, 0x00, 0x00,
            0x00, 0x01, 107, 0x00, 0x01, 112] ∧
    respb_parse_command
      [0xF0, 0x00, 0x00, 0x00, 0x00, 0x00, 0x00, 0x00,
       0x00, 0x01, 107, 0x00, 0x01, 112] 14 0 = PRes.more 14 := by
  constructor
  · decide
  · decide

/-- C3 (amended): the serialize-then-parse round trip holds for the
non-module opcodes with dedicated serializer paths (and for the RESP
passthrough): the parsed record reproduces opcode, mux_id, argc and the
argument bytes (modulo the parser-skipped fixed numerics).  Module
records serialized through the generic fallback are excluded — see the
counterexample.  Parts: key-only class, SET, APPEND, INCRBY/DECRBY,
MGET/DEL/EXISTS (≤ 64 keys), MSET (≤ 31 pairs), LPUSH/RPUSH/SADD
(≤ 63 values), HSET (≤ 30 pairs), HGET, PING/MULTI/EXEC, passthrough. -/
theorem c3_amended_roundtrip :
    (∀ (op mux : Nat) (k : List Nat) (bufLen : Nat),
      op = 0x0000 ∨ op = 0x0009 ∨ op = 0x0003 ∨ op = 0x02C9 ∨ op = 0x0044 ∨
        op = 0x0084 →
      mux < 2 ^ 16 → k.length < 2 ^ 16 → 6 + k.length ≤ bufLen →
      ∃ out,
        respb_serialize_command bufLen
          { opcode := op, mux_id := mux, argc := 1, args := [k],
            raw_payload_len := 0 } = some out ∧
        respb_parse_command out out.length 0 =
          PRes.done { opcode := op, mux_id := mux, argc := 1, args := [k],
                      raw_payload_len := 2 + k.length } out.length) ∧
    (∀ (mux : Nat) (k v : List Nat) (bufLen : Nat),
      mux < 2 ^ 16 → k.length < 2 ^ 16 → v.length < 2 ^ 32 →
      4 + 2 + k.length + 4 + v.length + 9 ≤ bufLen →
      ∃ out,
        respb_serialize_command bufLen
          { opcode := 0x0001, mux_id := mux, argc := 2, args := [k, v],
            raw_payload_len := 0 } = some out ∧
        respb_parse_command out out.length 0 =
          PRes.done { opcode := 0x0001, mux_id := mux, argc := 2, args := [k, v],
                      raw_payload_len := 2 + k.length + 4 + v.length + 9 }
            out.length) ∧
    (∀ (mux : Nat) (k v : List Nat) (bufLen : Nat),
      mux < 2 ^ 16 → k.length < 2 ^ 16 → v.length < 2 ^ 32 →
      4 + 2 + k.length + 4 + v.length ≤ bufLen →
      ∃ out,
        respb_serialize_command bufLen
          { opcode := 0x0002, mux_id := mux, argc := 2, args := [k, v],
            raw_payload_len := 0 } = some out ∧
        respb_parse_command out out.length 0 =
          PRes.done { opcode := 0x0002, mux_id := mux, argc := 2, args := [k, v],
                      raw_payload_len := 2 + k.length + 4 + v.length } out.length) ∧
    (∀ (op mux : Nat) (k : List Nat) (bufLen : Nat),
      op = 0x000A ∨ op = 0x0004 →
      mux < 2 ^ 16 → k.length < 2 ^ 16 → 4 + 2 + k.length + 8 ≤ bufLen →
      ∃ out,
        respb_serialize_command bufLen
          { opcode := op, mux_id := mux, argc := 1, args := [k],
            raw_payload_len := 0 } = some out ∧
        respb_parse_command out out.length 0 =
          PRes.done { opcode := op, mux_id := mux, argc := 1, args := [k],
                      raw_payload_len := 2 + k.length + 8 } out.length) ∧
    (∀ (op mux : Nat) (ks : List (List Nat)) (bufLen : Nat),
      op = 0x000C ∨ op = 0x02C0 ∨ op = 0x02C2 →
      mux < 2 ^ 16 → ks.length ≤ 64 → (∀ k ∈ ks, k.length < 2 ^ 16) →
      6 + (encList2 ks).length ≤ bufLen →
      ∃ out,
        respb_serialize_command bufLen
          { opcode := op, mux_id := mux, argc := ks.length, args := ks,
            raw_payload_len := 0 } = some out ∧
        respb_parse_command out out.length 0 =
          PRes.done { opcode := op, mux_id := mux, argc := ks.length, args := ks,
                      raw_payload_len := 2 + (encList2 ks).length } out.length) ∧
    (∀ (mux : Nat) (ps : List (List Nat × List Nat)) (bufLen : Nat),
      mux < 2 ^ 16 → 1 ≤ ps.length → ps.length < 32 →
      (∀ p ∈ ps, p.1.length < 2 ^ 16 ∧ p.2.length < 2 ^ 32) →
      6 + (encPairs24 ps).length ≤ bufLen →
      ∃ out,
        respb_serialize_command bufLen
          { opcode := 0x000D, mux_id := mux, argc := ps.length * 2,
            args := flatPairs ps, raw_payload_len := 0 } = some out ∧
        respb_parse_command out out.length 0 =
          PRes.done { opcode := 0x000D, mux_id := mux, argc := ps.length * 2,
                      args := flatPairs ps,
                      raw_payload_len := 2 + (encPairs24 ps).length } out.length) ∧
    (∀ (op mux : Nat) (k : List Nat) (ks : List (List Nat)) (bufLen : Nat),
      op = 0x0040 ∨ op = 0x0041 ∨ op = 0x0080 →
      mux < 2 ^ 16 → k.length < 2 ^ 16 → ks.length ≤ 63 →
      (∀ x ∈ ks, x.length < 2 ^ 16) →
      4 + 2 + k.length + 2 + (encList2 ks).length ≤ bufLen →
      ∃ out,
        respb_serialize_command bufLen
          { opcode := op, mux_id := mux, argc := 1 + ks.length, args := k :: ks,
            raw_payload_len := 0 } = some out ∧
        respb_parse_command out out.length 0 =
          PRes.done { opcode := op, mux_id := mux, argc := 1 + ks.length,
                      args := k :: ks,
                      raw_payload_len := 2 + k.length + 2 + (encList2 ks).length }
            out.length) ∧
    (∀ (mux : Nat) (k : List Nat) (ps : List (List Nat × List Nat)) (bufLen : Nat),
      mux < 2 ^ 16 → k.length < 2 ^ 16 → ps.length < 31 →
      (∀ p ∈ ps, p.1.length < 2 ^ 16 ∧ p.2.length < 2 ^ 32) →
      4 + 2 + k.length + 2 + (encPairs24 ps).length ≤ bufLen →
      ∃ out,
        respb_serialize_command bufLen
          { opcode := 0x0100, mux_id := mux, argc := 1 + ps.length * 2,
            args := k :: flatPairs ps, raw_payload_len := 0 } = some out ∧
        respb_parse_command out out.length 0 =
          PRes.done { opcode := 0x0100, mux_id := mux, argc := 1 + ps.length * 2,
                      args := k :: flatPairs ps,
                      raw_payload_len := 2 + k.length + 2 + (encPairs24 ps).length }
            out.length) ∧
    (∀ (mux : Nat) (k f : List Nat) (bufLen : Nat),
      mux < 2 ^ 16 → k.length < 2 ^ 16 → f.length < 2 ^ 16 →
      4 + 2 + k.length + 2 + f.length ≤ bufLen →
      ∃ out,
        respb_serialize_command bufLen
          { opcode := 0x0101, mux_id := mux, argc := 2, args := [k, f],
            raw_payload_len := 0 } = some out ∧
        respb_parse_command out out.length 0 =
          PRes.done { opcode := 0x0101, mux_id := mux, argc := 2, args := [k, f],
                      raw_payload_len := 2 + k.length + 2 + f.length } out.length) ∧
    (∀ (op mux : Nat) (bufLen : Nat),
      op = 0x0300 ∨ op = 0x0240 ∨ op = 0x0241 →
      mux < 2 ^ 16 → 4 ≤ bufLen →
      ∃ out,
        respb_serialize_command bufLen
          { opcode := op, mux_id := mux, argc := 0, args := [],
            raw_payload_len := 0 } = some out ∧
        respb_parse_command out out.length 0 =
          PRes.done { opcode := op, mux_id := mux, argc := 0, args := [],
                      raw_payload_len := 0 } out.length) ∧
    (∀ (mux : Nat) (data : List Nat) (bufLen : Nat),
      mux < 2 ^ 16 → data.length < 2 ^ 32 → 8 + data.length ≤ bufLen →
      ∃ out,
        respb_serialize_command bufLen
          { opcode := 0xFFFF, mux_id := mux, argc := 0, args := [],
            raw_payload_len := 0, resp_length := data.length,
            resp_data := data } = some out ∧
        respb_parse_command out out.length 0 =
          PRes.done { opcode := 0xFFFF, mux_id := mux, argc := 0, args := [],
                      raw_payload_len := 4 + data.length,
                      resp_length := data.length, resp_data := data } out.length) :=
  ⟨roundtrip_keyClass, roundtrip_SET, roundtrip_APPEND, roundtrip_INCRBY,
   roundtrip_MGET, roundtrip_MSET, roundtrip_LPUSH, roundtrip_HSET,
   roundtrip_HGET, roundtrip_noArgs, roundtrip_passthrough⟩

end Respb
